import Mathlib

/-!
# JWS verification of App Store notifications (`appstore.go`)

A shallow embedding of `verifyAndDecodeJWS` and of the library operations it
calls.  A Go `string` / `[]byte` is a sequence of bytes, here `List Nat`.

* `strings.Split` and `encoding/base64` are embedded as total functions on
  byte sequences, following the Go standard library.
* `encoding/json`, `crypto/x509`, `crypto/sha256` and `crypto/ecdsa` are taken
  as parameters: a value of `Lib` supplies them, and every theorem that
  quantifies over `Lib` holds for whatever these operations compute.
* Every library call the function makes is recorded, in program order, in the
  `calls` field of its result, so that "is rejected before X is attempted" is
  a statement about the recorded calls.
-/

namespace Apple

/-- Go `string` and `[]byte`: a sequence of bytes. -/
abbrev GoString := List Nat

/-- The bytes of an ASCII literal. -/
def str (s : String) : GoString := s.toList.map Char.toNat

/-- Well-formed byte sequence: every element is a byte. -/
def IsBytes (s : GoString) : Prop := ∀ b ∈ s, b < 256

instance (s : GoString) : Decidable (IsBytes s) := by
  unfold IsBytes
  infer_instance

/-! ## appstore_errors.go -/

/-- `type ASErrorCode string`. -/
abbrev ASErrorCode := GoString

def ASErrorInvalidPayload : ASErrorCode := str "INVALID_PAYLOAD"
def ASErrorInvalidJWS : ASErrorCode := str "INVALID_JWS"
def ASErrorCertificateInvalid : ASErrorCode := str "CERTIFICATE_INVALID"
def ASErrorSignatureInvalid : ASErrorCode := str "SIGNATURE_INVALID"
def ASErrorUnsupportedAlgo : ASErrorCode := str "UNSUPPORTED_ALGORITHM"
def ASErrorInvalidCertChain : ASErrorCode := str "INVALID_CERT_CHAIN"
def ASErrorDecodeError : ASErrorCode := str "DECODE_ERROR"

/-- `type ASError struct { Code ASErrorCode; Reason string }`. -/
structure ASError where
  Code : ASErrorCode
  Reason : GoString
deriving DecidableEq

/-! ## strings.Split with a one-byte separator -/

/-- `strings.Split(s, sep)` for a separator of one byte: the pieces of `s`
between consecutive occurrences of `sep`; the empty string gives one empty piece. -/
def Split : GoString → Nat → List GoString
  | [], _ => [[]]
  | c :: cs, sep =>
    if c = sep then [] :: Split cs sep
    else match Split cs sep with
      | [] => [[c]]
      | p :: ps => (c :: p) :: ps

/-! ## encoding/base64 -/

namespace base64

/-- The alphabet of `base64.StdEncoding`. -/
def encodeStd : GoString :=
  str "ABCDEFGHIJKLMNOPQRSTUVWXYZabcdefghijklmnopqrstuvwxyz0123456789+/"

/-- The alphabet of `base64.URLEncoding` and `base64.RawURLEncoding`. -/
def encodeURL : GoString :=
  str "ABCDEFGHIJKLMNOPQRSTUVWXYZabcdefghijklmnopqrstuvwxyz0123456789-_"

/-- The decode map of an alphabet: the 6-bit value of a character, `none`
(Go: `0xff`) for a character outside the alphabet. -/
def decodeMap (alphabet : GoString) (c : Nat) : Option Nat :=
  if alphabet.indexOf c < 64 then some (alphabet.indexOf c) else none

/-- The 6-bit values of a run of characters; `none` when one of them is
outside the alphabet. -/
def decodeChars (alphabet : GoString) : GoString → Option (List Nat)
  | [] => some []
  | c :: cs =>
    match decodeMap alphabet c, decodeChars alphabet cs with
    | some v, some vs => some (v :: vs)
    | _, _ => none

/-- The decoder skips `'\n'` and `'\r'` wherever they occur. -/
def stripNewlines (s : GoString) : GoString :=
  s.filter (fun c => !(c == 10 || c == 13))

/-- Quanta of four 6-bit values give three bytes each; a final quantum of two
or three values gives one or two bytes (non-strict: the unused low bits are
not inspected); a final quantum of one value is corrupt input. -/
def decodeQuanta : List Nat → Option GoString
  | [] => some []
  | [_] => none
  | [a, b] =>
    let val := a * 2 ^ 18 + b * 2 ^ 12
    some [val / 2 ^ 16 % 256]
  | [a, b, c] =>
    let val := a * 2 ^ 18 + b * 2 ^ 12 + c * 2 ^ 6
    some [val / 2 ^ 16 % 256, val / 2 ^ 8 % 256]
  | a :: b :: c :: d :: rest =>
    let val := a * 2 ^ 18 + b * 2 ^ 12 + c * 2 ^ 6 + d
    match decodeQuanta rest with
    | none => none
    | some out => some (val / 2 ^ 16 % 256 :: val / 2 ^ 8 % 256 :: val % 256 :: out)

/-- Bytes to 6-bit values: three bytes give four values, a remainder of one
or two bytes gives two or three values. -/
def encodeQuanta : GoString → List Nat
  | [] => []
  | [x] =>
    let val := x * 2 ^ 16
    [val / 2 ^ 18 % 64, val / 2 ^ 12 % 64]
  | [x, y] =>
    let val := x * 2 ^ 16 + y * 2 ^ 8
    [val / 2 ^ 18 % 64, val / 2 ^ 12 % 64, val / 2 ^ 6 % 64]
  | x :: y :: z :: rest =>
    let val := x * 2 ^ 16 + y * 2 ^ 8 + z
    val / 2 ^ 18 % 64 :: val / 2 ^ 12 % 64 :: val / 2 ^ 6 % 64 :: val % 64 :: encodeQuanta rest

/-- Padding characters `'='` that complete the last quantum. -/
def padding (n : Nat) : GoString :=
  if n % 3 = 1 then [61, 61] else if n % 3 = 2 then [61] else []

/-- Removes the one or two `'='` that may end a padded encoding. -/
def dropPadding (s : GoString) : GoString :=
  match s.reverse with
  | 61 :: 61 :: r => r.reverse
  | 61 :: r => r.reverse
  | _ => s

namespace RawURLEncoding

/-- `base64.RawURLEncoding.DecodeString`: `none` stands for a non-nil error. -/
def DecodeString (s : GoString) : Option GoString :=
  match decodeChars encodeURL (stripNewlines s) with
  | none => none
  | some vals => decodeQuanta vals

/-- `base64.RawURLEncoding.EncodeToString`. -/
def EncodeToString (src : GoString) : GoString :=
  (encodeQuanta src).map (fun v => encodeURL.getD v 0)

end RawURLEncoding

namespace StdEncoding

/-- `base64.StdEncoding.DecodeString`: padded, so the length without newlines
is a multiple of four and `'='` occurs only as the final padding. -/
def DecodeString (s : GoString) : Option GoString :=
  if (stripNewlines s).length % 4 ≠ 0 then none
  else match decodeChars encodeStd (dropPadding (stripNewlines s)) with
    | none => none
    | some vals => decodeQuanta vals

/-- `base64.StdEncoding.EncodeToString`. -/
def EncodeToString (src : GoString) : GoString :=
  (encodeQuanta src).map (fun v => encodeStd.getD v 0) ++ padding src.length

end StdEncoding

end base64

/-! ## Library types and operations taken as parameters -/

/-- The `PublicKey any` field of a certificate: an `*ecdsa.PublicKey`, or a
key of another type. -/
inductive PublicKey where
  | ecdsa (key : GoString)
  | other (key : GoString)
deriving DecidableEq

/-- `x509.Certificate`: the DER bytes and the public key parsed from them. -/
structure Certificate where
  Raw : GoString
  PublicKey : PublicKey
deriving DecidableEq

/-- `x509.CertPool`. -/
abbrev CertPool := List Certificate

/-- `x509.NewCertPool()`. -/
def NewCertPool : CertPool := []

/-- `(*CertPool).AddCert`: a certificate already in the pool is not added again. -/
def AddCert (s : CertPool) (cert : Certificate) : CertPool :=
  if cert ∈ s then s else s ++ [cert]

/-- `type jwsHeader struct { Alg string; X5C []string }`. -/
structure jwsHeader where
  Alg : GoString
  X5C : List GoString
deriving DecidableEq

/-- The operations of `encoding/json`, `crypto/x509`, `crypto/sha256` and
`crypto/ecdsa` that `appstore.go` and `appstore_test.go` call.  `none` in a
result of `Unmarshal` or `ParseCertificate` stands for a non-nil error;
`Verify` returns the error text, `none` when a chain was found. -/
structure Lib where
  /-- `json.Unmarshal(data, &header)` for a `jwsHeader`. -/
  Unmarshal : GoString → Option jwsHeader
  /-- `json.Marshal(header)`. -/
  Marshal : jwsHeader → GoString
  /-- `x509.ParseCertificate(der)`. -/
  ParseCertificate : GoString → Option Certificate
  /-- `leaf.Verify(x509.VerifyOptions{Roots, Intermediates})` at the
  instant `now` (the options leave `CurrentTime` zero, so the clock is read). -/
  Verify : (now : Nat) → (leaf : Certificate) → (Roots Intermediates : CertPool) → Option GoString
  /-- `sha256.Sum256(data)`. -/
  Sum256 : GoString → GoString
  /-- `ecdsa.VerifyASN1(pub, hash, sig)`. -/
  VerifyASN1 : (pub hash sig : GoString) → Bool
  /-- `ecdsa.SignASN1(rand, priv, hash)`, with the random bytes read. -/
  SignASN1 : (rand priv hash : GoString) → GoString

/-- A library call made by `verifyAndDecodeJWS`, with its arguments. -/
inductive Call where
  | RawURLDecode (s : GoString)
  | Unmarshal (data : GoString)
  | StdDecode (s : GoString)
  | ParseCertificate (der : GoString)
  | AddCert (cert : Certificate)
  | Verify (leaf : Certificate) (Roots Intermediates : CertPool)
  | Sum256 (data : GoString)
  | VerifyASN1 (pub hash sig : GoString)
deriving DecidableEq

/-- What `verifyAndDecodeJWS` returns, `([]byte, error)`, together with the
library calls it made. -/
structure Result where
  payload : Option GoString
  err : Option ASError
  calls : List Call
deriving DecidableEq

/-- `return nil, &ASError{Code, Reason}`. -/
def fail (calls : List Call) (Code : ASErrorCode) (Reason : GoString) : Result :=
  ⟨none, some ⟨Code, Reason⟩, calls⟩

/-! ## appstore.go -/

/-- The loop over `header.X5C`: each entry is decoded from standard base64 and
parsed, in order; the first failure ends the loop with its error. -/
def parseX5C (L : Lib) : List GoString → List Call × Except ASError (List Certificate)
  | [] => ([], .ok [])
  | certB64 :: rest =>
    match base64.StdEncoding.DecodeString certB64 with
    | none =>
      ([.StdDecode certB64],
        .error ⟨ASErrorCertificateInvalid, str "invalid x5c certificate encoding"⟩)
    | some certDER =>
      match L.ParseCertificate certDER with
      | none =>
        ([.StdDecode certB64, .ParseCertificate certDER],
          .error ⟨ASErrorCertificateInvalid, str "invalid x5c certificate"⟩)
      | some cert =>
        match parseX5C L rest with
        | (cs, .error e) => (.StdDecode certB64 :: .ParseCertificate certDER :: cs, .error e)
        | (cs, .ok certs) =>
          (.StdDecode certB64 :: .ParseCertificate certDER :: cs, .ok (cert :: certs))

/-- The loop `for _, cert := range certs[1:] { intermediates.AddCert(cert) }`. -/
def addIntermediates (certs : List Certificate) : CertPool :=
  certs.foldl AddCert NewCertPool

/-- The function `verifyAndDecodeJWS(token, rootCertPool)`, run at the instant `now`. -/
def verifyAndDecodeJWS (L : Lib) (now : Nat) (token : GoString) (rootCertPool : CertPool) :
    Result :=
  match Split token 46 with
  | [headerB64, payloadB64, signatureB64] =>
    let c1 := [Call.RawURLDecode headerB64]
    match base64.RawURLEncoding.DecodeString headerB64 with
    | none => fail c1 ASErrorInvalidJWS (str "invalid header encoding")
    | some headerBytes =>
    let c2 := c1 ++ [Call.Unmarshal headerBytes]
    match L.Unmarshal headerBytes with
    | none => fail c2 ASErrorInvalidJWS (str "invalid header JSON")
    | some header =>
    if header.Alg ≠ str "ES256" then
      fail c2 ASErrorUnsupportedAlgo (str "expected ES256, got " ++ header.Alg)
    else if header.X5C.length = 0 then
      fail c2 ASErrorCertificateInvalid (str "empty x5c chain")
    else
    match parseX5C L header.X5C with
    | (cs, .error e) => ⟨none, some e, c2 ++ cs⟩
    -- not reached: `parseX5C` returns one certificate for each entry (`parseX5C_ok`)
    | (_, .ok []) => fail c2 ASErrorCertificateInvalid (str "empty x5c chain")
    | (cs, .ok (leaf :: rest)) =>
    let intermediates := addIntermediates rest
    let c3 := c2 ++ cs ++ rest.map Call.AddCert ++ [Call.Verify leaf rootCertPool intermediates]
    match L.Verify now leaf rootCertPool intermediates with
    | some msg => fail c3 ASErrorInvalidCertChain msg
    | none =>
    match leaf.PublicKey with
    | .other _ =>
      fail c3 ASErrorCertificateInvalid
        (str "leaf certificate does not contain an ECDSA public key")
    | .ecdsa pubKey =>
    let signingInput := headerB64 ++ str "." ++ payloadB64
    let hash := L.Sum256 signingInput
    let c4 := c3 ++ [Call.Sum256 signingInput, Call.RawURLDecode signatureB64]
    match base64.RawURLEncoding.DecodeString signatureB64 with
    | none => fail c4 ASErrorSignatureInvalid (str "invalid signature encoding")
    | some signatureBytes =>
    let c5 := c4 ++ [Call.VerifyASN1 pubKey hash signatureBytes]
    if !L.VerifyASN1 pubKey hash signatureBytes then
      fail c5 ASErrorSignatureInvalid (str "signature verification failed")
    else
    let c6 := c5 ++ [Call.RawURLDecode payloadB64]
    match base64.RawURLEncoding.DecodeString payloadB64 with
    | none => fail c6 ASErrorDecodeError (str "invalid payload encoding")
    | some payloadBytes => ⟨some payloadBytes, none, c6⟩
  | _ => fail [] ASErrorInvalidJWS (str "expected 3 parts")

/-! ## Certificate pools as shared objects

A `*x509.CertPool` is a pointer: `AddCert` changes the pool it is called on for
every holder of the pointer.  In this section the pools of the process form a
heap and a pointer is an index into it.  The operations on pools are
`x509.NewCertPool` and `AddCert`; `Verify` reads the pools it is given.
`verifyAndDecodeJWSHeap` is `verifyAndDecodeJWS` read in this way
(`heap_refines`), and the three methods of `appStoreNotifications` call it. -/

/-- The certificate pools of the process. -/
abbrev Heap := List CertPool

/-- The pool that the pointer `p` refers to. -/
def Heap.pool (H : Heap) (p : Nat) : CertPool := H.getD p []

/-- `x509.NewCertPool()`: a pointer to a new, empty pool. -/
def Heap.newCertPool (H : Heap) : Nat × Heap := (H.length, H ++ [NewCertPool])

/-- `pool.AddCert(cert)` for the pool that `p` points to. -/
def Heap.addCert (H : Heap) (p : Nat) (cert : Certificate) : Heap :=
  H.set p (Apple.AddCert (H.pool p) cert)

/-- The function `verifyAndDecodeJWS(token, rootCertPool)` with `rootCertPool` a
pointer into the heap `H`; it returns the heap after the call as well. -/
def verifyAndDecodeJWSHeap (L : Lib) (now : Nat) (token : GoString) (rootCertPool : Nat)
    (H : Heap) : Result × Heap :=
  match Split token 46 with
  | [headerB64, payloadB64, signatureB64] =>
    let c1 := [Call.RawURLDecode headerB64]
    match base64.RawURLEncoding.DecodeString headerB64 with
    | none => (fail c1 ASErrorInvalidJWS (str "invalid header encoding"), H)
    | some headerBytes =>
    let c2 := c1 ++ [Call.Unmarshal headerBytes]
    match L.Unmarshal headerBytes with
    | none => (fail c2 ASErrorInvalidJWS (str "invalid header JSON"), H)
    | some header =>
    if header.Alg ≠ str "ES256" then
      (fail c2 ASErrorUnsupportedAlgo (str "expected ES256, got " ++ header.Alg), H)
    else if header.X5C.length = 0 then
      (fail c2 ASErrorCertificateInvalid (str "empty x5c chain"), H)
    else
    match parseX5C L header.X5C with
    | (cs, .error e) => (⟨none, some e, c2 ++ cs⟩, H)
    -- not reached: `parseX5C` returns one certificate for each entry (`parseX5C_ok`)
    | (_, .ok []) => (fail c2 ASErrorCertificateInvalid (str "empty x5c chain"), H)
    | (cs, .ok (leaf :: rest)) =>
    let intermediates := H.newCertPool.1
    let H1 := H.newCertPool.2
    let H2 := rest.foldl (fun heap cert => heap.addCert intermediates cert) H1
    let c3 := c2 ++ cs ++ rest.map Call.AddCert ++
      [Call.Verify leaf (H2.pool rootCertPool) (H2.pool intermediates)]
    match L.Verify now leaf (H2.pool rootCertPool) (H2.pool intermediates) with
    | some msg => (fail c3 ASErrorInvalidCertChain msg, H2)
    | none =>
    match leaf.PublicKey with
    | .other _ =>
      (fail c3 ASErrorCertificateInvalid
        (str "leaf certificate does not contain an ECDSA public key"), H2)
    | .ecdsa pubKey =>
    let signingInput := headerB64 ++ str "." ++ payloadB64
    let hash := L.Sum256 signingInput
    let c4 := c3 ++ [Call.Sum256 signingInput, Call.RawURLDecode signatureB64]
    match base64.RawURLEncoding.DecodeString signatureB64 with
    | none => (fail c4 ASErrorSignatureInvalid (str "invalid signature encoding"), H2)
    | some signatureBytes =>
    let c5 := c4 ++ [Call.VerifyASN1 pubKey hash signatureBytes]
    if !L.VerifyASN1 pubKey hash signatureBytes then
      (fail c5 ASErrorSignatureInvalid (str "signature verification failed"), H2)
    else
    let c6 := c5 ++ [Call.RawURLDecode payloadB64]
    match base64.RawURLEncoding.DecodeString payloadB64 with
    | none => (fail c6 ASErrorDecodeError (str "invalid payload encoding"), H2)
    | some payloadBytes => (⟨some payloadBytes, none, c6⟩, H2)
  | _ => (fail [] ASErrorInvalidJWS (str "expected 3 parts"), H)

/-- `type ASSignedPayload struct { SignedPayload string }`. -/
structure ASSignedPayload where
  SignedPayload : GoString
deriving DecidableEq

/-- `type appStoreNotifications struct { rootCertPool *x509.CertPool }`. -/
structure appStoreNotifications where
  rootCertPool : Nat
deriving DecidableEq

/-- `json.Unmarshal` at the four types that the methods of
`appStoreNotifications` decode; a failure carries the text of its error.  The
records `ASNotificationV2`, `ASTransactionInfo` and `ASRenewalInfo` of
`appstore_types.go` are the parameters `N`, `T` and `R`. -/
structure JSON (N T R : Type) where
  UnmarshalSignedPayload : GoString → Except GoString ASSignedPayload
  UnmarshalNotificationV2 : GoString → Except GoString N
  UnmarshalTransactionInfo : GoString → Except GoString T
  UnmarshalRenewalInfo : GoString → Except GoString R

/-- What a method of `appStoreNotifications` does, in order: a `json.Unmarshal`
of the given bytes, or a call of `verifyAndDecodeJWS` on the given token. -/
inductive Step where
  | Unmarshal (data : GoString)
  | verify (token : GoString)
  deriving DecidableEq

/-- What a method returns, `(*T, error)`, and the steps it took. -/
structure Ret (α : Type) where
  value : Option α
  err : Option ASError
  steps : List Step

/-- The method `ParseV2`, with the heap of pools before and after the call. -/
def ParseV2 {N T R : Type} (J : JSON N T R) (L : Lib) (now : Nat) (a : appStoreNotifications)
    (payload : GoString) (H : Heap) : Ret N × Heap :=
  match J.UnmarshalSignedPayload payload with
  | .error msg => (⟨none, some ⟨ASErrorInvalidPayload, msg⟩, [.Unmarshal payload]⟩, H)
  | .ok signed =>
    if signed.SignedPayload = [] then
      (⟨none, some ⟨ASErrorInvalidPayload, str "missing signedPayload"⟩, [.Unmarshal payload]⟩, H)
    else
      match verifyAndDecodeJWSHeap L now signed.SignedPayload a.rootCertPool H with
      | (⟨_, some err, _⟩, H1) =>
        (⟨none, some err, [.Unmarshal payload, .verify signed.SignedPayload]⟩, H1)
      | (⟨decoded, none, _⟩, H1) =>
        match J.UnmarshalNotificationV2 (decoded.getD []) with
        | .error msg =>
          (⟨none, some ⟨ASErrorInvalidPayload, msg⟩,
            [.Unmarshal payload, .verify signed.SignedPayload, .Unmarshal (decoded.getD [])]⟩, H1)
        | .ok notification =>
          (⟨some notification, none,
            [.Unmarshal payload, .verify signed.SignedPayload, .Unmarshal (decoded.getD [])]⟩, H1)

/-- The method `DecodeTransactionInfo`. -/
def DecodeTransactionInfo {N T R : Type} (J : JSON N T R) (L : Lib) (now : Nat)
    (a : appStoreNotifications) (signedTransactionInfo : GoString) (H : Heap) : Ret T × Heap :=
  match verifyAndDecodeJWSHeap L now signedTransactionInfo a.rootCertPool H with
  | (⟨_, some err, _⟩, H1) => (⟨none, some err, [.verify signedTransactionInfo]⟩, H1)
  | (⟨decoded, none, _⟩, H1) =>
    match J.UnmarshalTransactionInfo (decoded.getD []) with
    | .error msg =>
      (⟨none, some ⟨ASErrorInvalidPayload, msg⟩,
        [.verify signedTransactionInfo, .Unmarshal (decoded.getD [])]⟩, H1)
    | .ok txn =>
      (⟨some txn, none, [.verify signedTransactionInfo, .Unmarshal (decoded.getD [])]⟩, H1)

/-- The method `DecodeRenewalInfo`. -/
def DecodeRenewalInfo {N T R : Type} (J : JSON N T R) (L : Lib) (now : Nat)
    (a : appStoreNotifications) (signedRenewalInfo : GoString) (H : Heap) : Ret R × Heap :=
  match verifyAndDecodeJWSHeap L now signedRenewalInfo a.rootCertPool H with
  | (⟨_, some err, _⟩, H1) => (⟨none, some err, [.verify signedRenewalInfo]⟩, H1)
  | (⟨decoded, none, _⟩, H1) =>
    match J.UnmarshalRenewalInfo (decoded.getD []) with
    | .error msg =>
      (⟨none, some ⟨ASErrorInvalidPayload, msg⟩,
        [.verify signedRenewalInfo, .Unmarshal (decoded.getD [])]⟩, H1)
    | .ok renewal =>
      (⟨some renewal, none, [.verify signedRenewalInfo, .Unmarshal (decoded.getD [])]⟩, H1)

/-- The seven constants of type `ASErrorCode`. -/
def ASErrorCodes : List ASErrorCode :=
  [ASErrorInvalidPayload, ASErrorInvalidJWS, ASErrorCertificateInvalid, ASErrorSignatureInvalid,
    ASErrorUnsupportedAlgo, ASErrorInvalidCertChain, ASErrorDecodeError]

/-! ## appstore_test.go -/

/-- The test helper `createTestJWS`: a token for `payload` whose header carries
the leaf and the intermediate certificate and whose signature is made with the
leaf key over the first two segments. -/
def createTestJWS (L : Lib) (rand leafDER intermediateDER leafKey payload : GoString) :
    GoString :=
  let header : jwsHeader :=
    ⟨str "ES256",
      [base64.StdEncoding.EncodeToString leafDER,
       base64.StdEncoding.EncodeToString intermediateDER]⟩
  let headerBytes := L.Marshal header
  let headerB64 := base64.RawURLEncoding.EncodeToString headerBytes
  let payloadB64 := base64.RawURLEncoding.EncodeToString payload
  let signingInput := headerB64 ++ str "." ++ payloadB64
  let hash := L.Sum256 signingInput
  let signature := L.SignASN1 rand leafKey hash
  let signatureB64 := base64.RawURLEncoding.EncodeToString signature
  headerB64 ++ str "." ++ payloadB64 ++ str "." ++ signatureB64

/-! ## A small library instance

`demoLib` is an instance of `Lib` small enough to evaluate by hand.  A
certificate is four bytes `[48, t, k, i]`: `t = 1` for an ECDSA key and `t = 2`
for another key type, `k` the key and `i` the key of the issuer.  A chain is a
sequence of certificates each issued by the next, ending at a root of the pool,
and it is valid up to the instant 1000.  The digest of a message is its length
and the sum of its bytes, modulo 256; the signature of a digest under a key is
`48` followed by the key and the digest.  The header texts it reads are the
ones listed in `demoHeaders`; as with `encoding/json`, a field that the text
does not mention keeps its zero value. -/

/-- The header texts `demoLib` reads, each with the header it stands for. -/
def demoHeaders : List (GoString × jwsHeader) :=
  [ (str "\x7b\"alg\":\"ES256\",\"x5c\":[\"MAEJCA==\",\"MAEIBw==\"]\x7d",
      ⟨str "ES256", [str "MAEJCA==", str "MAEIBw=="]⟩),
    (str "\x7b\"alg\":\"RS256\",\"x5c\":[\"MAEJCA==\",\"MAEIBw==\"]\x7d",
      ⟨str "RS256", [str "MAEJCA==", str "MAEIBw=="]⟩),
    (str "\x7b\"alg\":\"ES256\",\"x5c\":[]\x7d", ⟨str "ES256", []⟩),
    (str "\x7b\"alg\":\"ES256\",\"x5c\":[\"MAEJCA==\",\"!\"]\x7d",
      ⟨str "ES256", [str "MAEJCA==", str "!"]⟩),
    (str "\x7b\"alg\":\"ES256\",\"x5c\":[\"MAIJCA==\",\"MAEIBw==\"]\x7d",
      ⟨str "ES256", [str "MAIJCA==", str "MAEIBw=="]⟩),
    (str "\x7b\"x5c\":[\"MAEJCA==\",\"MAEIBw==\"]\x7d",
      ⟨[], [str "MAEJCA==", str "MAEIBw=="]⟩),
    (str "\x7b\"alg\":\"ES256\"\x7d", ⟨str "ES256", []⟩),
    (str "\x7b\"alg\":\"ES256\",\"x5c\":[\"MAEJCA==\",\"MAEI_w==\"]\x7d",
      ⟨str "ES256", [str "MAEJCA==", str "MAEI_w=="]⟩),
    (str "\x7b\"alg\":\"RS256\",\"x5c\":[\"MAEJCA==\",\"MAEI_w==\"]\x7d",
      ⟨str "RS256", [str "MAEJCA==", str "MAEI_w=="]⟩) ]

def demoUnmarshal (data : GoString) : Option jwsHeader :=
  (demoHeaders.find? (fun e => e.1 == data)).map (fun e => e.2)

def demoMarshal (header : jwsHeader) : GoString :=
  ((demoHeaders.find? (fun e => e.2 == header)).map (fun e => e.1)).getD []

def demoParseCertificate : GoString → Option Certificate
  | [48, 1, k, i] => some ⟨[48, 1, k, i], .ecdsa [k]⟩
  | [48, 2, k, i] => some ⟨[48, 2, k, i], .other [k]⟩
  | _ => none

/-- The certificate `c` names the key of `parent` as its issuer. -/
def demoIssued (c parent : Certificate) : Bool :=
  c.Raw.getD 3 0 == parent.Raw.getD 2 0

/-- A chain of at most `n` steps from `c` to a root, through the intermediates. -/
def demoPath (Roots Intermediates : CertPool) : Nat → Certificate → Bool
  | 0, _ => false
  | n + 1, c =>
    Roots.any (demoIssued c) ||
      Intermediates.any (fun m => demoIssued c m && demoPath Roots Intermediates n m)

def demoVerify (now : Nat) (leaf : Certificate) (Roots Intermediates : CertPool) :
    Option GoString :=
  if now > 1000 then some (str "x509: certificate has expired or is not yet valid")
  else if demoPath Roots Intermediates (Intermediates.length + 1) leaf then none
  else some (str "x509: certificate signed by unknown authority")

def demoSum256 (data : GoString) : GoString :=
  [data.length % 256, data.sum % 256]

def demoVerifyASN1 (pub hash sig : GoString) : Bool :=
  sig == 48 :: (pub ++ hash)

def demoSignASN1 (_rand priv hash : GoString) : GoString :=
  48 :: (priv ++ hash)

def demoLib : Lib where
  Unmarshal := demoUnmarshal
  Marshal := demoMarshal
  ParseCertificate := demoParseCertificate
  Verify := demoVerify
  Sum256 := demoSum256
  VerifyASN1 := demoVerifyASN1
  SignASN1 := demoSignASN1

/-- The root of the demo chain, its own issuer. -/
def demoRoot : Certificate := ⟨[48, 1, 7, 7], .ecdsa [7]⟩

/-- A root that issued no certificate of the demo chain. -/
def otherRoot : Certificate := ⟨[48, 1, 5, 5], .ecdsa [5]⟩

/-- The demo leaf `[48, 1, 9, 8]`, issued by the intermediate `[48, 1, 8, 7]`. -/
def demoLeafDER : GoString := [48, 1, 9, 8]

def demoIntermediateDER : GoString := [48, 1, 8, 7]

/-- The header segment of the demo tokens: the unpadded base64url text of
`{"alg":"ES256","x5c":["MAEJCA==","MAEIBw=="]}`. -/
def demoHeaderB64 : GoString :=
  str "eyJhbGciOiJFUzI1NiIsIng1YyI6WyJNQUVKQ0E9PSIsIk1BRUlCdz09Il19"

/-- The toy envelope reader: `{"signedPayload":"` then the token then `"}`. -/
def demoUnmarshalSignedPayload (data : GoString) : Except GoString ASSignedPayload :=
  if (str "\x7b\"signedPayload\":\"").isPrefixOf data && (str "\"\x7d").isSuffixOf data then
    .ok ⟨(data.drop 18).take (data.length - 20)⟩
  else .error (str "invalid character")

/-- The toy record reader: a text that starts with `{` is its own record. -/
def demoUnmarshalRecord (data : GoString) : Except GoString GoString :=
  if data.head? = some 123 then .ok data else .error (str "unexpected end of JSON input")

def demoJSON : JSON GoString GoString GoString where
  UnmarshalSignedPayload := demoUnmarshalSignedPayload
  UnmarshalNotificationV2 := demoUnmarshalRecord
  UnmarshalTransactionInfo := demoUnmarshalRecord
  UnmarshalRenewalInfo := demoUnmarshalRecord

/-! ## strconv, fmt, strings -/

/-- The decimal digits of a natural number, as bytes. -/
def digits (n : Nat) : GoString := (Nat.toDigits 10 n).map Char.toNat

/-- The call `strconv.FormatInt(i, 10)`, which is also what the verb `%d` prints. -/
def FormatInt (i : Int) : GoString :=
  if i < 0 then 45 :: digits i.natAbs else digits i.natAbs

/-- The function `strconv.FormatBool`. -/
def FormatBool (b : Bool) : GoString := if b then str "true" else str "false"

/-- The value of a run of decimal digits; `none` when a byte is not a digit. -/
def parseDigits : GoString → Nat → Option Nat
  | [], acc => some acc
  | c :: rest, acc => if 48 ≤ c ∧ c ≤ 57 then parseDigits rest (10 * acc + (c - 48)) else none

/-- The function `strconv.Atoi` with a 64-bit `int`: an optional sign, then one
or more decimal digits and nothing else; a value outside the range of `int` is
an error. -/
def Atoi (s : GoString) : Option Int :=
  match s with
  | [] => none
  | 45 :: ds =>
    if ds = [] then none else
      match parseDigits ds 0 with
      | some n => if n ≤ 2 ^ 63 then some (-(n : Int)) else none
      | none => none
  | 43 :: ds =>
    if ds = [] then none else
      match parseDigits ds 0 with
      | some n => if n < 2 ^ 63 then some (n : Int) else none
      | none => none
  | ds =>
    match parseDigits ds 0 with
    | some n => if n < 2 ^ 63 then some (n : Int) else none
    | none => none

/-- An operand of `fmt.Sprintf`: a value of string kind, or an integer. -/
inductive Arg where
  | s (v : GoString)
  | d (v : Int)

/-- The function `fmt.Sprintf` on the formats of this package: `%s` prints an
operand of string kind as it is, `%d` prints an integer in decimal, every other
byte of the format is copied. A verb without a matching operand is outside this
model and is copied as well. -/
def Sprintf : GoString → List Arg → GoString
  | [], _ => []
  | [c], _ => [c]
  | c :: v :: rest, args =>
    if c = 37 then
      match args with
      | .s x :: more => if v = 115 then x ++ Sprintf rest more else c :: Sprintf (v :: rest) args
      | .d x :: more =>
        if v = 100 then FormatInt x ++ Sprintf rest more else c :: Sprintf (v :: rest) args
      | [] => c :: Sprintf (v :: rest) args
    else c :: Sprintf (v :: rest) args

/-- The function `strings.Join`. -/
def Join : List GoString → GoString → GoString
  | [], _ => []
  | [a], _ => a
  | a :: b :: rest, sep => a ++ sep ++ Join (b :: rest) sep

/-- The method `Error` of `*ASError`. -/
def ASError.Error (e : ASError) : GoString :=
  if e.Reason ≠ [] then Sprintf (str "appstore: %s: %s") [.s e.Code, .s e.Reason]
  else Sprintf (str "appstore: %s") [.s e.Code]

/-! ## net/url -/

/-- Whether `QueryEscape` keeps the byte: a letter, a digit, or one of `-_.~`. -/
def unreserved (c : Nat) : Bool :=
  (48 ≤ c && c ≤ 57) || (65 ≤ c && c ≤ 90) || (97 ≤ c && c ≤ 122) ||
    c == 45 || c == 95 || c == 46 || c == 126

/-- The digit `"0123456789ABCDEF"[n]`. -/
def upperhex (n : Nat) : Nat := if n < 10 then 48 + n else 55 + n

/-- The function `url.QueryEscape`: a kept byte is copied, a space becomes `+`,
any other byte becomes `%` and its two hexadecimal digits. -/
def QueryEscape : GoString → GoString
  | [] => []
  | c :: rest =>
    if unreserved c then c :: QueryEscape rest
    else if c = 32 then 43 :: QueryEscape rest
    else 37 :: upperhex (c / 16) :: upperhex (c % 16) :: QueryEscape rest

/-- The order `<` of Go strings: byte by byte, a proper prefix first. -/
def lexLt : GoString → GoString → Bool
  | [], [] => false
  | [], _ :: _ => true
  | _ :: _, [] => false
  | a :: x, b :: y => decide (a < b) || (a == b && lexLt x y)

/-- One step of sorting: `k` put in its place in a sorted list of keys. -/
def insertKey (k : GoString) : List GoString → List GoString
  | [] => [k]
  | x :: xs => if lexLt x k then x :: insertKey k xs else k :: x :: xs

/-- The call `slices.Sort(keys)`. -/
def sortKeys : List GoString → List GoString
  | [] => []
  | k :: ks => insertKey k (sortKeys ks)

/-- The type `url.Values`, a map from a key to its values: each key has one
entry in the list. -/
abbrev Values := List (GoString × List GoString)

/-- The map lookup `v[key]`, nil for a key that is not in the map. -/
def Values.index (v : Values) (key : GoString) : List GoString := (v.lookup key).getD []

/-- The method `Values.Get`: the first value of the key, or the empty string. -/
def Values.Get (v : Values) (key : GoString) : GoString := (Values.index v key).headD []

/-- The method `Values.Add`: `value` is appended to the values of `key`. -/
def Values.Add : Values → GoString → GoString → Values
  | [], key, value => [(key, [value])]
  | (k, vs) :: rest, key, value =>
    if k = key then (k, vs ++ [value]) :: rest else (k, vs) :: Values.Add rest key value

/-- The method `Values.Set`: `value` becomes the only value of `key`. -/
def Values.Set : Values → GoString → GoString → Values
  | [], key, value => [(key, [value])]
  | (k, vs) :: rest, key, value =>
    if k = key then (k, [value]) :: rest else (k, vs) :: Values.Set rest key value

/-- The method `Values.Encode`: the keys in sorted order, for each key its
values in order, each pair written `key=value` with both sides escaped, the
pairs separated by `&`. -/
def Values.Encode (v : Values) : GoString :=
  Join ((sortKeys (v.map Prod.fst)).map fun k =>
    (Values.index v k).map fun x => QueryEscape k ++ str "=" ++ QueryEscape x).flatten (str "&")

/-- The function `strings.Cut` for a one-byte separator: the text before the
first `sep` and the text after it, or the whole text and nothing when there
is no `sep`. -/
def Cut : GoString → Nat → GoString × GoString
  | [], _ => ([], [])
  | c :: rest, sep => if c = sep then ([], rest) else (c :: (Cut rest sep).1, (Cut rest sep).2)

/-- The three parts into which `url.Parse` first divides a string. -/
structure URLParts where
  rest : GoString
  RawQuery : GoString
  fragment : GoString
deriving DecidableEq

/-- The first two steps of `url.Parse` on a string that it accepts: the
fragment, not yet unescaped, is what follows the first `#`, the raw query is
what follows the first `?` before the fragment, and the rest holds the scheme,
the host and the path, not yet unescaped. -/
def splitURL (rawURL : GoString) : URLParts :=
  ⟨(Cut (Cut rawURL 35).1 63).1, (Cut (Cut rawURL 35).1 63).2, (Cut rawURL 35).2⟩

/-- The fields of `url.URL` that this package uses. -/
structure URL where
  Scheme : GoString
  Host : GoString
  Path : GoString
  RawQuery : GoString

/-- The method `(*URL).String` for a URL with a scheme, a host and a path that
needs no escaping: the query follows a `?` when it is not empty. -/
def URL.String (u : URL) : GoString :=
  u.Scheme ++ str "://" ++ u.Host ++ u.Path ++
    (if u.RawQuery ≠ [] then str "?" ++ u.RawQuery else [])

/-! ## url.go -/

def ResponseModeFormPost : GoString := str "form_post"

def ResponseTypeCodeID : GoString := str "code id_token"

/-- The struct `AuthorizeURLConfig`. -/
structure AuthorizeURLConfig where
  ClientID : GoString
  RedirectURI : GoString
  State : GoString
  Scope : List GoString
  Nonce : GoString
  ResponseMode : GoString
  ResponseType : GoString

/-- What `url.Parse("https://appleid.apple.com/auth/authorize")` returns. -/
def authorizeEndpoint : URL := ⟨str "https", str "appleid.apple.com", str "/auth/authorize", []⟩

/-- The function `AuthorizeURL`. -/
def AuthorizeURL (cfg : AuthorizeURLConfig) : GoString :=
  let u := authorizeEndpoint
  let responseMode := if cfg.ResponseMode ≠ [] then cfg.ResponseMode else ResponseModeFormPost
  let responseType := if cfg.ResponseType ≠ [] then cfg.ResponseType else ResponseTypeCodeID
  let q : Values := []
  let q := q.Add (str "response_type") responseType
  let q := q.Add (str "response_mode") responseMode
  let q := q.Add (str "client_id") cfg.ClientID
  let q := q.Add (str "redirect_uri") cfg.RedirectURI
  let q := if cfg.State ≠ [] then q.Add (str "state") cfg.State else q
  let q := if cfg.Nonce ≠ [] then q.Add (str "nonce") cfg.Nonce else q
  let q := if cfg.Scope.length > 0 then q.Add (str "scope") (Join cfg.Scope (str " ")) else q
  URL.String ⟨u.Scheme, u.Host, u.Path, q.Encode⟩

/-! ## appstore_server.go -/

/-- The struct `ASAPIError`; `json.Unmarshal` fills the first two fields only. -/
structure ASAPIError where
  ErrorCode : Int
  ErrorMessage : GoString
  HTTPStatus : Int
  RetryAfter : Int
deriving DecidableEq

/-- The method `Error` of `*ASAPIError`. -/
def ASAPIError.Error (e : ASAPIError) : GoString :=
  if e.ErrorMessage ≠ [] then
    Sprintf (str "appstore api: %d: %s") [.d e.ErrorCode, .s e.ErrorMessage]
  else Sprintf (str "appstore api: %d") [.d e.ErrorCode]

/-- A value of type `error`: an `*ASAPIError`, or an error that only has a
message (made by `fmt.Errorf`, or returned by a library). -/
inductive GoError where
  | api (e : ASAPIError)
  | text (msg : GoString)
deriving DecidableEq

/-- The method `Error` of an error value. -/
def GoError.Error : GoError → GoString
  | .api e => e.Error
  | .text msg => msg

/-- What `doRequest` makes its request from: the method and the URL string that
it gives to `http.NewRequest`, the two headers that it sets, and the body.
`http.NewRequest` parses the string `url` with `url.Parse`, and the request
carries the parsed URL, not the string. -/
structure Request where
  Method : GoString
  url : GoString
  Authorization : GoString
  ContentType : GoString
  Body : Option GoString
deriving DecidableEq

/-- The parts of an `*http.Response` that `doRequest` reads; `Body` is what
`io.ReadAll(resp.Body)` returns. -/
structure Response where
  StatusCode : Int
  Header : Values
  Body : Except GoError GoString

/-- The fields of `appStoreServer` that `doRequest` reads; `httpClient` is the
method `Do` of the client. -/
structure appStoreServer where
  baseURL : GoString
  httpClient : Request → Except GoError Response

/-- What `doRequest` calls besides the client: the method `generateToken`,
`json.Marshal` of the body, the check of `http.NewRequest` on the method and
URL, `json.Unmarshal` into an `ASAPIError` (its `errorCode` and `errorMessage`)
and into the result, and the zero value of the result type. -/
structure ServerLib (β ρ : Type) where
  generateToken : Except GoError GoString
  Marshal : β → Except GoError GoString
  NewRequest : GoString → GoString → Option GoError
  UnmarshalAPIError : GoString → Option (Int × GoString)
  Unmarshal : GoString → Except GoError ρ
  zero : ρ

/-- What a call of `doRequest` does: the error it returns, the value it stores
through `result`, and the requests it passes to the client, each given by what
it was made from. -/
structure Outcome (ρ : Type) where
  err : Option GoError
  result : Option ρ
  sent : List Request

/-- The local variable `fullURL` of `doRequest`: the base URL and the path,
followed by `?` and the encoded query when the query is not nil and its
encoding is not empty. -/
def fullURL (s : appStoreServer) (path : GoString) (queryParams : Option Values) : GoString :=
  let fullURL := s.baseURL ++ path
  match queryParams with
  | some q => if q.Encode ≠ [] then fullURL ++ (str "?" ++ q.Encode) else fullURL
  | none => fullURL

/-- The local variable `bodyReader` of `doRequest`: nil for a nil body, else
the bytes that `json.Marshal` gives, or its error. -/
def bodyReader {β ρ : Type} (E : ServerLib β ρ) (body : Option β) :
    Except GoError (Option GoString) :=
  match body with
  | some b =>
    match E.Marshal b with
    | .error err => .error err
    | .ok bodyBytes => .ok (some bodyBytes)
  | none => .ok none

/-- The statements of `doRequest` after the response body has been read: the
error returned and the value stored through `result`. -/
def handleResponse {β ρ : Type} (E : ServerLib β ρ) (resp : Response) (respBody : GoString)
    (result : Bool) : Option GoError × Option ρ :=
  if resp.StatusCode < 200 ∨ resp.StatusCode ≥ 300 then
    match E.UnmarshalAPIError respBody with
    | some (code, message) =>
      if code ≠ 0 then
        let ra := resp.Header.Get (str "Retry-After")
        let retryAfter : Int :=
          if ra ≠ [] then
            match Atoi ra with
            | some v => v
            | none => 0
          else 0
        (some (.api ⟨code, message, resp.StatusCode, retryAfter⟩), none)
      else
        (some (.text (Sprintf (str "appstore api: unexpected status code: %d")
          [.d resp.StatusCode])), none)
    | none =>
      (some (.text (Sprintf (str "appstore api: unexpected status code: %d")
        [.d resp.StatusCode])), none)
  else if result ∧ respBody.length > 0 then
    match E.Unmarshal respBody with
    | .error err => (some err, none)
    | .ok v => (none, some v)
  else (none, none)

/-- The method `doRequest`; `result` tells whether the result pointer is non-nil.
The request that `http.NewRequest` returns is given by the arguments of that
call, and `E.NewRequest` is the error of the call, if any. -/
def doRequest {β ρ : Type} (E : ServerLib β ρ) (s : appStoreServer) (method path : GoString)
    (queryParams : Option Values) (body : Option β) (result : Bool) : Outcome ρ :=
  match E.generateToken with
  | .error err => ⟨some err, none, []⟩
  | .ok token =>
    match bodyReader E body with
    | .error err => ⟨some err, none, []⟩
    | .ok bodyReader =>
      match E.NewRequest method (fullURL s path queryParams) with
      | some err => ⟨some err, none, []⟩
      | none =>
        let req : Request :=
          ⟨method, fullURL s path queryParams, str "Bearer " ++ token, str "application/json",
            bodyReader⟩
        match s.httpClient req with
        | .error err => ⟨some err, none, [req]⟩
        | .ok resp =>
          match resp.Body with
          | .error err => ⟨some err, none, [req]⟩
          | .ok respBody =>
            ⟨(handleResponse E resp respBody result).1, (handleResponse E resp respBody result).2,
              [req]⟩

/-! ## appstore_server_transactions.go -/

/-- The struct `ASTransactionHistoryParams`; its field `Sort` is `SortOrder` here. -/
structure ASTransactionHistoryParams where
  Revision : GoString
  StartDate : Int
  EndDate : Int
  ProductID : GoString
  ProductType : GoString
  SortOrder : GoString
  InAppOwnershipType : GoString
  Revoked : Option Bool

/-- The query that `GetTransactionHistory` builds from `params`. -/
def historyQuery (params : Option ASTransactionHistoryParams) : Option Values :=
  match params with
  | none => none
  | some params =>
    let q : Values := []
    let q := if params.Revision ≠ [] then q.Set (str "revision") params.Revision else q
    let q := if params.StartDate ≠ 0 then q.Set (str "startDate") (FormatInt params.StartDate)
      else q
    let q := if params.EndDate ≠ 0 then q.Set (str "endDate") (FormatInt params.EndDate) else q
    let q := if params.ProductID ≠ [] then q.Set (str "productId") params.ProductID else q
    let q := if params.ProductType ≠ [] then q.Set (str "productType") params.ProductType else q
    let q := if params.SortOrder ≠ [] then q.Set (str "sort") params.SortOrder else q
    let q := if params.InAppOwnershipType ≠ [] then
      q.Set (str "inAppOwnershipType") params.InAppOwnershipType else q
    let q := match params.Revoked with
      | some revoked => q.Set (str "revoked") (FormatBool revoked)
      | none => q
    some q

/-- The method `GetTransactionHistory`: the pointer and the error it returns,
and the requests sent. -/
def GetTransactionHistory {ρ : Type} (E : ServerLib Unit ρ) (s : appStoreServer)
    (originalTransactionID : GoString) (params : Option ASTransactionHistoryParams) :
    Outcome ρ :=
  let path := Sprintf (str "/inApps/v2/history/%s") [.s originalTransactionID]
  let q := historyQuery params
  let out := doRequest E s (str "GET") path q none true
  match out.err with
  | some err => ⟨some err, none, out.sent⟩
  | none => ⟨none, some (out.result.getD E.zero), out.sent⟩

/-! ## cloudkit.go -/

def cloudKitBaseURL : GoString := str "https://api.apple-cloudkit.com"

def cloudKitVersion : GoString := str "1"

/-- The fields of `cloudKit` other than the HTTP client. -/
structure cloudKit where
  KeyID : GoString
  Container : GoString
  Environment : GoString
  KeyContent : GoString

/-- The method `buildURL`, returning `(fullURL, urlSubpath)`. -/
def buildURL (c : cloudKit) (db subpath : GoString) : GoString × GoString :=
  let urlSubpath := Sprintf (str "/database/%s/%s/%s/%s/%s")
    [.s cloudKitVersion, .s c.Container, .s c.Environment, .s db, .s subpath]
  let fullURL := cloudKitBaseURL ++ urlSubpath
  (fullURL, urlSubpath)

/-! ## cloudkit_errors.go, cloudkit_notifications.go -/

def CKErrorBadRequest : GoString := str "BAD_REQUEST"

/-- The struct `CKError`. -/
structure CKError where
  Code : GoString
  Reason : GoString
  ServerErrorCode : GoString
  RetryAfter : Int
  UUID : GoString
deriving DecidableEq

/-- The struct `CKPushNotification`; `P` is the type `CKNotificationPayload`
and `CK` is nil when `none`. -/
structure CKPushNotification (P : Type) where
  CK : Option P

/-- The function `ParseCKPushNotification`; `Unmarshal` is `json.Unmarshal`
into a `CKPushNotification`, giving the text of its error when it fails. -/
def ParseCKPushNotification {P : Type}
    (Unmarshal : GoString → Except GoString (CKPushNotification P)) (payload : GoString) :
    Option (CKPushNotification P) × Option CKError :=
  match Unmarshal payload with
  | .error err => (none, some ⟨CKErrorBadRequest, err, [], 0, []⟩)
  | .ok notification =>
    if notification.CK.isNone then
      (none, some ⟨CKErrorBadRequest, str "missing ck field", [], 0, []⟩)
    else (some notification, none)

/-! ## user.go -/

/-- A value of the empty interface type: nil, or a value with its dynamic type. A
`float64` is given by its 64 bits; `int` and `other` stand for the dynamic
types that `parseBool` has no case for. -/
inductive Any where
  | nil
  | bool (v : Bool)
  | string (v : GoString)
  | float64 (bits : Nat)
  | int (v : Int)
  | other (typeName : GoString)
deriving DecidableEq

/-- The comparison `v != 0` of a `float64`: false exactly for the two zeros,
whose bits below the sign bit are all clear. -/
def float64NonZero (bits : Nat) : Bool := bits % 2 ^ 63 != 0

/-- The map index `claims[key]`: the value of the key, nil when the key is missing. -/
def mapIndex (claims : List (GoString × Any)) (key : GoString) : Any :=
  (claims.lookup key).getD .nil

/-- The function `parseBool`. -/
def parseBool (claims : List (GoString × Any)) (key : GoString) : Bool :=
  match mapIndex claims key with
  | .bool v => v
  | .string v => v == str "true"
  | .float64 v => float64NonZero v
  | _ => false

/-! ## Instances for the examples of the later sections -/

/-- The toy reader of error bodies: the two bodies of the tests of `doRequest`,
and the empty object, which has no error code. -/
def demoUnmarshalAPIError (data : GoString) : Option (Int × GoString) :=
  if data = str "\x7b\"errorCode\":4040010,\"errorMessage\":\"Transaction not found\"\x7d" then
    some (4040010, str "Transaction not found")
  else if data = str "\x7b\"errorCode\":4290000,\"errorMessage\":\"Rate limit exceeded\"\x7d" then
    some (4290000, str "Rate limit exceeded")
  else if data = str "\x7b\x7d" then some (0, [])
  else none

/-- A toy environment of `doRequest`: the token is `token`, every request is
well formed, and a body is its own result. -/
def demoServerLib : ServerLib Unit GoString where
  generateToken := .ok (str "token")
  Marshal := fun _ => .ok []
  NewRequest := fun _ _ => none
  UnmarshalAPIError := demoUnmarshalAPIError
  Unmarshal := fun data => .ok data
  zero := []

/-- The server of the tests, whose client answers every request with `resp`. -/
def demoServer (resp : Response) : appStoreServer :=
  ⟨str "https://api.storekit-sandbox.itunes.apple.com", fun _ => .ok resp⟩

/-- The toy reader of push payloads: the payload without a `ck` field of
`TestParseCKPushNotification_MissingCKField`, a payload with one, and an error
for every other text. -/
def demoUnmarshalCK (data : GoString) : Except GoString (CKPushNotification (GoString × GoString)) :=
  if data = str "\x7b\"aps\":\x7b\"content-available\":1\x7d\x7d" then .ok ⟨none⟩
  else if data = str "\x7b\"ck\":\x7b\"cid\":\"iCloud.com.example.app\",\"nid\":\"n1\"\x7d\x7d" then
    .ok ⟨some (str "iCloud.com.example.app", str "n1")⟩
  else .error (str "invalid character")

/-- A claims map with a boolean given as a string, as a bool and as a number. -/
def demoClaims : List (GoString × Any) :=
  [(str "email_verified", .string (str "true")), (str "is_private_email", .bool false),
    (str "real_user_status", .float64 (2 ^ 62)), (str "sub", .string (str "user"))]

/-! ## Predicates used in the statements -/

/-- The entries `xs` decode and parse, in order, to the certificates `certs`. -/
def ParsedAs (L : Lib) (xs : List GoString) (certs : List Certificate) : Prop :=
  List.Forall₂ (fun x cert => ∃ der, base64.StdEncoding.DecodeString x = some der ∧
    L.ParseCertificate der = some cert) xs certs

/-- The call is a chain validation or a signature verification. -/
def Call.isVerification : Call → Bool
  | .Verify _ _ _ => true
  | .VerifyASN1 _ _ _ => true
  | _ => false

/-- The entry is not valid standard base64, or its bytes do not parse as a certificate. -/
def BadEntry (L : Lib) (x : GoString) : Prop :=
  base64.StdEncoding.DecodeString x = none ∨
    ∃ der, base64.StdEncoding.DecodeString x = some der ∧ L.ParseCertificate der = none

/-- The byte string `s` with bit `k` of the byte at index `i` inverted. -/
def flipBit (s : GoString) (i k : Nat) : GoString :=
  s.set i (s.getD i 0 ^^^ 2 ^ k)

/-- The token has the three segments `h.p.s`, its header and its chain are
accepted, and its leaf certificate carries the ECDSA key `pub`. -/
def ChainAccepted (L : Lib) (now : Nat) (token : GoString) (rootCertPool : CertPool)
    (h p s pub : GoString) : Prop :=
  ∃ headerBytes header leaf rest,
    Split token 46 = [h, p, s] ∧
    base64.RawURLEncoding.DecodeString h = some headerBytes ∧
    L.Unmarshal headerBytes = some header ∧
    header.Alg = str "ES256" ∧
    ParsedAs L header.X5C (leaf :: rest) ∧
    L.Verify now leaf rootCertPool (addIntermediates rest) = none ∧
    leaf.PublicKey = PublicKey.ecdsa pub

/-- The payload and the error that `verifyAndDecodeJWS` returns. -/
def Result.outcome (r : Result) : Option GoString × Option ASError := (r.payload, r.err)

/-- The error `&ASError{Code, Reason}` with a nil payload. -/
def rejected (Code : ASErrorCode) (Reason : GoString) : Option GoString × Option ASError :=
  (none, some ⟨Code, Reason⟩)

/-- The pair `key=value` of an encoded query, both sides escaped. -/
def queryPair (k v : GoString) : GoString := QueryEscape k ++ str "=" ++ QueryEscape v

/-- The map that holds each key of `fs` that has a value, with that one value. -/
def fieldValues (fs : List (GoString × Option GoString)) : Values :=
  fs.filterMap fun f => f.2.map fun v => (f.1, [v])

/-- The pairs `key=value` of the keys of `fs` that have a value, in the order of `fs`. -/
def fieldPairs (fs : List (GoString × Option GoString)) : List GoString :=
  fs.filterMap fun f => f.2.map fun v => queryPair f.1 v

/-- The query parameters of a transaction history request in the order of
their keys: one for each field of `params` that is not zero, none for nil
`params`. -/
def historyFields (params : Option ASTransactionHistoryParams) :
    List (GoString × Option GoString) :=
  match params with
  | none => []
  | some params =>
    [(str "endDate", if params.EndDate ≠ 0 then some (FormatInt params.EndDate) else none),
      (str "inAppOwnershipType",
        if params.InAppOwnershipType ≠ [] then some params.InAppOwnershipType else none),
      (str "productId", if params.ProductID ≠ [] then some params.ProductID else none),
      (str "productType", if params.ProductType ≠ [] then some params.ProductType else none),
      (str "revision", if params.Revision ≠ [] then some params.Revision else none),
      (str "revoked", params.Revoked.map FormatBool),
      (str "sort", if params.SortOrder ≠ [] then some params.SortOrder else none),
      (str "startDate",
        if params.StartDate ≠ 0 then some (FormatInt params.StartDate) else none)]

/-- The URL of a transaction history request: the base URL, the path that ends
with the identifier and, when `params` has a field that is not zero, a `?` and
the parameters of `historyFields`, written `key=value` and joined by `&`. -/
def historyURL (s : appStoreServer) (originalTransactionID : GoString)
    (params : Option ASTransactionHistoryParams) : GoString :=
  s.baseURL ++ str "/inApps/v2/history/" ++ originalTransactionID ++
    (if fieldPairs (historyFields params) = [] then []
      else str "?" ++ Join (fieldPairs (historyFields params)) (str "&"))

/-! ## Theorems -/

open base64

set_option maxRecDepth 8000

/-! ### encoding/base64 and strings.Split -/

theorem str_dot : str "." = [46] := rfl

theorem Split_of_not_mem (a : GoString) (sep : Nat) (h : sep ∉ a) : Split a sep = [a] := by
  induction a with
  | nil => rfl
  | cons c cs ih =>
    have hc : c ≠ sep := fun e => h (by simp [e])
    have hcs : sep ∉ cs := fun e => h (by simp [e])
    simp [Split, hc, ih hcs]

theorem Split_append (a b : GoString) (sep : Nat) (h : sep ∉ a) :
    Split (a ++ sep :: b) sep = a :: Split b sep := by
  induction a with
  | nil => simp [Split]
  | cons c cs ih =>
    have hc : c ≠ sep := fun e => h (by simp [e])
    have hcs : sep ∉ cs := fun e => h (by simp [e])
    simp [Split, hc, ih hcs]

theorem Split_three (a b c : GoString) (ha : 46 ∉ a) (hb : 46 ∉ b) (hc : 46 ∉ c) :
    Split (a ++ str "." ++ b ++ str "." ++ c) 46 = [a, b, c] := by
  rw [str_dot]
  have e : a ++ [46] ++ b ++ [46] ++ c = a ++ 46 :: (b ++ 46 :: c) := by simp
  rw [e, Split_append _ _ _ ha, Split_append _ _ _ hb, Split_of_not_mem _ _ hc]

theorem encodeURL_char : ∀ v, v < 64 →
    decodeMap encodeURL (encodeURL.getD v 0) = some v ∧ encodeURL.getD v 0 ≠ 10 ∧
      encodeURL.getD v 0 ≠ 13 ∧ encodeURL.getD v 0 ≠ 46 ∧ encodeURL.getD v 0 ≠ 61 := by
  decide

theorem encodeStd_char : ∀ v, v < 64 →
    decodeMap encodeStd (encodeStd.getD v 0) = some v ∧ encodeStd.getD v 0 ≠ 10 ∧
      encodeStd.getD v 0 ≠ 13 ∧ encodeStd.getD v 0 ≠ 46 ∧ encodeStd.getD v 0 ≠ 61 := by
  decide

theorem encodeQuanta_lt (s : GoString) : ∀ v ∈ encodeQuanta s, v < 64 := by
  induction s using encodeQuanta.induct with
  | case1 => simp [encodeQuanta]
  | case2 x => intro v hv; simp [encodeQuanta] at hv; omega
  | case3 x y => intro v hv; simp [encodeQuanta] at hv; omega
  | case4 x y z rest ih =>
    intro v hv
    simp only [encodeQuanta, List.mem_cons] at hv
    rcases hv with h | h | h | h | h
    · omega
    · omega
    · omega
    · omega
    · exact ih v h

theorem decodeQuanta_encodeQuanta (s : GoString) (hs : IsBytes s) :
    decodeQuanta (encodeQuanta s) = some s := by
  induction s using encodeQuanta.induct with
  | case1 => rfl
  | case2 x =>
    have hx : x < 256 := hs x (by simp)
    simp only [encodeQuanta, decodeQuanta, Nat.reducePow]
    congr 2
    omega
  | case3 x y =>
    have hx : x < 256 := hs x (by simp)
    have hy : y < 256 := hs y (by simp)
    simp only [encodeQuanta, decodeQuanta, Nat.reducePow]
    congr 2
    · omega
    · congr 1; omega
  | case4 x y z rest ih =>
    have hx : x < 256 := hs x (by simp)
    have hy : y < 256 := hs y (by simp)
    have hz : z < 256 := hs z (by simp)
    have hr : IsBytes rest := fun b hb => hs b (by simp [hb])
    simp only [encodeQuanta, decodeQuanta, ih hr, Nat.reducePow]
    congr 2
    · omega
    · congr 1
      · omega
      · congr 1; omega

theorem decodeChars_map (alphabet : GoString) (vals : List Nat)
    (h : ∀ v ∈ vals, decodeMap alphabet (alphabet.getD v 0) = some v) :
    decodeChars alphabet (vals.map (fun v => alphabet.getD v 0)) = some vals := by
  induction vals with
  | nil => rfl
  | cons v vs ih =>
    have h1 := h v (by simp)
    have h2 := ih (fun w hw => h w (by simp [hw]))
    simp only [List.map_cons, decodeChars, h1, h2]

theorem stripNewlines_id (s : GoString) (h : ∀ c ∈ s, c ≠ 10 ∧ c ≠ 13) : stripNewlines s = s := by
  unfold stripNewlines
  rw [List.filter_eq_self]
  intro c hc
  have := h c hc
  simp [this.1, this.2]

theorem RawURL_roundtrip (s : GoString) (hs : IsBytes s) :
    RawURLEncoding.DecodeString (RawURLEncoding.EncodeToString s) = some s := by
  have hlt := encodeQuanta_lt s
  unfold RawURLEncoding.DecodeString RawURLEncoding.EncodeToString
  rw [stripNewlines_id, decodeChars_map]
  · exact decodeQuanta_encodeQuanta s hs
  · intro v hv; exact (encodeURL_char v (hlt v hv)).1
  · intro c hc
    rw [List.mem_map] at hc
    obtain ⟨v, hv, rfl⟩ := hc
    have := encodeURL_char v (hlt v hv)
    exact ⟨this.2.1, this.2.2.1⟩

theorem RawURL_no_dot (s : GoString) : 46 ∉ RawURLEncoding.EncodeToString s := by
  intro hc
  unfold RawURLEncoding.EncodeToString at hc
  rw [List.mem_map] at hc
  obtain ⟨v, hv, he⟩ := hc
  exact (encodeURL_char v (encodeQuanta_lt s v hv)).2.2.2.1 he

theorem padding_length (s : GoString) :
    ((encodeQuanta s).length + (padding s.length).length) % 4 = 0 := by
  induction s using encodeQuanta.induct with
  | case1 => rfl
  | case2 x => simp [encodeQuanta, padding]
  | case3 x y => simp [encodeQuanta, padding]
  | case4 x y z rest ih =>
    have e : padding (x :: y :: z :: rest).length = padding rest.length := by
      have e3 : (rest.length + 1 + 1 + 1) % 3 = rest.length % 3 := by omega
      simp only [padding, List.length_cons, e3]
    rw [e]
    simp only [encodeQuanta, List.length_cons]
    omega

theorem padding_cases (n : Nat) : padding n = [61, 61] ∨ padding n = [61] ∨ padding n = [] := by
  unfold padding
  split
  · exact Or.inl rfl
  · split
    · exact Or.inr (Or.inl rfl)
    · exact Or.inr (Or.inr rfl)

theorem dropPadding_append (enc : GoString) (n : Nat) (h : ∀ c ∈ enc, c ≠ 61) :
    dropPadding (enc ++ padding n) = enc := by
  have hrev : ∀ c ∈ enc.reverse, c ≠ 61 := fun c hc => h c (List.mem_reverse.1 hc)
  rcases padding_cases n with e | e | e <;> rw [e] <;> unfold dropPadding
  · simp
  · rcases hr : enc.reverse with _ | ⟨x, r⟩
    · have : enc = [] := by simpa using hr
      subst this
      rfl
    · have hx : x ≠ 61 := hrev x (by simp [hr])
      simp only [List.reverse_append, List.reverse_cons, List.reverse_nil, List.nil_append,
        List.singleton_append, hr]
      split
      · rename_i heq
        simp at heq
        exact absurd heq.1 hx
      · rename_i heq
        simp at heq
        rw [← heq, ← hr, List.reverse_reverse]
      · rename_i h1 h2
        exact absurd rfl (h2 _)
  · simp only [List.append_nil]
    split
    · rename_i heq
      exact absurd rfl (hrev 61 (by simp [heq]))
    · rename_i heq
      exact absurd rfl (hrev 61 (by simp [heq]))
    · rfl


theorem Std_roundtrip (s : GoString) (hs : IsBytes s) :
    StdEncoding.DecodeString (StdEncoding.EncodeToString s) = some s := by
  have hlt := encodeQuanta_lt s
  have hch : ∀ c ∈ (encodeQuanta s).map (fun v => encodeStd.getD v 0),
      c ≠ 10 ∧ c ≠ 13 ∧ c ≠ 61 := by
    intro c hc
    rw [List.mem_map] at hc
    obtain ⟨v, hv, rfl⟩ := hc
    have := encodeStd_char v (hlt v hv)
    exact ⟨this.2.1, this.2.2.1, this.2.2.2.2⟩
  have hpad : ∀ c ∈ padding s.length, c ≠ 10 ∧ c ≠ 13 := by
    intro c hc
    rcases padding_cases s.length with e | e | e <;> rw [e] at hc <;> simp at hc <;> omega
  unfold StdEncoding.DecodeString StdEncoding.EncodeToString
  rw [stripNewlines_id]
  · have hl := padding_length s
    rw [if_neg (by simpa using hl), dropPadding_append _ _ (fun c hc => (hch c hc).2.2),
      decodeChars_map]
    · exact decodeQuanta_encodeQuanta s hs
    · intro v hv; exact (encodeStd_char v (hlt v hv)).1
  · intro c hc
    rcases List.mem_append.1 hc with h | h
    · exact ⟨(hch c h).1, (hch c h).2.1⟩
    · exact hpad c h

/-! ### verifyAndDecodeJWS -/

theorem Split_ne_nil (s : GoString) (sep : Nat) : Split s sep ≠ [] := by
  induction s with
  | nil => simp [Split]
  | cons c cs ih =>
    unfold Split
    split
    · simp
    · split <;> simp

theorem Split_length (s : GoString) (sep : Nat) : (Split s sep).length = s.count sep + 1 := by
  induction s with
  | nil => simp [Split]
  | cons c cs ih =>
    unfold Split
    by_cases h : c = sep
    · subst h; simp [ih]
    · rw [if_neg h, List.count_cons_of_ne (Ne.symm h)]
      rcases hs : Split cs sep with _ | ⟨p, ps⟩
      · exact absurd hs (Split_ne_nil cs sep)
      · rw [hs] at ih; simpa using ih

theorem parseX5C_ok (L : Lib) (xs : List GoString) (cs : List Call) (certs : List Certificate)
    (h : parseX5C L xs = (cs, .ok certs)) : ParsedAs L xs certs := by
  induction xs generalizing cs certs with
  | nil => simp [parseX5C] at h; rw [h.2]; exact List.Forall₂.nil
  | cons x xs ih =>
    rcases hd : StdEncoding.DecodeString x with _ | der
    · simp [parseX5C, hd] at h
    · rcases hp : L.ParseCertificate der with _ | cert
      · simp [parseX5C, hd, hp] at h
      · rcases hr : parseX5C L xs with ⟨cs2, e | certs2⟩
        · simp [parseX5C, hd, hp, hr] at h
        · simp [parseX5C, hd, hp, hr] at h
          rw [← h.2]
          exact List.Forall₂.cons ⟨der, hd, hp⟩ (ih _ _ hr)

theorem parseX5C_of_parsed (L : Lib) (xs : List GoString) (certs : List Certificate)
    (h : ParsedAs L xs certs) : ∃ cs, parseX5C L xs = (cs, .ok certs) := by
  induction h with
  | nil => exact ⟨[], rfl⟩
  | @cons x cert xs certs hx _ ih =>
    obtain ⟨der, hder, hcert⟩ := hx
    obtain ⟨cs, hcs⟩ := ih
    refine ⟨Call.StdDecode x :: Call.ParseCertificate der :: cs, ?_⟩
    simp only [parseX5C, hder, hcert, hcs]

/-- What holds whenever `verifyAndDecodeJWS` returns payload bytes: every check
of the function has passed. -/
theorem accepted_inv (L : Lib) (now : Nat) (token : GoString) (rootCertPool : CertPool)
    (payload : GoString)
    (h : (verifyAndDecodeJWS L now token rootCertPool).payload = some payload) :
    (verifyAndDecodeJWS L now token rootCertPool).err = none ∧
    ∃ headerB64 payloadB64 signatureB64 headerBytes header leaf rest pubKey signatureBytes,
      Split token 46 = [headerB64, payloadB64, signatureB64] ∧
      RawURLEncoding.DecodeString headerB64 = some headerBytes ∧
      L.Unmarshal headerBytes = some header ∧
      header.Alg = str "ES256" ∧
      header.X5C ≠ [] ∧
      ParsedAs L header.X5C (leaf :: rest) ∧
      L.Verify now leaf rootCertPool (addIntermediates rest) = none ∧
      leaf.PublicKey = PublicKey.ecdsa pubKey ∧
      RawURLEncoding.DecodeString signatureB64 = some signatureBytes ∧
      L.VerifyASN1 pubKey (L.Sum256 (headerB64 ++ str "." ++ payloadB64)) signatureBytes = true ∧
      RawURLEncoding.DecodeString payloadB64 = some payload := by
  have h0 := h
  unfold verifyAndDecodeJWS at h
  split at h
  · rename_i headerB64 payloadB64 signatureB64 hsplit
    simp only at h
    split at h
    · simp [fail] at h
    · rename_i headerBytes hhdr
      split at h
      · simp [fail] at h
      · rename_i header hjson
        split at h
        · simp [fail] at h
        · rename_i halg
          split at h
          · simp [fail] at h
          · rename_i hlen
            split at h
            · simp at h
            · simp [fail] at h
            · rename_i cs leaf rest hparse
              split at h
              · simp [fail] at h
              · rename_i hverify
                split at h
                · simp [fail] at h
                · rename_i pubKey hkey
                  split at h
                  · simp [fail] at h
                  · rename_i signatureBytes hsig
                    split at h
                    · simp [fail] at h
                    · rename_i hok
                      split at h
                      · simp [fail] at h
                      · rename_i payloadBytes hpay
                        simp at h
                        subst h
                        refine ⟨?_, _, _, _, _, _, _, _, _, _, hsplit, hhdr, hjson, ?_, ?_,
                          parseX5C_ok L _ _ _ hparse, hverify, hkey, hsig, ?_, hpay⟩
                        · simp only [verifyAndDecodeJWS, hsplit, hhdr, hjson, hparse, hverify,
                            hkey, hsig, hpay]
                          simp at hok halg
                          simp [halg, hlen, hok]
                        · simpa using halg
                        · intro h0; apply hlen; simp [h0]
                        · simpa using hok
  · simp [fail] at h
/-- C1. Soundness of `verifyAndDecodeJWS`: whenever it returns payload bytes,
it returns no error, the token split into exactly three segments, the decoded
header has `alg` equal to `"ES256"`, `x5c` is non-empty and every entry decoded
and parsed as a certificate, chain validation of the first certificate against
the root pool with the remaining ones as intermediates succeeded, the leaf key
is an ECDSA key under which the decoded signature verifies over the SHA-256 of
`segment0 + "." + segment1`, and the returned bytes are the unpadded base64url
decoding of `segment1`. -/
theorem verifyAndDecodeJWS_sound (L : Lib) (now : Nat) (token : GoString) (rootCertPool : CertPool)
    (payload : GoString)
    (h : (verifyAndDecodeJWS L now token rootCertPool).payload = some payload) :
    (verifyAndDecodeJWS L now token rootCertPool).err = none ∧
    ∃ headerB64 payloadB64 signatureB64 headerBytes header leaf rest pubKey signatureBytes,
      Split token 46 = [headerB64, payloadB64, signatureB64] ∧
      RawURLEncoding.DecodeString headerB64 = some headerBytes ∧
      L.Unmarshal headerBytes = some header ∧
      header.Alg = str "ES256" ∧
      header.X5C ≠ [] ∧
      ParsedAs L header.X5C (leaf :: rest) ∧
      L.Verify now leaf rootCertPool (addIntermediates rest) = none ∧
      leaf.PublicKey = PublicKey.ecdsa pubKey ∧
      RawURLEncoding.DecodeString signatureB64 = some signatureBytes ∧
      L.VerifyASN1 pubKey (L.Sum256 (headerB64 ++ str "." ++ payloadB64)) signatureBytes = true ∧
      RawURLEncoding.DecodeString payloadB64 = some payload := by
  obtain ⟨herr, headerB64, payloadB64, signatureB64, headerBytes, header, leaf, rest, pubKey,
    signatureBytes, hfacts⟩ := accepted_inv L now token rootCertPool payload h
  exact ⟨herr, headerB64, payloadB64, signatureB64, headerBytes, header, leaf, rest, pubKey,
    signatureBytes, hfacts⟩

/-- C1, at the demo token for the payload `{"a":1}`. -/
theorem verifyAndDecodeJWS_sound_witness :
    (verifyAndDecodeJWS demoLib 0
        (str "eyJhbGciOiJFUzI1NiIsIng1YyI6WyJNQUVKQ0E9PSIsIk1BRUlCdz09Il19.eyJhIjoxfQ.MAlHqA")
        [demoRoot]).err = none ∧
    ∃ headerB64 payloadB64 signatureB64 headerBytes header leaf rest pubKey signatureBytes,
      Split (str "eyJhbGciOiJFUzI1NiIsIng1YyI6WyJNQUVKQ0E9PSIsIk1BRUlCdz09Il19.eyJhIjoxfQ.MAlHqA")
          46 = [headerB64, payloadB64, signatureB64] ∧
      RawURLEncoding.DecodeString headerB64 = some headerBytes ∧
      demoLib.Unmarshal headerBytes = some header ∧
      header.Alg = str "ES256" ∧
      header.X5C ≠ [] ∧
      ParsedAs demoLib header.X5C (leaf :: rest) ∧
      demoLib.Verify 0 leaf [demoRoot] (addIntermediates rest) = none ∧
      leaf.PublicKey = PublicKey.ecdsa pubKey ∧
      RawURLEncoding.DecodeString signatureB64 = some signatureBytes ∧
      demoLib.VerifyASN1 pubKey (demoLib.Sum256 (headerB64 ++ str "." ++ payloadB64))
        signatureBytes = true ∧
      RawURLEncoding.DecodeString payloadB64 = some (str "\x7b\"a\":1\x7d") :=
  verifyAndDecodeJWS_sound demoLib 0 _ [demoRoot] _ (by decide)

theorem payload_iff_no_error (L : Lib) (now : Nat) (token : GoString) (rootCertPool : CertPool) :
    (verifyAndDecodeJWS L now token rootCertPool).payload.isSome =
      (verifyAndDecodeJWS L now token rootCertPool).err.isNone := by
  rcases hS : Split token 46 with _ | ⟨a, _ | ⟨b, _ | ⟨c, _ | ⟨d, t⟩⟩⟩⟩ <;>
    try (simp [verifyAndDecodeJWS, hS, fail]; done)
  rcases hH : RawURLEncoding.DecodeString a with _ | hb <;>
    try (simp [verifyAndDecodeJWS, hS, hH, fail]; done)
  rcases hJ : L.Unmarshal hb with _ | header <;>
    try (simp [verifyAndDecodeJWS, hS, hH, hJ, fail]; done)
  by_cases hA : header.Alg = str "ES256" <;>
    try (simp [verifyAndDecodeJWS, hS, hH, hJ, hA, fail]; done)
  by_cases hX : header.X5C.length = 0 <;>
    try (simp [verifyAndDecodeJWS, hS, hH, hJ, hA, hX, fail]; done)
  rcases hP : parseX5C L header.X5C with ⟨cs, e | (_ | ⟨leaf, rest⟩)⟩ <;>
    try (simp [verifyAndDecodeJWS, hS, hH, hJ, hA, hX, hP, fail]; done)
  rcases hV : L.Verify now leaf rootCertPool (addIntermediates rest) with _ | msg <;>
    try (simp [verifyAndDecodeJWS, hS, hH, hJ, hA, hX, hP, hV, fail]; done)
  rcases hK : leaf.PublicKey with pubKey | key <;>
    try (simp [verifyAndDecodeJWS, hS, hH, hJ, hA, hX, hP, hV, hK, fail]; done)
  rcases hG : RawURLEncoding.DecodeString c with _ | sig <;>
    try (simp [verifyAndDecodeJWS, hS, hH, hJ, hA, hX, hP, hV, hK, hG, fail]; done)
  rcases hO : L.VerifyASN1 pubKey (L.Sum256 (a ++ (str "." ++ b))) sig <;>
    try (simp [verifyAndDecodeJWS, hS, hH, hJ, hA, hX, hP, hV, hK, hG, hO, fail]; done)
  rcases hB : RawURLEncoding.DecodeString b with _ | pl <;>
    simp [verifyAndDecodeJWS, hS, hH, hJ, hA, hX, hP, hV, hK, hG, hO, hB, fail]

theorem result_cases (L : Lib) (now : Nat) (token : GoString) (rootCertPool : CertPool) :
    ((verifyAndDecodeJWS L now token rootCertPool).payload = none ∧
      ∃ e, (verifyAndDecodeJWS L now token rootCertPool).err = some e) ∨
    ((verifyAndDecodeJWS L now token rootCertPool).err = none ∧
      ∃ p, (verifyAndDecodeJWS L now token rootCertPool).payload = some p) := by
  have h := payload_iff_no_error L now token rootCertPool
  rcases hp : (verifyAndDecodeJWS L now token rootCertPool).payload with _ | p <;>
    rcases he : (verifyAndDecodeJWS L now token rootCertPool).err with _ | e <;>
    simp [hp, he] at h ⊢

/-- The outcome of the function once the header and the chain have been accepted. -/
theorem chain_accepted (L : Lib) (now : Nat) (token : GoString) (rootCertPool : CertPool)
    (headerB64 payloadB64 signatureB64 headerBytes pubKey : GoString) (header : jwsHeader)
    (leaf : Certificate) (rest : List Certificate)
    (hsplit : Split token 46 = [headerB64, payloadB64, signatureB64])
    (hhdr : RawURLEncoding.DecodeString headerB64 = some headerBytes)
    (hjson : L.Unmarshal headerBytes = some header)
    (halg : header.Alg = str "ES256")
    (hparsed : ParsedAs L header.X5C (leaf :: rest))
    (hverify : L.Verify now leaf rootCertPool (addIntermediates rest) = none)
    (hkey : leaf.PublicKey = PublicKey.ecdsa pubKey) :
    ((verifyAndDecodeJWS L now token rootCertPool).payload,
      (verifyAndDecodeJWS L now token rootCertPool).err) =
    match RawURLEncoding.DecodeString signatureB64 with
    | none => (none, some ⟨ASErrorSignatureInvalid, str "invalid signature encoding"⟩)
    | some signatureBytes =>
      if L.VerifyASN1 pubKey (L.Sum256 (headerB64 ++ str "." ++ payloadB64)) signatureBytes then
        match RawURLEncoding.DecodeString payloadB64 with
        | none => (none, some ⟨ASErrorDecodeError, str "invalid payload encoding"⟩)
        | some payloadBytes => (some payloadBytes, none)
      else (none, some ⟨ASErrorSignatureInvalid, str "signature verification failed"⟩) := by
  obtain ⟨cs, hcs⟩ := parseX5C_of_parsed L _ _ hparsed
  have hne : ¬ header.X5C.length = 0 := by
    intro h0
    rw [List.length_eq_zero] at h0
    rw [h0] at hparsed
    cases hparsed
  simp only [verifyAndDecodeJWS, hsplit, hhdr, hjson, hcs, hverify, hkey]
  simp only [halg, hne, ne_eq, not_true_eq_false, if_false, List.append_assoc]
  rcases RawURLEncoding.DecodeString signatureB64 with _ | sig
  · rfl
  · rcases hv : L.VerifyASN1 pubKey (L.Sum256 (headerB64 ++ (str "." ++ payloadB64))) sig
    · simp [fail, hv]
    · rcases RawURLEncoding.DecodeString payloadB64 with _ | pl <;> simp [fail, hv]

theorem decodeChars_none_of_mem (alphabet s : GoString) (c : Nat) (hc : c ∈ s)
    (hm : decodeMap alphabet c = none) : decodeChars alphabet s = none := by
  induction s with
  | nil => simp at hc
  | cons x xs ih =>
    rcases List.mem_cons.1 hc with rfl | h
    · simp [decodeChars, hm]
    · simp [decodeChars, ih h]

theorem RawURL_decode_dot (s : GoString) (h : 46 ∈ s) : RawURLEncoding.DecodeString s = none := by
  have h1 : 46 ∈ stripNewlines s := by
    unfold stripNewlines
    rw [List.mem_filter]
    exact ⟨h, by decide⟩
  unfold RawURLEncoding.DecodeString
  rw [decodeChars_none_of_mem encodeURL _ 46 h1 (by decide)]

theorem three_segments (h p s a b c : GoString)
    (hs : Split (h ++ str "." ++ p ++ str "." ++ s) 46 = [a, b, c]) :
    a = h ∧ b = p ∧ c = s := by
  have hl := Split_length (h ++ str "." ++ p ++ str "." ++ s) 46
  rw [hs, str_dot] at hl
  simp only [List.length_cons, List.length_nil, List.count_append, List.count_cons_self,
    List.count_nil] at hl
  have h1 : 46 ∉ h := by
    rw [← List.count_eq_zero]; omega
  have h2 : 46 ∉ p := by
    rw [← List.count_eq_zero]; omega
  have h3 : 46 ∉ s := by
    rw [← List.count_eq_zero]; omega
  rw [Split_three h p s h1 h2 h3] at hs
  simp at hs
  exact ⟨hs.1.symm, hs.2.1.symm, hs.2.2.symm⟩

/-- A token whose signature no key verifies is rejected. -/
theorem rejected_of_not_verified (L : Lib) (now : Nat) (rootCertPool : CertPool)
    (h p s : GoString)
    (hno : ∀ pub sig, RawURLEncoding.DecodeString s = some sig →
      L.VerifyASN1 pub (L.Sum256 (h ++ str "." ++ p)) sig = false) :
    (verifyAndDecodeJWS L now (h ++ str "." ++ p ++ str "." ++ s) rootCertPool).payload = none ∧
    ∃ e, (verifyAndDecodeJWS L now (h ++ str "." ++ p ++ str "." ++ s) rootCertPool).err =
      some e := by
  rcases result_cases L now (h ++ str "." ++ p ++ str "." ++ s) rootCertPool with
    hrej | ⟨_, P, hP⟩
  · exact hrej
  · obtain ⟨_, a, b, c, hb, header, leaf, rest, pub, sig, hsplit, _, _, _, _, _, _, _, hsig,
      hok, _⟩ := accepted_inv L now _ rootCertPool P hP
    obtain ⟨rfl, rfl, rfl⟩ := three_segments h p s a b c hsplit
    rw [hno pub sig hsig] at hok
    exact absurd hok (by decide)

/-- Replacing the signature segment of an accepted token by one that decodes
to the same bytes gives an accepted token with the same payload. -/
theorem accepted_of_same_signature (L : Lib) (now : Nat) (rootCertPool : CertPool)
    (h p s s' payload : GoString)
    (hacc : (verifyAndDecodeJWS L now (h ++ str "." ++ p ++ str "." ++ s)
      rootCertPool).payload = some payload)
    (hsame : RawURLEncoding.DecodeString s' = RawURLEncoding.DecodeString s) :
    (verifyAndDecodeJWS L now (h ++ str "." ++ p ++ str "." ++ s') rootCertPool).payload =
      some payload ∧
    (verifyAndDecodeJWS L now (h ++ str "." ++ p ++ str "." ++ s') rootCertPool).err = none := by
  obtain ⟨_, a, b, c, hb, header, leaf, rest, pub, sig, hsplit, hhdr, hjson, halg, _, hparsed,
    hverify, hkey, hsig, hok, hpay⟩ := accepted_inv L now _ rootCertPool payload hacc
  have hl := Split_length (h ++ str "." ++ p ++ str "." ++ s) 46
  rw [hsplit, str_dot] at hl
  simp only [List.length_cons, List.length_nil, List.count_append, List.count_cons_self,
    List.count_nil] at hl
  have h1 : 46 ∉ h := by
    rw [← List.count_eq_zero]; omega
  have h2 : 46 ∉ p := by
    rw [← List.count_eq_zero]; omega
  obtain ⟨rfl, rfl, rfl⟩ := three_segments h p s a b c hsplit
  have h3 : 46 ∉ s' := by
    intro hm
    rw [RawURL_decode_dot s' hm, hsig] at hsame
    cases hsame
  have hres := chain_accepted L now _ rootCertPool a b s' hb pub header leaf rest
    (Split_three a b s' h1 h2 h3) hhdr hjson halg hparsed hverify hkey
  rw [hsame, hsig] at hres
  simp only [hok, hpay, if_true] at hres
  exact ⟨congrArg Prod.fst hres, congrArg Prod.snd hres⟩

theorem parseX5C_calls (L : Lib) (xs : List GoString) :
    ∀ c ∈ (parseX5C L xs).1, c.isVerification = false := by
  induction xs with
  | nil => simp [parseX5C]
  | cons x xs ih =>
    rcases hd : StdEncoding.DecodeString x with _ | der
    · simp [parseX5C, hd, Call.isVerification]
    · rcases hp : L.ParseCertificate der with _ | cert
      · simp [parseX5C, hd, hp, Call.isVerification]
      · rcases hr : parseX5C L xs with ⟨cs2, e | certs2⟩ <;>
        · rw [hr] at ih
          simpa [parseX5C, hd, hp, hr, Call.isVerification] using ih

theorem parseX5C_error (L : Lib) (xs : List GoString) (cs : List Call) (e : ASError)
    (h : parseX5C L xs = (cs, .error e)) : e.Code = ASErrorCertificateInvalid := by
  induction xs generalizing cs e with
  | nil => simp [parseX5C] at h
  | cons x xs ih =>
    rcases hd : StdEncoding.DecodeString x with _ | der
    · simp [parseX5C, hd] at h; rw [← h.2]
    · rcases hp : L.ParseCertificate der with _ | cert
      · simp [parseX5C, hd, hp] at h; rw [← h.2]
      · rcases hr : parseX5C L xs with ⟨cs2, e2 | certs2⟩
        · simp [parseX5C, hd, hp, hr] at h; rw [← h.2]; exact ih _ _ hr
        · simp [parseX5C, hd, hp, hr] at h

theorem ParsedAs_not_bad (L : Lib) (xs : List GoString) (certs : List Certificate)
    (h : ParsedAs L xs certs) : ∀ x ∈ xs, ¬ BadEntry L x := by
  induction h with
  | nil => simp
  | @cons x cert xs certs hx _ ih =>
    intro y hy
    rcases List.mem_cons.1 hy with rfl | hy
    · obtain ⟨der, hd, hp⟩ := hx
      rintro (hb | ⟨der2, hd2, hp2⟩)
      · simp [hd] at hb
      · rw [hd] at hd2; cases hd2; simp [hp] at hp2
    · exact ih y hy

/-- C7. Segment-count invariant: a token whose number of `'.'` characters is
not exactly two is rejected with `INVALID_JWS`, and no library call, so no
base64 decoding of any part of the input, has been made. -/
theorem segment_count (L : Lib) (now : Nat) (token : GoString) (rootCertPool : CertPool)
    (h : token.count 46 ≠ 2) :
    (verifyAndDecodeJWS L now token rootCertPool).payload = none ∧
    (verifyAndDecodeJWS L now token rootCertPool).err =
      some ⟨ASErrorInvalidJWS, str "expected 3 parts"⟩ ∧
    (verifyAndDecodeJWS L now token rootCertPool).calls = [] := by
  have hlen := Split_length token 46
  unfold verifyAndDecodeJWS
  split
  · rename_i hs
    rw [hs] at hlen
    simp at hlen
    omega
  · simp [fail]

/-- C5. Algorithm pinning: a three-segment token whose header decodes to JSON
with an `alg` other than the exact string `"ES256"` is rejected with
`UNSUPPORTED_ALGORITHM`, whatever `x5c`, the payload segment and the signature
segment contain; the only library calls made are the decoding of the header
segment and the JSON parse, so no certificate has been decoded or parsed. -/
theorem algorithm_pinning (L : Lib) (now : Nat) (token : GoString) (rootCertPool : CertPool)
    (headerB64 payloadB64 signatureB64 headerBytes : GoString) (header : jwsHeader)
    (hsplit : Split token 46 = [headerB64, payloadB64, signatureB64])
    (hhdr : RawURLEncoding.DecodeString headerB64 = some headerBytes)
    (hjson : L.Unmarshal headerBytes = some header)
    (halg : header.Alg ≠ str "ES256") :
    (verifyAndDecodeJWS L now token rootCertPool).payload = none ∧
    (verifyAndDecodeJWS L now token rootCertPool).err =
      some ⟨ASErrorUnsupportedAlgo, str "expected ES256, got " ++ header.Alg⟩ ∧
    (verifyAndDecodeJWS L now token rootCertPool).calls =
      [Call.RawURLDecode headerB64, Call.Unmarshal headerBytes] := by
  simp [verifyAndDecodeJWS, hsplit, hhdr, hjson, halg, fail]

/-- C9. Empty chain rejection: a three-segment token whose header decodes to
JSON with `alg` `"ES256"` and an `x5c` of length zero is rejected with
`CERTIFICATE_INVALID`; the only library calls made are the decoding of the
header segment and the JSON parse, so the signature segment is not decoded and
no chain or signature verification is invoked. -/
theorem empty_chain (L : Lib) (now : Nat) (token : GoString) (rootCertPool : CertPool)
    (headerB64 payloadB64 signatureB64 headerBytes : GoString) (header : jwsHeader)
    (hsplit : Split token 46 = [headerB64, payloadB64, signatureB64])
    (hhdr : RawURLEncoding.DecodeString headerB64 = some headerBytes)
    (hjson : L.Unmarshal headerBytes = some header)
    (halg : header.Alg = str "ES256")
    (hx5c : header.X5C.length = 0) :
    (verifyAndDecodeJWS L now token rootCertPool).payload = none ∧
    (verifyAndDecodeJWS L now token rootCertPool).err =
      some ⟨ASErrorCertificateInvalid, str "empty x5c chain"⟩ ∧
    (verifyAndDecodeJWS L now token rootCertPool).calls =
      [Call.RawURLDecode headerB64, Call.Unmarshal headerBytes] := by
  simp [verifyAndDecodeJWS, hsplit, hhdr, hjson, halg, hx5c, fail]

/-- C10. Invalid certificate entries: a token with `alg` `"ES256"` whose `x5c`
has, at any position, an entry that is not valid standard base64 or does not
parse as a certificate is rejected with `CERTIFICATE_INVALID`, and none of the
calls made is a chain validation or a signature verification. -/
theorem invalid_certificate_entry (L : Lib) (now : Nat) (token : GoString)
    (rootCertPool : CertPool)
    (headerB64 payloadB64 signatureB64 headerBytes : GoString) (header : jwsHeader)
    (hsplit : Split token 46 = [headerB64, payloadB64, signatureB64])
    (hhdr : RawURLEncoding.DecodeString headerB64 = some headerBytes)
    (hjson : L.Unmarshal headerBytes = some header)
    (halg : header.Alg = str "ES256")
    (hbad : ∃ x ∈ header.X5C, BadEntry L x) :
    (verifyAndDecodeJWS L now token rootCertPool).payload = none ∧
    (∃ reason, (verifyAndDecodeJWS L now token rootCertPool).err =
      some ⟨ASErrorCertificateInvalid, reason⟩) ∧
    ∀ c ∈ (verifyAndDecodeJWS L now token rootCertPool).calls, c.isVerification = false := by
  obtain ⟨x, hx, hbx⟩ := hbad
  have hne : ¬ header.X5C.length = 0 := by
    intro h0
    rw [List.length_eq_zero] at h0
    simp [h0] at hx
  have hcalls := parseX5C_calls L header.X5C
  rcases hr : parseX5C L header.X5C with ⟨cs, e | certs⟩
  · have hc := parseX5C_error L _ _ _ hr
    rw [hr] at hcalls
    simp only [verifyAndDecodeJWS, hsplit, hhdr, hjson, hr]
    simp only [halg, hne, ne_eq, not_true_eq_false, if_false]
    refine ⟨trivial, ⟨e.Reason, ?_⟩, ?_⟩
    · rw [← hc]
    · intro c hc
      simp at hc
      rcases hc with rfl | rfl | hc
      · rfl
      · rfl
      · exact hcalls c hc
  · exact absurd hbx (ParsedAs_not_bad L _ _ (parseX5C_ok L _ _ _ hr) x hx)

/-- C6. Untrusted root rejection: a token with `alg` `"ES256"` and a non-empty,
fully parsable `x5c` whose leaf does not validate against the root pool is
rejected with `INVALID_CERT_CHAIN`, a code different from `CERTIFICATE_INVALID`,
whatever the signature segment is. -/
theorem untrusted_chain (L : Lib) (now : Nat) (token : GoString) (rootCertPool : CertPool)
    (headerB64 payloadB64 signatureB64 headerBytes : GoString) (header : jwsHeader)
    (leaf : Certificate) (rest : List Certificate) (msg : GoString)
    (hsplit : Split token 46 = [headerB64, payloadB64, signatureB64])
    (hhdr : RawURLEncoding.DecodeString headerB64 = some headerBytes)
    (hjson : L.Unmarshal headerBytes = some header)
    (halg : header.Alg = str "ES256")
    (hparsed : ParsedAs L header.X5C (leaf :: rest))
    (hverify : L.Verify now leaf rootCertPool (addIntermediates rest) = some msg) :
    (verifyAndDecodeJWS L now token rootCertPool).payload = none ∧
    (verifyAndDecodeJWS L now token rootCertPool).err = some ⟨ASErrorInvalidCertChain, msg⟩ ∧
    ASErrorInvalidCertChain = str "INVALID_CERT_CHAIN" ∧
    ASErrorInvalidCertChain ≠ ASErrorCertificateInvalid := by
  obtain ⟨cs, hcs⟩ := parseX5C_of_parsed L _ _ hparsed
  have hne : ¬ header.X5C.length = 0 := by
    intro h0
    rw [List.length_eq_zero] at h0
    rw [h0] at hparsed
    cases hparsed
  simp only [verifyAndDecodeJWS, hsplit, hhdr, hjson, hcs, hverify]
  simp only [halg, hne, ne_eq, not_true_eq_false, if_false]
  refine ⟨?_, ?_, ?_, ?_⟩ <;> first | rfl | trivial

/-- C7, at the token `only.two` of the test `TestParseV2_MalformedJWS`. -/
theorem segment_count_witness :
    (verifyAndDecodeJWS demoLib 0 (str "only.two") [demoRoot]).payload = none ∧
    (verifyAndDecodeJWS demoLib 0 (str "only.two") [demoRoot]).err =
      some ⟨ASErrorInvalidJWS, str "expected 3 parts"⟩ ∧
    (verifyAndDecodeJWS demoLib 0 (str "only.two") [demoRoot]).calls = [] :=
  segment_count demoLib 0 (str "only.two") [demoRoot] (by decide)

/-- C5, at a token whose header declares `RS256`. -/
theorem algorithm_pinning_witness :
    (verifyAndDecodeJWS demoLib 0
      (str "eyJhbGciOiJSUzI1NiIsIng1YyI6WyJNQUVKQ0E9PSIsIk1BRUlCdz09Il19.e30.ZmFrZXNpZw")
      [demoRoot]).payload = none ∧
    (verifyAndDecodeJWS demoLib 0
      (str "eyJhbGciOiJSUzI1NiIsIng1YyI6WyJNQUVKQ0E9PSIsIk1BRUlCdz09Il19.e30.ZmFrZXNpZw")
      [demoRoot]).err = some ⟨ASErrorUnsupportedAlgo, str "expected ES256, got RS256"⟩ ∧
    (verifyAndDecodeJWS demoLib 0
      (str "eyJhbGciOiJSUzI1NiIsIng1YyI6WyJNQUVKQ0E9PSIsIk1BRUlCdz09Il19.e30.ZmFrZXNpZw")
      [demoRoot]).calls =
      [Call.RawURLDecode (str "eyJhbGciOiJSUzI1NiIsIng1YyI6WyJNQUVKQ0E9PSIsIk1BRUlCdz09Il19"),
       Call.Unmarshal (str "\x7b\"alg\":\"RS256\",\"x5c\":[\"MAEJCA==\",\"MAEIBw==\"]\x7d")] :=
  algorithm_pinning demoLib 0 _ [demoRoot] _ (str "e30") (str "ZmFrZXNpZw") _
    ⟨str "RS256", [str "MAEJCA==", str "MAEIBw=="]⟩ (by decide) (by decide) (by decide)
    (by decide)

/-- C9, at the token of the test `TestParseV2_EmptyX5C`. -/
theorem empty_chain_witness :
    (verifyAndDecodeJWS demoLib 0 (str "eyJhbGciOiJFUzI1NiIsIng1YyI6W119.e30.ZmFrZXNpZw")
      [demoRoot]).payload = none ∧
    (verifyAndDecodeJWS demoLib 0 (str "eyJhbGciOiJFUzI1NiIsIng1YyI6W119.e30.ZmFrZXNpZw")
      [demoRoot]).err = some ⟨ASErrorCertificateInvalid, str "empty x5c chain"⟩ ∧
    (verifyAndDecodeJWS demoLib 0 (str "eyJhbGciOiJFUzI1NiIsIng1YyI6W119.e30.ZmFrZXNpZw")
      [demoRoot]).calls =
      [Call.RawURLDecode (str "eyJhbGciOiJFUzI1NiIsIng1YyI6W119"),
       Call.Unmarshal (str "\x7b\"alg\":\"ES256\",\"x5c\":[]\x7d")] :=
  empty_chain demoLib 0 _ [demoRoot] _ (str "e30") (str "ZmFrZXNpZw") _
    ⟨str "ES256", []⟩ (by decide) (by decide) (by decide) (by decide) (by decide)

/-- C10, at a token whose second `x5c` entry is `"!"`. -/
theorem invalid_certificate_entry_witness :
    (verifyAndDecodeJWS demoLib 0
      (str "eyJhbGciOiJFUzI1NiIsIng1YyI6WyJNQUVKQ0E9PSIsIiEiXX0.e30.ZmFrZXNpZw")
      [demoRoot]).payload = none ∧
    (∃ reason, (verifyAndDecodeJWS demoLib 0
      (str "eyJhbGciOiJFUzI1NiIsIng1YyI6WyJNQUVKQ0E9PSIsIiEiXX0.e30.ZmFrZXNpZw")
      [demoRoot]).err = some ⟨ASErrorCertificateInvalid, reason⟩) ∧
    ∀ c ∈ (verifyAndDecodeJWS demoLib 0
      (str "eyJhbGciOiJFUzI1NiIsIng1YyI6WyJNQUVKQ0E9PSIsIiEiXX0.e30.ZmFrZXNpZw")
      [demoRoot]).calls, c.isVerification = false :=
  invalid_certificate_entry demoLib 0 _ [demoRoot]
    (str "eyJhbGciOiJFUzI1NiIsIng1YyI6WyJNQUVKQ0E9PSIsIiEiXX0") (str "e30") (str "ZmFrZXNpZw")
    (str "\x7b\"alg\":\"ES256\",\"x5c\":[\"MAEJCA==\",\"!\"]\x7d")
    ⟨str "ES256", [str "MAEJCA==", str "!"]⟩ (by decide) (by decide) (by decide) (by decide)
    ⟨str "!", by decide, Or.inl (by decide)⟩

/-- C6, at the demo token checked against a pool holding an unrelated root. -/
theorem untrusted_chain_witness :
    (verifyAndDecodeJWS demoLib 0
      (str "eyJhbGciOiJFUzI1NiIsIng1YyI6WyJNQUVKQ0E9PSIsIk1BRUlCdz09Il19.eyJhIjoxfQ.MAlHqA")
      [otherRoot]).payload = none ∧
    (verifyAndDecodeJWS demoLib 0
      (str "eyJhbGciOiJFUzI1NiIsIng1YyI6WyJNQUVKQ0E9PSIsIk1BRUlCdz09Il19.eyJhIjoxfQ.MAlHqA")
      [otherRoot]).err =
      some ⟨ASErrorInvalidCertChain, str "x509: certificate signed by unknown authority"⟩ ∧
    ASErrorInvalidCertChain = str "INVALID_CERT_CHAIN" ∧
    ASErrorInvalidCertChain ≠ ASErrorCertificateInvalid :=
  untrusted_chain demoLib 0 _ [otherRoot]
    (str "eyJhbGciOiJFUzI1NiIsIng1YyI6WyJNQUVKQ0E9PSIsIk1BRUlCdz09Il19") (str "eyJhIjoxfQ")
    (str "MAlHqA") (str "\x7b\"alg\":\"ES256\",\"x5c\":[\"MAEJCA==\",\"MAEIBw==\"]\x7d")
    ⟨str "ES256", [str "MAEJCA==", str "MAEIBw=="]⟩
    ⟨[48, 1, 9, 8], .ecdsa [9]⟩ [⟨[48, 1, 8, 7], .ecdsa [8]⟩] _
    (by decide) (by decide) (by decide) (by decide)
    (List.Forall₂.cons ⟨[48, 1, 9, 8], by decide, by decide⟩
      (List.Forall₂.cons ⟨[48, 1, 8, 7], by decide, by decide⟩ List.Forall₂.nil))
    (by decide)

/-! ### Round trip -/

/-- C2. Round trip: for every payload and every leaf key and certificate chain
that validates against the root pool, the token that `createTestJWS` builds
(header with `alg` `"ES256"` and the standard base64 of the leaf and the
intermediate, payload and signature in unpadded base64url, signature by the
leaf key over the SHA-256 of the first two segments) is accepted, and the
returned bytes are the payload.  The hypotheses say what "valid" means for the
library: each operation returns bytes, `Unmarshal` reads back the marshalled
header, the two DER strings parse, the chain validates, and a signature made
with the leaf key verifies under the key of the leaf certificate. -/
theorem round_trip (L : Lib) (now : Nat) (rootCertPool : CertPool)
    (rand leafDER intermediateDER leafKey payload pubKey : GoString)
    (leafCert intermediateCert : Certificate)
    (hpayload : IsBytes payload) (hleafDER : IsBytes leafDER)
    (hintermediateDER : IsBytes intermediateDER)
    (hmarshal : IsBytes (L.Marshal ⟨str "ES256",
      [StdEncoding.EncodeToString leafDER, StdEncoding.EncodeToString intermediateDER]⟩))
    (hsum : ∀ data, IsBytes (L.Sum256 data))
    (hsignbytes : ∀ hash, IsBytes hash → IsBytes (L.SignASN1 rand leafKey hash))
    (hjson : L.Unmarshal (L.Marshal ⟨str "ES256",
      [StdEncoding.EncodeToString leafDER, StdEncoding.EncodeToString intermediateDER]⟩) =
      some ⟨str "ES256",
        [StdEncoding.EncodeToString leafDER, StdEncoding.EncodeToString intermediateDER]⟩)
    (hleaf : L.ParseCertificate leafDER = some leafCert)
    (hintermediate : L.ParseCertificate intermediateDER = some intermediateCert)
    (hchain : L.Verify now leafCert rootCertPool (addIntermediates [intermediateCert]) = none)
    (hkey : leafCert.PublicKey = PublicKey.ecdsa pubKey)
    (hsign : ∀ hash, L.VerifyASN1 pubKey hash (L.SignASN1 rand leafKey hash) = true) :
    (verifyAndDecodeJWS L now (createTestJWS L rand leafDER intermediateDER leafKey payload)
      rootCertPool).payload = some payload ∧
    (verifyAndDecodeJWS L now (createTestJWS L rand leafDER intermediateDER leafKey payload)
      rootCertPool).err = none := by
  have hparse : parseX5C L
      [StdEncoding.EncodeToString leafDER, StdEncoding.EncodeToString intermediateDER] =
      ([Call.StdDecode (StdEncoding.EncodeToString leafDER), Call.ParseCertificate leafDER,
        Call.StdDecode (StdEncoding.EncodeToString intermediateDER),
        Call.ParseCertificate intermediateDER], .ok [leafCert, intermediateCert]) := by
    simp only [parseX5C, Std_roundtrip _ hleafDER, Std_roundtrip _ hintermediateDER, hleaf,
      hintermediate]
  have hsplit := Split_three
    (RawURLEncoding.EncodeToString (L.Marshal ⟨str "ES256",
      [StdEncoding.EncodeToString leafDER, StdEncoding.EncodeToString intermediateDER]⟩))
    (RawURLEncoding.EncodeToString payload)
    (RawURLEncoding.EncodeToString (L.SignASN1 rand leafKey (L.Sum256
      (RawURLEncoding.EncodeToString (L.Marshal ⟨str "ES256",
        [StdEncoding.EncodeToString leafDER, StdEncoding.EncodeToString intermediateDER]⟩) ++
        str "." ++ RawURLEncoding.EncodeToString payload))))
    (RawURL_no_dot _) (RawURL_no_dot _) (RawURL_no_dot _)
  simp only [createTestJWS, verifyAndDecodeJWS, hsplit, RawURL_roundtrip _ hmarshal, hjson,
    hparse, hchain, hkey, RawURL_roundtrip _ (hsignbytes _ (hsum _)), hsign,
    RawURL_roundtrip _ hpayload]
  simp

/-- C2, at the demo chain and the payload `{"a":1}`. -/
theorem round_trip_witness :
    (verifyAndDecodeJWS demoLib 0
      (createTestJWS demoLib [] demoLeafDER demoIntermediateDER [9] (str "\x7b\"a\":1\x7d"))
      [demoRoot]).payload = some (str "\x7b\"a\":1\x7d") ∧
    (verifyAndDecodeJWS demoLib 0
      (createTestJWS demoLib [] demoLeafDER demoIntermediateDER [9] (str "\x7b\"a\":1\x7d"))
      [demoRoot]).err = none :=
  round_trip demoLib 0 [demoRoot] [] demoLeafDER demoIntermediateDER [9]
    (str "\x7b\"a\":1\x7d") [9] ⟨[48, 1, 9, 8], .ecdsa [9]⟩ ⟨[48, 1, 8, 7], .ecdsa [8]⟩
    (by decide) (by decide) (by decide) (by decide)
    (fun data b hb => by
      simp only [demoLib, demoSum256, List.mem_cons, List.mem_singleton, List.mem_nil_iff,
        or_false] at hb
      omega)
    (fun hash hh b hb => by
      simp only [demoLib, demoSignASN1, List.mem_cons, List.mem_append, List.mem_singleton,
        List.mem_nil_iff, or_false, false_or] at hb
      rcases hb with rfl | rfl | hb
      · decide
      · decide
      · exact hh b hb)
    (by decide) (by decide) (by decide) (by decide) (by decide)
    (fun hash => by simp [demoLib, demoVerifyASN1, demoSignASN1])

/-! ### Tokens whose chain is accepted -/

theorem outcome_rejected (r : Result) (Code : ASErrorCode) (Reason : GoString)
    (h : r.outcome = rejected Code Reason) :
    r.payload = none ∧ r.err = some ⟨Code, Reason⟩ := by
  simp only [Result.outcome, rejected, Prod.mk.injEq] at h
  exact h

/-- The outcome once the chain is accepted, from `ChainAccepted`. -/
theorem chain_outcome (L : Lib) (now : Nat) (token : GoString) (rootCertPool : CertPool)
    (h p s pub : GoString) (hc : ChainAccepted L now token rootCertPool h p s pub) :
    (verifyAndDecodeJWS L now token rootCertPool).outcome =
    match RawURLEncoding.DecodeString s with
    | none => rejected ASErrorSignatureInvalid (str "invalid signature encoding")
    | some signatureBytes =>
      if L.VerifyASN1 pub (L.Sum256 (h ++ str "." ++ p)) signatureBytes then
        match RawURLEncoding.DecodeString p with
        | none => rejected ASErrorDecodeError (str "invalid payload encoding")
        | some payloadBytes => (some payloadBytes, none)
      else rejected ASErrorSignatureInvalid (str "signature verification failed") := by
  obtain ⟨hb, header, leaf, rest, hS, hH, hJ, hA, hP, hV, hK⟩ := hc
  exact chain_accepted L now token rootCertPool h p s hb pub header leaf rest hS hH hJ hA hP hV hK

/-- The demo header and chain are accepted at instant 0 against `demoRoot`,
whatever the payload and signature segments are. -/
theorem demo_chain_accepted (p s : GoString) (hp : 46 ∉ p) (hs : 46 ∉ s) :
    ChainAccepted demoLib 0 (demoHeaderB64 ++ str "." ++ p ++ str "." ++ s) [demoRoot]
      demoHeaderB64 p s [9] :=
  ⟨str "\x7b\"alg\":\"ES256\",\"x5c\":[\"MAEJCA==\",\"MAEIBw==\"]\x7d",
    ⟨str "ES256", [str "MAEJCA==", str "MAEIBw=="]⟩,
    ⟨[48, 1, 9, 8], .ecdsa [9]⟩, [⟨[48, 1, 8, 7], .ecdsa [8]⟩],
    Split_three _ _ _ (by decide) hp hs, by decide, by decide, by decide,
    List.Forall₂.cons ⟨[48, 1, 9, 8], by decide, by decide⟩
      (List.Forall₂.cons ⟨[48, 1, 8, 7], by decide, by decide⟩ List.Forall₂.nil),
    by decide, by decide⟩

/-- The entries of a chain parse to one list of certificates only. -/
theorem ParsedAs_unique (L : Lib) (xs : List GoString) (c1 c2 : List Certificate)
    (h1 : ParsedAs L xs c1) (h2 : ParsedAs L xs c2) : c1 = c2 := by
  induction h1 generalizing c2 with
  | nil => cases h2; rfl
  | @cons x cert xs certs hx _ ih =>
    cases h2 with
    | @cons _ cert2 _ certs2 hx2 hrest =>
      obtain ⟨der, hd, hp⟩ := hx
      obtain ⟨der2, hd2, hp2⟩ := hx2
      rw [hd] at hd2
      cases hd2
      rw [hp] at hp2
      cases hp2
      rw [ih certs2 hrest]

/-- Two tokens with the same header segment have the same leaf key. -/
theorem ChainAccepted_key (L : Lib) (now : Nat) (t1 t2 : GoString) (rootCertPool : CertPool)
    (h p1 s1 p2 s2 pub1 pub2 : GoString)
    (hc1 : ChainAccepted L now t1 rootCertPool h p1 s1 pub1)
    (hc2 : ChainAccepted L now t2 rootCertPool h p2 s2 pub2) : pub1 = pub2 := by
  obtain ⟨hb1, hd1, l1, r1, _, hH1, hJ1, _, hP1, _, hK1⟩ := hc1
  obtain ⟨hb2, hd2, l2, r2, _, hH2, hJ2, _, hP2, _, hK2⟩ := hc2
  rw [hH1] at hH2
  cases hH2
  rw [hJ1] at hJ2
  cases hJ2
  have := ParsedAs_unique L _ _ _ hP1 hP2
  cases this
  rw [hK1] at hK2
  cases hK2
  rfl

/-- A token is rejected when the key of its leaf certificate does not verify
its signature over its first two segments. -/
theorem rejected_of_leaf_key (L : Lib) (now : Nat) (rootCertPool : CertPool)
    (h p s : GoString)
    (hno : ∀ pub sig,
      ChainAccepted L now (h ++ str "." ++ p ++ str "." ++ s) rootCertPool h p s pub →
      RawURLEncoding.DecodeString s = some sig →
      L.VerifyASN1 pub (L.Sum256 (h ++ str "." ++ p)) sig = false) :
    (verifyAndDecodeJWS L now (h ++ str "." ++ p ++ str "." ++ s) rootCertPool).payload = none ∧
    ∃ e, (verifyAndDecodeJWS L now (h ++ str "." ++ p ++ str "." ++ s) rootCertPool).err =
      some e := by
  rcases result_cases L now (h ++ str "." ++ p ++ str "." ++ s) rootCertPool with
    hrej | ⟨_, P, hP⟩
  · exact hrej
  · obtain ⟨_, a, b, c, hb, header, leaf, rest, pub, sig, hsplit, hhdr, hjson, halg, _, hparsed,
      hverify, hkey, hsig, hok, _⟩ := accepted_inv L now _ rootCertPool P hP
    obtain ⟨rfl, rfl, rfl⟩ := three_segments h p s a b c hsplit
    have hf := hno pub sig ⟨hb, header, leaf, rest, hsplit, hhdr, hjson, halg, hparsed, hverify,
      hkey⟩ hsig
    rw [hf] at hok
    exact absurd hok (by decide)

/-! ### Tampering -/

theorem demoVerifyASN1_ne (pub hash sig : GoString) (h : sig.drop (sig.length - 2) ≠ hash)
    (hl : hash.length = 2) : demoVerifyASN1 pub hash sig = false := by
  unfold demoVerifyASN1
  rw [beq_eq_false_iff_ne]
  intro e
  apply h
  rw [e]
  simp [hl]


/-- C3, counterexample.  The token that `createTestJWS` builds for `{"a":1}`
is accepted; inverting bit 1 of its last character, `'A'` to `'C'` in the
signature segment `MAlHqA`, changes only low bits that the decoder does not
use, and the altered token is accepted with the same payload. -/
theorem tamper_signature_accepted :
    createTestJWS demoLib [] demoLeafDER demoIntermediateDER [9] (str "\x7b\"a\":1\x7d") =
      demoHeaderB64 ++ str ".eyJhIjoxfQ.MAlHqA" ∧
    (verifyAndDecodeJWS demoLib 0 (demoHeaderB64 ++ str ".eyJhIjoxfQ.MAlHqA")
      [demoRoot]).payload = some (str "\x7b\"a\":1\x7d") ∧
    flipBit (demoHeaderB64 ++ str ".eyJhIjoxfQ.MAlHqA") 77 1 =
      demoHeaderB64 ++ str ".eyJhIjoxfQ.MAlHqC" ∧
    (verifyAndDecodeJWS demoLib 0 (flipBit (demoHeaderB64 ++ str ".eyJhIjoxfQ.MAlHqA") 77 1)
      [demoRoot]).payload = some (str "\x7b\"a\":1\x7d") ∧
    (verifyAndDecodeJWS demoLib 0 (flipBit (demoHeaderB64 ++ str ".eyJhIjoxfQ.MAlHqA") 77 1)
      [demoRoot]).err = none := by
  refine ⟨?_, ?_, ?_, ?_, ?_⟩ <;> decide

/-- C3, amended.  For a token `h.p.s` that is accepted, with the key `pubKey`
of its leaf certificate and the decoded signature `signatureBytes`, and a
single-bit flip in one of its segments: a flip in the payload segment gives a
token that returns an error and no payload whenever ECDSA verification under
`pubKey` does not accept `signatureBytes` over the SHA-256 of the header
segment, a dot and the altered payload segment (first part); a flip in the
signature segment gives such a token whenever ECDSA verification under
`pubKey` does not accept what the altered segment decodes to (second part); a
flip in the header segment gives such a token whenever ECDSA verification
under the leaf key of the altered header, if that header and its chain are
accepted, does not accept `signatureBytes` over the SHA-256 of the altered
header segment, a dot and the payload segment (third part); and a flip in the
signature segment that leaves the decoded signature bytes unchanged gives a
token that is accepted with the same payload (last part). -/
theorem tamper_sensitivity (L : Lib) (now : Nat) (rootCertPool : CertPool)
    (h p s payload pubKey signatureBytes : GoString) (i k : Nat)
    (hacc : (verifyAndDecodeJWS L now (h ++ str "." ++ p ++ str "." ++ s)
      rootCertPool).payload = some payload)
    (hc : ChainAccepted L now (h ++ str "." ++ p ++ str "." ++ s) rootCertPool h p s pubKey)
    (hsig : RawURLEncoding.DecodeString s = some signatureBytes) :
    (L.VerifyASN1 pubKey (L.Sum256 (h ++ str "." ++ flipBit p i k)) signatureBytes = false →
      (verifyAndDecodeJWS L now (h ++ str "." ++ flipBit p i k ++ str "." ++ s)
        rootCertPool).payload = none ∧
      ∃ e, (verifyAndDecodeJWS L now (h ++ str "." ++ flipBit p i k ++ str "." ++ s)
        rootCertPool).err = some e) ∧
    ((∀ sig, RawURLEncoding.DecodeString (flipBit s i k) = some sig →
        L.VerifyASN1 pubKey (L.Sum256 (h ++ str "." ++ p)) sig = false) →
      (verifyAndDecodeJWS L now (h ++ str "." ++ p ++ str "." ++ flipBit s i k)
        rootCertPool).payload = none ∧
      ∃ e, (verifyAndDecodeJWS L now (h ++ str "." ++ p ++ str "." ++ flipBit s i k)
        rootCertPool).err = some e) ∧
    ((∀ pub, ChainAccepted L now (flipBit h i k ++ str "." ++ p ++ str "." ++ s) rootCertPool
          (flipBit h i k) p s pub →
        L.VerifyASN1 pub (L.Sum256 (flipBit h i k ++ str "." ++ p)) signatureBytes = false) →
      (verifyAndDecodeJWS L now (flipBit h i k ++ str "." ++ p ++ str "." ++ s)
        rootCertPool).payload = none ∧
      ∃ e, (verifyAndDecodeJWS L now (flipBit h i k ++ str "." ++ p ++ str "." ++ s)
        rootCertPool).err = some e) ∧
    (RawURLEncoding.DecodeString (flipBit s i k) = RawURLEncoding.DecodeString s →
      (verifyAndDecodeJWS L now (h ++ str "." ++ p ++ str "." ++ flipBit s i k)
        rootCertPool).payload = some payload ∧
      (verifyAndDecodeJWS L now (h ++ str "." ++ p ++ str "." ++ flipBit s i k)
        rootCertPool).err = none) := by
  refine ⟨?_, ?_, ?_, ?_⟩
  · intro hno
    apply rejected_of_leaf_key
    intro pub sig hc2 hs2
    rw [hsig] at hs2
    cases hs2
    rw [← ChainAccepted_key L now _ _ rootCertPool h p s _ _ pubKey pub hc hc2]
    exact hno
  · intro hno
    apply rejected_of_leaf_key
    intro pub sig hc2 hs2
    rw [← ChainAccepted_key L now _ _ rootCertPool h p s _ _ pubKey pub hc hc2]
    exact hno sig hs2
  · intro hno
    apply rejected_of_leaf_key
    intro pub sig hc2 hs2
    rw [hsig] at hs2
    cases hs2
    exact hno pub hc2
  · exact accepted_of_same_signature L now rootCertPool h p s _ payload hacc

/-- C3 amended, at the demo token for `{"a":1}`: with bit 0 of the payload
character at index 4 inverted the token is rejected, with bit 1 of the last
signature character inverted, `MAlHqC`, it is accepted. -/
theorem tamper_sensitivity_witness :
    ((verifyAndDecodeJWS demoLib 0
        (demoHeaderB64 ++ str "." ++ flipBit (str "eyJhIjoxfQ") 4 0 ++ str "." ++ str "MAlHqA")
        [demoRoot]).payload = none ∧
      ∃ e, (verifyAndDecodeJWS demoLib 0
        (demoHeaderB64 ++ str "." ++ flipBit (str "eyJhIjoxfQ") 4 0 ++ str "." ++ str "MAlHqA")
        [demoRoot]).err = some e) ∧
    ((verifyAndDecodeJWS demoLib 0
        (demoHeaderB64 ++ str "." ++ str "eyJhIjoxfQ" ++ str "." ++ flipBit (str "MAlHqA") 5 1)
        [demoRoot]).payload = some (str "\x7b\"a\":1\x7d") ∧
      (verifyAndDecodeJWS demoLib 0
        (demoHeaderB64 ++ str "." ++ str "eyJhIjoxfQ" ++ str "." ++ flipBit (str "MAlHqA") 5 1)
        [demoRoot]).err = none) :=
  ⟨(tamper_sensitivity demoLib 0 [demoRoot] demoHeaderB64 (str "eyJhIjoxfQ") (str "MAlHqA")
      (str "\x7b\"a\":1\x7d") [9] [48, 9, 71, 168] 4 0 (by decide)
      (demo_chain_accepted _ _ (by decide) (by decide)) (by decide)).1 (by decide),
    (tamper_sensitivity demoLib 0 [demoRoot] demoHeaderB64 (str "eyJhIjoxfQ") (str "MAlHqA")
      (str "\x7b\"a\":1\x7d") [9] [48, 9, 71, 168] 5 1 (by decide)
      (demo_chain_accepted _ _ (by decide) (by decide)) (by decide)).2.2.2 (by decide)⟩

/-- C4, counterexample.  The token that `createTestJWS` builds for `{"g":1}`
is accepted.  Inverting bit 6 of its first header character, `'e'` to `'%'`,
gives `INVALID_JWS` ("invalid header encoding"); inverting bit 6 of the
payload character `'n'` at index 64 gives `'.'`, a fourth segment, and
`INVALID_JWS` ("expected 3 parts").  Neither is `SIGNATURE_INVALID`. -/
theorem tamper_other_category :
    createTestJWS demoLib [] demoLeafDER demoIntermediateDER [9] (str "\x7b\"g\":1\x7d") =
      demoHeaderB64 ++ str ".eyJnIjoxfQ.MAlHrg" ∧
    (verifyAndDecodeJWS demoLib 0 (demoHeaderB64 ++ str ".eyJnIjoxfQ.MAlHrg")
      [demoRoot]).payload = some (str "\x7b\"g\":1\x7d") ∧
    flipBit (demoHeaderB64 ++ str ".eyJnIjoxfQ.MAlHrg") 0 6 =
      str "%yJhbGciOiJFUzI1NiIsIng1YyI6WyJNQUVKQ0E9PSIsIk1BRUlCdz09Il19.eyJnIjoxfQ.MAlHrg" ∧
    (verifyAndDecodeJWS demoLib 0 (flipBit (demoHeaderB64 ++ str ".eyJnIjoxfQ.MAlHrg") 0 6)
      [demoRoot]).err = some ⟨ASErrorInvalidJWS, str "invalid header encoding"⟩ ∧
    flipBit (demoHeaderB64 ++ str ".eyJnIjoxfQ.MAlHrg") 64 6 =
      demoHeaderB64 ++ str ".eyJ.IjoxfQ.MAlHrg" ∧
    (verifyAndDecodeJWS demoLib 0 (flipBit (demoHeaderB64 ++ str ".eyJnIjoxfQ.MAlHrg") 64 6)
      [demoRoot]).err = some ⟨ASErrorInvalidJWS, str "expected 3 parts"⟩ ∧
    ASErrorInvalidJWS ≠ ASErrorSignatureInvalid := by
  refine ⟨?_, ?_, ?_, ?_, ?_, ?_, ?_⟩ <;> decide

/-- C4, amended.  For a token `h.p.s` whose header and chain are accepted and
whose signature segment decodes: a single-bit flip in the payload segment that
leaves three segments is rejected with `SIGNATURE_INVALID` when ECDSA
verification under the leaf key does not accept the signature over the SHA-256
of the altered signing input (first part); a flip in the header segment that
leaves three segments is rejected with `SIGNATURE_INVALID` under the same
condition when the altered segment still decodes to the same header (second
part), and with `INVALID_JWS` when the altered segment is no longer base64url
(third part). -/
theorem tamper_category (L : Lib) (now : Nat) (rootCertPool : CertPool)
    (h p s headerBytes pubKey signatureBytes : GoString) (header : jwsHeader)
    (leaf : Certificate) (rest : List Certificate) (i k : Nat)
    (h46 : 46 ∉ h) (p46 : 46 ∉ p) (s46 : 46 ∉ s)
    (hhdr : RawURLEncoding.DecodeString h = some headerBytes)
    (hjson : L.Unmarshal headerBytes = some header)
    (halg : header.Alg = str "ES256")
    (hparsed : ParsedAs L header.X5C (leaf :: rest))
    (hverify : L.Verify now leaf rootCertPool (addIntermediates rest) = none)
    (hkey : leaf.PublicKey = PublicKey.ecdsa pubKey)
    (hsig : RawURLEncoding.DecodeString s = some signatureBytes) :
    (46 ∉ flipBit p i k →
      L.VerifyASN1 pubKey (L.Sum256 (h ++ str "." ++ flipBit p i k)) signatureBytes = false →
      (verifyAndDecodeJWS L now (h ++ str "." ++ flipBit p i k ++ str "." ++ s)
        rootCertPool).payload = none ∧
      (verifyAndDecodeJWS L now (h ++ str "." ++ flipBit p i k ++ str "." ++ s)
        rootCertPool).err =
        some ⟨ASErrorSignatureInvalid, str "signature verification failed"⟩) ∧
    (46 ∉ flipBit h i k →
      (∃ headerBytes', RawURLEncoding.DecodeString (flipBit h i k) = some headerBytes' ∧
        L.Unmarshal headerBytes' = some header) →
      L.VerifyASN1 pubKey (L.Sum256 (flipBit h i k ++ str "." ++ p)) signatureBytes = false →
      (verifyAndDecodeJWS L now (flipBit h i k ++ str "." ++ p ++ str "." ++ s)
        rootCertPool).payload = none ∧
      (verifyAndDecodeJWS L now (flipBit h i k ++ str "." ++ p ++ str "." ++ s)
        rootCertPool).err =
        some ⟨ASErrorSignatureInvalid, str "signature verification failed"⟩) ∧
    (46 ∉ flipBit h i k →
      RawURLEncoding.DecodeString (flipBit h i k) = none →
      (verifyAndDecodeJWS L now (flipBit h i k ++ str "." ++ p ++ str "." ++ s)
        rootCertPool).payload = none ∧
      (verifyAndDecodeJWS L now (flipBit h i k ++ str "." ++ p ++ str "." ++ s)
        rootCertPool).err = some ⟨ASErrorInvalidJWS, str "invalid header encoding"⟩) := by
  refine ⟨?_, ?_, ?_⟩
  · intro hp hno
    have hres := chain_accepted L now _ rootCertPool h (flipBit p i k) s headerBytes pubKey
      header leaf rest (Split_three _ _ _ h46 hp s46) hhdr hjson halg hparsed hverify hkey
    rw [hsig] at hres
    simp only [hno] at hres
    exact ⟨congrArg Prod.fst hres, congrArg Prod.snd hres⟩
  · rintro hh ⟨hb', hhdr', hjson'⟩ hno
    have hres := chain_accepted L now _ rootCertPool (flipBit h i k) p s hb' pubKey
      header leaf rest (Split_three _ _ _ hh p46 s46) hhdr' hjson' halg hparsed hverify hkey
    rw [hsig] at hres
    simp only [hno] at hres
    exact ⟨congrArg Prod.fst hres, congrArg Prod.snd hres⟩
  · intro hh hnone
    simp only [verifyAndDecodeJWS, Split_three _ _ _ hh p46 s46, hnone, fail]
    exact ⟨trivial, trivial⟩


/-- C4 amended, at the demo token for `{"g":1}` with bit 0 of the payload
character at index 4 inverted. -/
theorem tamper_category_witness :
    (verifyAndDecodeJWS demoLib 0
      (demoHeaderB64 ++ str "." ++ flipBit (str "eyJnIjoxfQ") 4 0 ++ str "." ++ str "MAlHrg")
      [demoRoot]).payload = none ∧
    (verifyAndDecodeJWS demoLib 0
      (demoHeaderB64 ++ str "." ++ flipBit (str "eyJnIjoxfQ") 4 0 ++ str "." ++ str "MAlHrg")
      [demoRoot]).err = some ⟨ASErrorSignatureInvalid, str "signature verification failed"⟩ :=
  (tamper_category demoLib 0 [demoRoot] demoHeaderB64 (str "eyJnIjoxfQ") (str "MAlHrg")
    (str "\x7b\"alg\":\"ES256\",\"x5c\":[\"MAEJCA==\",\"MAEIBw==\"]\x7d") [9] [48, 9, 71, 174]
    ⟨str "ES256", [str "MAEJCA==", str "MAEIBw=="]⟩
    ⟨[48, 1, 9, 8], .ecdsa [9]⟩ [⟨[48, 1, 8, 7], .ecdsa [8]⟩] 4 0
    (by decide) (by decide) (by decide) (by decide) (by decide) (by decide)
    (List.Forall₂.cons ⟨[48, 1, 9, 8], by decide, by decide⟩
      (List.Forall₂.cons ⟨[48, 1, 8, 7], by decide, by decide⟩ List.Forall₂.nil))
    (by decide) (by decide) (by decide)).1 (by decide) (by decide)

/-! ### Empty segments -/

/-- C8, counterexample.  The token that `createTestJWS` builds for the empty
payload has an empty payload segment and is accepted, with an empty payload; a
token with an empty signature segment is rejected with `SIGNATURE_INVALID`,
not with `INVALID_JWS`. -/
theorem empty_payload_accepted :
    createTestJWS demoLib [] demoLeafDER demoIntermediateDER [9] [] =
      demoHeaderB64 ++ str "..MAk9xw" ∧
    (demoHeaderB64 ++ str "..MAk9xw").count 46 = 2 ∧
    Split (demoHeaderB64 ++ str "..MAk9xw") 46 = [demoHeaderB64, [], str "MAk9xw"] ∧
    (verifyAndDecodeJWS demoLib 0 (demoHeaderB64 ++ str "..MAk9xw") [demoRoot]).payload =
      some [] ∧
    (verifyAndDecodeJWS demoLib 0 (demoHeaderB64 ++ str "..MAk9xw") [demoRoot]).err = none ∧
    (verifyAndDecodeJWS demoLib 0 (demoHeaderB64 ++ str ".eyJhIjoxfQ.") [demoRoot]).err =
      some ⟨ASErrorSignatureInvalid, str "signature verification failed"⟩ ∧
    ASErrorSignatureInvalid ≠ ASErrorInvalidJWS := by
  refine ⟨?_, ?_, ?_, ?_, ?_, ?_, ?_⟩ <;> decide

/-- C8, amended.  For a token with exactly two `'.'` separators, in a library
whose JSON parser rejects the empty input and whose ECDSA verification rejects
the empty signature: an empty header segment is rejected with `INVALID_JWS`
(first part); an empty signature segment is never accepted, the token is
rejected with an error, which is `SIGNATURE_INVALID` once its header and chain
are accepted (second part); an empty payload segment is not rejected as such:
when the header and the chain are accepted and the leaf key verifies the
signature over the header segment and a dot, the token is accepted with the
empty payload, and no token with an empty payload segment is accepted with
another payload (third part). -/
theorem empty_segments (L : Lib) (now : Nat) (rootCertPool : CertPool) (a b : GoString)
    (ha : 46 ∉ a) (hb : 46 ∉ b)
    (hjson : L.Unmarshal [] = none)
    (hsig : ∀ pub hash, L.VerifyASN1 pub hash [] = false) :
    ((verifyAndDecodeJWS L now (str "." ++ a ++ str "." ++ b) rootCertPool).payload = none ∧
      (verifyAndDecodeJWS L now (str "." ++ a ++ str "." ++ b) rootCertPool).err =
        some ⟨ASErrorInvalidJWS, str "invalid header JSON"⟩) ∧
    ((verifyAndDecodeJWS L now (a ++ str "." ++ b ++ str ".") rootCertPool).payload = none ∧
      (∃ e, (verifyAndDecodeJWS L now (a ++ str "." ++ b ++ str ".") rootCertPool).err =
        some e) ∧
      (∀ pub, ChainAccepted L now (a ++ str "." ++ b ++ str ".") rootCertPool a b [] pub →
        (verifyAndDecodeJWS L now (a ++ str "." ++ b ++ str ".") rootCertPool).err =
          some ⟨ASErrorSignatureInvalid, str "signature verification failed"⟩)) ∧
    ((∀ pub sig, ChainAccepted L now (a ++ str "." ++ str "." ++ b) rootCertPool a [] b pub →
        RawURLEncoding.DecodeString b = some sig →
        L.VerifyASN1 pub (L.Sum256 (a ++ str ".")) sig = true →
        (verifyAndDecodeJWS L now (a ++ str "." ++ str "." ++ b) rootCertPool).payload =
          some [] ∧
        (verifyAndDecodeJWS L now (a ++ str "." ++ str "." ++ b) rootCertPool).err = none) ∧
      (∀ payload,
        (verifyAndDecodeJWS L now (a ++ str "." ++ str "." ++ b) rootCertPool).payload =
          some payload → payload = [])) := by
  have hd0 : RawURLEncoding.DecodeString [] = some [] := rfl
  refine ⟨?_, ⟨?_, ?_, ?_⟩, ?_, ?_⟩
  · have hs := Split_three [] a b (by simp) ha hb
    rw [List.nil_append] at hs
    simp only [verifyAndDecodeJWS, hs, hd0, hjson, fail]
    exact ⟨trivial, trivial⟩
  · have h := rejected_of_not_verified L now rootCertPool a b []
      (fun pub sig hd => by
        have : sig = [] := by
          rw [hd0] at hd
          exact (Option.some.inj hd).symm
        rw [this]
        exact hsig _ _)
    simpa using h.1
  · have h := rejected_of_not_verified L now rootCertPool a b []
      (fun pub sig hd => by
        have : sig = [] := by
          rw [hd0] at hd
          exact (Option.some.inj hd).symm
        rw [this]
        exact hsig _ _)
    simpa using h.2
  · intro pub hc
    have ho := chain_outcome L now _ rootCertPool a b [] pub hc
    rw [hd0] at ho
    simp only [hsig, Bool.false_eq_true, if_false] at ho
    exact (outcome_rejected _ _ _ ho).2
  · intro pub sig hc hs hok
    have ho := chain_outcome L now _ rootCertPool a [] b pub hc
    rw [hs] at ho
    rw [List.append_nil] at ho
    simp only [hok, if_true, hd0] at ho
    simp only [Result.outcome, Prod.mk.injEq] at ho
    exact ho
  · intro payload hacc
    have e : a ++ str "." ++ str "." ++ b = a ++ str "." ++ [] ++ str "." ++ b := by simp
    rw [e] at hacc
    obtain ⟨_, x, y, z, _, _, _, _, _, _, hsplit, _, _, _, _, _, _, _, _, _, hpay⟩ :=
      accepted_inv L now _ rootCertPool payload hacc
    obtain ⟨rfl, rfl, rfl⟩ := three_segments a [] b x y z hsplit
    rw [hd0] at hpay
    exact (Option.some.inj hpay).symm


/-- C8 amended, at the demo header: the token with the empty payload segment
and the signature segment `MAk9xw` is accepted with the empty payload, the
token with the empty signature segment is rejected with `SIGNATURE_INVALID`,
and the token with the empty header segment with `INVALID_JWS`. -/
theorem empty_segments_witness :
    (verifyAndDecodeJWS demoLib 0 (demoHeaderB64 ++ str "." ++ str "." ++ str "MAk9xw")
      [demoRoot]).payload = some [] ∧
    (verifyAndDecodeJWS demoLib 0 (demoHeaderB64 ++ str "." ++ str "." ++ str "MAk9xw")
      [demoRoot]).err = none ∧
    (verifyAndDecodeJWS demoLib 0 (demoHeaderB64 ++ str "." ++ str "eyJhIjoxfQ" ++ str ".")
      [demoRoot]).err = some ⟨ASErrorSignatureInvalid, str "signature verification failed"⟩ ∧
    (verifyAndDecodeJWS demoLib 0 (str "." ++ demoHeaderB64 ++ str "." ++ str "MAk9xw")
      [demoRoot]).err = some ⟨ASErrorInvalidJWS, str "invalid header JSON"⟩ :=
  ⟨((empty_segments demoLib 0 [demoRoot] demoHeaderB64 (str "MAk9xw") (by decide) (by decide)
      (by decide) (fun pub hash => by simp [demoLib, demoVerifyASN1])).2.2.1 [9]
      [48, 9, 61, 199] (demo_chain_accepted [] (str "MAk9xw") (by decide) (by decide))
      (by decide) (by decide)).1,
    ((empty_segments demoLib 0 [demoRoot] demoHeaderB64 (str "MAk9xw") (by decide) (by decide)
      (by decide) (fun pub hash => by simp [demoLib, demoVerifyASN1])).2.2.1 [9]
      [48, 9, 61, 199] (demo_chain_accepted [] (str "MAk9xw") (by decide) (by decide))
      (by decide) (by decide)).2,
    (empty_segments demoLib 0 [demoRoot] demoHeaderB64 (str "eyJhIjoxfQ") (by decide)
      (by decide) (by decide) (fun pub hash => by simp [demoLib, demoVerifyASN1])).2.1.2.2 [9]
      (demo_chain_accepted (str "eyJhIjoxfQ") [] (by decide) (by decide)),
    (empty_segments demoLib 0 [demoRoot] demoHeaderB64 (str "MAk9xw") (by decide) (by decide)
      (by decide) (fun pub hash => by simp [demoLib, demoVerifyASN1])).1.2⟩

/-! ### The return statements of verifyAndDecodeJWS -/

/-- Every run of `verifyAndDecodeJWS` takes one of its twelve return statements;
each alternative lists the checks passed before it. -/
theorem run_cases (L : Lib) (now : Nat) (token : GoString) (rootCertPool : CertPool) :
    ((∀ h p s, Split token 46 ≠ [h, p, s]) ∧
      (verifyAndDecodeJWS L now token rootCertPool).outcome =
        rejected ASErrorInvalidJWS (str "expected 3 parts")) ∨
    ∃ h p s, Split token 46 = [h, p, s] ∧
      ((RawURLEncoding.DecodeString h = none ∧
        (verifyAndDecodeJWS L now token rootCertPool).outcome =
          rejected ASErrorInvalidJWS (str "invalid header encoding")) ∨
      ∃ headerBytes, RawURLEncoding.DecodeString h = some headerBytes ∧
        ((L.Unmarshal headerBytes = none ∧
          (verifyAndDecodeJWS L now token rootCertPool).outcome =
            rejected ASErrorInvalidJWS (str "invalid header JSON")) ∨
        ∃ header, L.Unmarshal headerBytes = some header ∧
          ((header.Alg ≠ str "ES256" ∧
            (verifyAndDecodeJWS L now token rootCertPool).outcome =
              rejected ASErrorUnsupportedAlgo (str "expected ES256, got " ++ header.Alg)) ∨
          (header.Alg = str "ES256" ∧
            ((header.X5C.length = 0 ∧
              (verifyAndDecodeJWS L now token rootCertPool).outcome =
                rejected ASErrorCertificateInvalid (str "empty x5c chain")) ∨
            (∃ cs e, parseX5C L header.X5C = (cs, .error e) ∧
              (verifyAndDecodeJWS L now token rootCertPool).outcome = (none, some e)) ∨
            ∃ leaf rest, ParsedAs L header.X5C (leaf :: rest) ∧
              ((∃ msg, L.Verify now leaf rootCertPool (addIntermediates rest) = some msg ∧
                (verifyAndDecodeJWS L now token rootCertPool).outcome =
                  rejected ASErrorInvalidCertChain msg) ∨
              (L.Verify now leaf rootCertPool (addIntermediates rest) = none ∧
                ((∃ key, leaf.PublicKey = PublicKey.other key ∧
                  (verifyAndDecodeJWS L now token rootCertPool).outcome =
                    rejected ASErrorCertificateInvalid
                      (str "leaf certificate does not contain an ECDSA public key")) ∨
                ∃ pub, leaf.PublicKey = PublicKey.ecdsa pub ∧
                  ((RawURLEncoding.DecodeString s = none ∧
                    (verifyAndDecodeJWS L now token rootCertPool).outcome =
                      rejected ASErrorSignatureInvalid (str "invalid signature encoding")) ∨
                  ∃ sig, RawURLEncoding.DecodeString s = some sig ∧
                    ((L.VerifyASN1 pub (L.Sum256 (h ++ str "." ++ p)) sig = false ∧
                      (verifyAndDecodeJWS L now token rootCertPool).outcome =
                        rejected ASErrorSignatureInvalid
                          (str "signature verification failed")) ∨
                    (L.VerifyASN1 pub (L.Sum256 (h ++ str "." ++ p)) sig = true ∧
                      ((RawURLEncoding.DecodeString p = none ∧
                        (verifyAndDecodeJWS L now token rootCertPool).outcome =
                          rejected ASErrorDecodeError (str "invalid payload encoding")) ∨
                      ∃ payload, RawURLEncoding.DecodeString p = some payload ∧
                        (verifyAndDecodeJWS L now token rootCertPool).outcome =
                          (some payload, none))))))))))))) := by
  rcases hS : Split token 46 with _ | ⟨a, _ | ⟨b, _ | ⟨c, _ | ⟨d, t⟩⟩⟩⟩
  · exact Or.inl ⟨by simp, by simp [verifyAndDecodeJWS, hS, fail, Result.outcome, rejected]⟩
  · exact Or.inl ⟨by simp, by simp [verifyAndDecodeJWS, hS, fail, Result.outcome, rejected]⟩
  · exact Or.inl ⟨by simp, by simp [verifyAndDecodeJWS, hS, fail, Result.outcome, rejected]⟩
  swap
  · exact Or.inl ⟨by simp, by simp [verifyAndDecodeJWS, hS, fail, Result.outcome, rejected]⟩
  refine Or.inr ⟨a, b, c, rfl, ?_⟩
  rcases hH : RawURLEncoding.DecodeString a with _ | hb
  · exact Or.inl ⟨rfl, by simp [verifyAndDecodeJWS, hS, hH, fail, Result.outcome, rejected]⟩
  refine Or.inr ⟨hb, rfl, ?_⟩
  rcases hJ : L.Unmarshal hb with _ | header
  · exact Or.inl ⟨rfl, by simp [verifyAndDecodeJWS, hS, hH, hJ, fail, Result.outcome, rejected]⟩
  refine Or.inr ⟨header, rfl, ?_⟩
  by_cases hA : header.Alg = str "ES256"
  swap
  · exact Or.inl ⟨hA,
      by simp [verifyAndDecodeJWS, hS, hH, hJ, hA, fail, Result.outcome, rejected]⟩
  refine Or.inr ⟨hA, ?_⟩
  by_cases hX : header.X5C.length = 0
  · exact Or.inl ⟨hX,
      by simp [verifyAndDecodeJWS, hS, hH, hJ, hA, hX, fail, Result.outcome, rejected]⟩
  rcases hP : parseX5C L header.X5C with ⟨cs, e | (_ | ⟨leaf, rest⟩)⟩
  · exact Or.inr (Or.inl ⟨cs, e, rfl,
      by simp [verifyAndDecodeJWS, hS, hH, hJ, hA, hX, hP, Result.outcome]⟩)
  · have hp := parseX5C_ok L _ _ _ hP
    unfold ParsedAs at hp
    rw [List.forall₂_nil_right_iff] at hp
    simp [hp] at hX
  have hPA := parseX5C_ok L _ _ _ hP
  refine Or.inr (Or.inr ⟨leaf, rest, hPA, ?_⟩)
  rcases hV : L.Verify now leaf rootCertPool (addIntermediates rest) with _ | msg
  swap
  · exact Or.inl ⟨msg, rfl,
      by simp [verifyAndDecodeJWS, hS, hH, hJ, hA, hX, hP, hV, fail, Result.outcome, rejected]⟩
  refine Or.inr ⟨rfl, ?_⟩
  rcases hK : leaf.PublicKey with pub | key
  swap
  · exact Or.inl ⟨key, rfl,
      by simp [verifyAndDecodeJWS, hS, hH, hJ, hA, hX, hP, hV, hK, fail, Result.outcome,
        rejected]⟩
  refine Or.inr ⟨pub, rfl, ?_⟩
  have hres := chain_accepted L now token rootCertPool a b c hb pub header leaf rest hS hH hJ hA
    hPA hV hK
  have hout : (verifyAndDecodeJWS L now token rootCertPool).outcome =
      ((verifyAndDecodeJWS L now token rootCertPool).payload,
        (verifyAndDecodeJWS L now token rootCertPool).err) := rfl
  rw [hout, hres]
  rcases hG : RawURLEncoding.DecodeString c with _ | sig
  · exact Or.inl ⟨rfl, rfl⟩
  refine Or.inr ⟨sig, rfl, ?_⟩
  rcases hO : L.VerifyASN1 pub (L.Sum256 (a ++ str "." ++ b)) sig
  · exact Or.inl ⟨rfl, by simp only [hO, rejected, Bool.false_eq_true, if_false]⟩
  refine Or.inr ⟨rfl, ?_⟩
  rcases hB : RawURLEncoding.DecodeString b with _ | pl
  · exact Or.inl ⟨rfl, by simp only [hO, rejected, if_true]⟩
  · exact Or.inr ⟨pl, rfl, by simp only [hO, if_true]⟩

/-! ### Signature and payload stage -/

/-- C11, counterexample.  The demo token with the signature segment `!` passes
header, algorithm and chain validation, its signature segment is not
base64url, and it is rejected with `SIGNATURE_INVALID`, the code that the
token with the wrong signature `MAlHqQ` gets from the failed verification. -/
theorem signature_encoding_same_code :
    ChainAccepted demoLib 0 (demoHeaderB64 ++ str "." ++ str "eyJhIjoxfQ" ++ str "." ++ str "!")
      [demoRoot] demoHeaderB64 (str "eyJhIjoxfQ") (str "!") [9] ∧
    RawURLEncoding.DecodeString (str "!") = none ∧
    (verifyAndDecodeJWS demoLib 0
      (demoHeaderB64 ++ str "." ++ str "eyJhIjoxfQ" ++ str "." ++ str "!") [demoRoot]).err =
      some ⟨ASErrorSignatureInvalid, str "invalid signature encoding"⟩ ∧
    (verifyAndDecodeJWS demoLib 0
      (demoHeaderB64 ++ str "." ++ str "eyJhIjoxfQ" ++ str "." ++ str "MAlHqQ") [demoRoot]).err =
      some ⟨ASErrorSignatureInvalid, str "signature verification failed"⟩ :=
  ⟨demo_chain_accepted _ _ (by decide) (by decide), by decide, by decide, by decide⟩

/-- C11, amended.  A token that passes header, algorithm and chain validation,
whose leaf key is an ECDSA key and whose signature segment is not valid
unpadded base64url, is rejected with the code `SIGNATURE_INVALID` and the
reason "invalid signature encoding": the code is the one of a failed
verification, and only the reason string differs from "signature verification
failed". -/
theorem signature_encoding_category (L : Lib) (now : Nat) (token : GoString)
    (rootCertPool : CertPool) (h p s pub : GoString)
    (hchain : ChainAccepted L now token rootCertPool h p s pub)
    (hbad : RawURLEncoding.DecodeString s = none) :
    (verifyAndDecodeJWS L now token rootCertPool).payload = none ∧
    (verifyAndDecodeJWS L now token rootCertPool).err =
      some ⟨ASErrorSignatureInvalid, str "invalid signature encoding"⟩ ∧
    ASErrorSignatureInvalid = str "SIGNATURE_INVALID" ∧
    str "invalid signature encoding" ≠ str "signature verification failed" := by
  have ho := chain_outcome L now token rootCertPool h p s pub hchain
  rw [hbad] at ho
  obtain ⟨h1, h2⟩ := outcome_rejected _ _ _ ho
  exact ⟨h1, h2, rfl, by decide⟩


/-- C11 amended, at the demo token with the signature segment `!`. -/
theorem signature_encoding_category_witness :
    (verifyAndDecodeJWS demoLib 0
      (demoHeaderB64 ++ str "." ++ str "eyJhIjoxfQ" ++ str "." ++ str "!")
      [demoRoot]).payload = none ∧
    (verifyAndDecodeJWS demoLib 0
      (demoHeaderB64 ++ str "." ++ str "eyJhIjoxfQ" ++ str "." ++ str "!") [demoRoot]).err =
      some ⟨ASErrorSignatureInvalid, str "invalid signature encoding"⟩ ∧
    ASErrorSignatureInvalid = str "SIGNATURE_INVALID" ∧
    str "invalid signature encoding" ≠ str "signature verification failed" :=
  signature_encoding_category demoLib 0 _ [demoRoot] demoHeaderB64 (str "eyJhIjoxfQ") (str "!")
    [9] (demo_chain_accepted _ _ (by decide) (by decide)) (by decide)

/-- C12. Uniform signature failure: two tokens that reach signature
verification with a decodable signature segment and whose decoded signatures
`ecdsa.VerifyASN1` does not accept, for whatever reason (bytes that are no
ASN.1 signature, or a signature that does not match), get the same error, code
`SIGNATURE_INVALID` with the reason "signature verification failed", and the
same nil payload. -/
theorem uniform_signature_failure (L : Lib) (now : Nat) (rootCertPool : CertPool)
    (tokenA hA pA sA pubA sigA tokenB hB pB sB pubB sigB : GoString)
    (hchainA : ChainAccepted L now tokenA rootCertPool hA pA sA pubA)
    (hsigA : RawURLEncoding.DecodeString sA = some sigA)
    (hfailA : L.VerifyASN1 pubA (L.Sum256 (hA ++ str "." ++ pA)) sigA = false)
    (hchainB : ChainAccepted L now tokenB rootCertPool hB pB sB pubB)
    (hsigB : RawURLEncoding.DecodeString sB = some sigB)
    (hfailB : L.VerifyASN1 pubB (L.Sum256 (hB ++ str "." ++ pB)) sigB = false) :
    (verifyAndDecodeJWS L now tokenA rootCertPool).err =
      some ⟨ASErrorSignatureInvalid, str "signature verification failed"⟩ ∧
    (verifyAndDecodeJWS L now tokenB rootCertPool).err =
      (verifyAndDecodeJWS L now tokenA rootCertPool).err ∧
    (verifyAndDecodeJWS L now tokenB rootCertPool).payload =
      (verifyAndDecodeJWS L now tokenA rootCertPool).payload ∧
    ASErrorSignatureInvalid = str "SIGNATURE_INVALID" := by
  have hoA := chain_outcome L now tokenA rootCertPool hA pA sA pubA hchainA
  have hoB := chain_outcome L now tokenB rootCertPool hB pB sB pubB hchainB
  rw [hsigA] at hoA
  rw [hsigB] at hoB
  simp only [hfailA, Bool.false_eq_true, if_false] at hoA
  simp only [hfailB, Bool.false_eq_true, if_false] at hoB
  obtain ⟨a1, a2⟩ := outcome_rejected _ _ _ hoA
  obtain ⟨b1, b2⟩ := outcome_rejected _ _ _ hoB
  exact ⟨a2, by rw [a2, b2], by rw [a1, b1], rfl⟩


/-- C12, at the demo token with the signature bytes `[0]` (segment `AA`, no
signature of the demo library) and with the signature `[48, 9, 71, 169]`
(segment `MAlHqQ`, a signature for another digest). -/
theorem uniform_signature_failure_witness :
    (verifyAndDecodeJWS demoLib 0
      (demoHeaderB64 ++ str "." ++ str "eyJhIjoxfQ" ++ str "." ++ str "AA") [demoRoot]).err =
      some ⟨ASErrorSignatureInvalid, str "signature verification failed"⟩ ∧
    (verifyAndDecodeJWS demoLib 0
      (demoHeaderB64 ++ str "." ++ str "eyJhIjoxfQ" ++ str "." ++ str "MAlHqQ") [demoRoot]).err =
      (verifyAndDecodeJWS demoLib 0
        (demoHeaderB64 ++ str "." ++ str "eyJhIjoxfQ" ++ str "." ++ str "AA") [demoRoot]).err ∧
    (verifyAndDecodeJWS demoLib 0
      (demoHeaderB64 ++ str "." ++ str "eyJhIjoxfQ" ++ str "." ++ str "MAlHqQ")
      [demoRoot]).payload =
      (verifyAndDecodeJWS demoLib 0
        (demoHeaderB64 ++ str "." ++ str "eyJhIjoxfQ" ++ str "." ++ str "AA")
        [demoRoot]).payload ∧
    ASErrorSignatureInvalid = str "SIGNATURE_INVALID" :=
  uniform_signature_failure demoLib 0 [demoRoot]
    _ demoHeaderB64 (str "eyJhIjoxfQ") (str "AA") [9] [0]
    _ demoHeaderB64 (str "eyJhIjoxfQ") (str "MAlHqQ") [9] [48, 9, 71, 169]
    (demo_chain_accepted _ _ (by decide) (by decide)) (by decide) (by decide)
    (demo_chain_accepted _ _ (by decide) (by decide)) (by decide) (by decide)

/-- C13. Payload decode gate: `verifyAndDecodeJWS` returns an error with the
code `DECODE_ERROR` exactly when the token has three segments, its header and
chain are accepted, the signature segment decodes, the ECDSA verification of
the decoded signature succeeds, and the payload segment is not valid unpadded
base64url; so `DECODE_ERROR` is never returned for a token whose signature did
not verify. -/
theorem payload_decode_gate (L : Lib) (now : Nat) (token : GoString) (rootCertPool : CertPool) :
    (∃ reason, (verifyAndDecodeJWS L now token rootCertPool).err =
      some ⟨ASErrorDecodeError, reason⟩) ↔
    ∃ h p s pub sig, ChainAccepted L now token rootCertPool h p s pub ∧
      RawURLEncoding.DecodeString s = some sig ∧
      L.VerifyASN1 pub (L.Sum256 (h ++ str "." ++ p)) sig = true ∧
      RawURLEncoding.DecodeString p = none := by
  constructor
  · rintro ⟨reason, he⟩
    rcases run_cases L now token rootCertPool with
      ⟨-, ho⟩ | ⟨h, p, s, hS, ⟨-, ho⟩ | ⟨hb, hH, ⟨-, ho⟩ | ⟨header, hJ, ⟨-, ho⟩ | ⟨hA,
        ⟨-, ho⟩ | ⟨cs, e, hP, ho⟩ | ⟨leaf, rest, hPA, ⟨msg, -, ho⟩ | ⟨hV,
          ⟨key, -, ho⟩ | ⟨pub, hK, ⟨-, ho⟩ | ⟨sig, hG, ⟨-, ho⟩ | ⟨hO,
            ⟨hB, -⟩ | ⟨pl, -, ho⟩⟩⟩⟩⟩⟩⟩⟩⟩⟩
    · rw [(outcome_rejected _ _ _ ho).2] at he; simp at he; exact absurd he.1 (by decide)
    · rw [(outcome_rejected _ _ _ ho).2] at he; simp at he; exact absurd he.1 (by decide)
    · rw [(outcome_rejected _ _ _ ho).2] at he; simp at he; exact absurd he.1 (by decide)
    · rw [(outcome_rejected _ _ _ ho).2] at he; simp at he; exact absurd he.1 (by decide)
    · rw [(outcome_rejected _ _ _ ho).2] at he; simp at he; exact absurd he.1 (by decide)
    · have hc := parseX5C_error L _ _ _ hP
      simp only [Result.outcome, Prod.mk.injEq] at ho
      rw [ho.2] at he
      simp at he
      rw [he] at hc
      have hc2 : ASErrorDecodeError = ASErrorCertificateInvalid := hc
      exact absurd hc2 (by decide)
    · rw [(outcome_rejected _ _ _ ho).2] at he; simp at he; exact absurd he.1 (by decide)
    · rw [(outcome_rejected _ _ _ ho).2] at he; simp at he; exact absurd he.1 (by decide)
    · rw [(outcome_rejected _ _ _ ho).2] at he; simp at he; exact absurd he.1 (by decide)
    · rw [(outcome_rejected _ _ _ ho).2] at he; simp at he; exact absurd he.1 (by decide)
    · exact ⟨h, p, s, pub, sig, ⟨hb, header, leaf, rest, hS, hH, hJ, hA, hPA, hV, hK⟩, hG, hO, hB⟩
    · simp only [Result.outcome, Prod.mk.injEq] at ho
      rw [ho.2] at he
      simp at he
  · rintro ⟨h, p, s, pub, sig, hc, hG, hO, hB⟩
    have ho := chain_outcome L now token rootCertPool h p s pub hc
    rw [hG, hB] at ho
    simp only [hO, if_true] at ho
    exact ⟨_, (outcome_rejected _ _ _ ho).2⟩


/-- `DECODE_ERROR` is returned for the demo token with the payload segment `!`
signed by the leaf key. -/
theorem decode_error_reachable :
    (verifyAndDecodeJWS demoLib 0 (demoHeaderB64 ++ str ".!.MAk-6A") [demoRoot]).err =
      some ⟨ASErrorDecodeError, str "invalid payload encoding"⟩ := by
  decide

/-- C16. Header decoding: a three-segment token whose header segment is not
valid unpadded base64url, or whose decoded header bytes the JSON parser
rejects, is rejected with `INVALID_JWS`, whatever the payload and signature
segments contain. -/
theorem header_decoding (L : Lib) (now : Nat) (token : GoString) (rootCertPool : CertPool)
    (h p s : GoString)
    (hsplit : Split token 46 = [h, p, s])
    (hbad : RawURLEncoding.DecodeString h = none ∨
      ∃ headerBytes, RawURLEncoding.DecodeString h = some headerBytes ∧
        L.Unmarshal headerBytes = none) :
    (verifyAndDecodeJWS L now token rootCertPool).payload = none ∧
    (∃ reason, (verifyAndDecodeJWS L now token rootCertPool).err =
      some ⟨ASErrorInvalidJWS, reason⟩) ∧
    ASErrorInvalidJWS = str "INVALID_JWS" := by
  rcases hbad with hH | ⟨hb, hH, hJ⟩
  · simp [verifyAndDecodeJWS, hsplit, hH, fail]
    rfl
  · simp [verifyAndDecodeJWS, hsplit, hH, hJ, fail]
    rfl


/-- C16, at the token `!.e30.ZmFrZXNpZw`, whose header segment is not base64url. -/
theorem header_decoding_witness :
    (verifyAndDecodeJWS demoLib 0 (str "!.e30.ZmFrZXNpZw") [demoRoot]).payload = none ∧
    (∃ reason, (verifyAndDecodeJWS demoLib 0 (str "!.e30.ZmFrZXNpZw") [demoRoot]).err =
      some ⟨ASErrorInvalidJWS, reason⟩) ∧
    ASErrorInvalidJWS = str "INVALID_JWS" :=
  header_decoding demoLib 0 _ [demoRoot] (str "!") (str "e30") (str "ZmFrZXNpZw")
    (by decide) (Or.inl (by decide))

theorem intercalate_Split (s : GoString) (sep : Nat) :
    List.intercalate [sep] (Split s sep) = s := by
  induction s with
  | nil => simp [Split, List.intercalate]
  | cons c cs ih =>
    rcases hs : Split cs sep with _ | ⟨b, l⟩
    · exact absurd hs (Split_ne_nil cs sep)
    · rw [hs] at ih
      unfold Split
      by_cases hc : c = sep
      · subst hc
        simp only [if_true, hs]
        simp only [List.intercalate, List.intersperse, List.flatten_cons, List.nil_append] at ih ⊢
        rw [← ih]
        rfl
      · simp only [hc, if_false, hs]
        rcases l with _ | ⟨b2, l2⟩
        · simp only [List.intercalate, List.intersperse, List.flatten_cons, List.flatten_nil,
            List.append_nil] at ih ⊢
          rw [ih]
        · simp only [List.intercalate, List.intersperse, List.flatten_cons] at ih ⊢
          rw [← ih]
          rfl

theorem Split_three_inv (token h p s : GoString) (hS : Split token 46 = [h, p, s]) :
    token = h ++ str "." ++ p ++ str "." ++ s := by
  have hj := intercalate_Split token 46
  rw [hS] at hj
  rw [← hj, str_dot]
  simp [List.intercalate, List.intersperse]

/-- Every call of `ecdsa.VerifyASN1(pub, hash, sig)` that `verifyAndDecodeJWS`
records has as `hash` the SHA-256 of `h + "." + p` for the segments `h.p.s` of
the token, and as `sig` the decoding of `s`. -/
theorem VerifyASN1_call_digest (L : Lib) (now : Nat) (token : GoString) (rootCertPool : CertPool)
    (pub hash sig : GoString)
    (hcall : Call.VerifyASN1 pub hash sig ∈ (verifyAndDecodeJWS L now token rootCertPool).calls) :
    ∃ h p s, Split token 46 = [h, p, s] ∧
      token = h ++ str "." ++ p ++ str "." ++ s ∧
      hash = L.Sum256 (h ++ str "." ++ p) ∧
      Call.Sum256 (h ++ str "." ++ p) ∈ (verifyAndDecodeJWS L now token rootCertPool).calls ∧
      RawURLEncoding.DecodeString s = some sig := by
  rcases hS : Split token 46 with _ | ⟨a, _ | ⟨b, _ | ⟨c, _ | ⟨d, t⟩⟩⟩⟩
  · simp [verifyAndDecodeJWS, hS, fail] at hcall
  · simp [verifyAndDecodeJWS, hS, fail] at hcall
  · simp [verifyAndDecodeJWS, hS, fail] at hcall
  swap
  · simp [verifyAndDecodeJWS, hS, fail] at hcall
  refine ⟨a, b, c, rfl, Split_three_inv token a b c hS, ?_⟩
  rcases hH : RawURLEncoding.DecodeString a with _ | hb
  · simp [verifyAndDecodeJWS, hS, hH, fail] at hcall
  rcases hJ : L.Unmarshal hb with _ | header
  · simp [verifyAndDecodeJWS, hS, hH, hJ, fail] at hcall
  by_cases hA : header.Alg = str "ES256"
  swap
  · simp [verifyAndDecodeJWS, hS, hH, hJ, hA, fail] at hcall
  by_cases hX : header.X5C.length = 0
  · simp [verifyAndDecodeJWS, hS, hH, hJ, hA, hX, fail] at hcall
  have hcs := parseX5C_calls L header.X5C
  rcases hP : parseX5C L header.X5C with ⟨cs, e | (_ | ⟨leaf, rest⟩)⟩
  · rw [hP] at hcs
    simp [verifyAndDecodeJWS, hS, hH, hJ, hA, hX, hP, fail] at hcall
    exact absurd (hcs _ hcall) (by simp [Call.isVerification])
  · simp [verifyAndDecodeJWS, hS, hH, hJ, hA, hX, hP, fail] at hcall
  rw [hP] at hcs
  have hncs : Call.VerifyASN1 pub hash sig ∉ cs := fun hm =>
    absurd (hcs _ hm) (by simp [Call.isVerification])
  rcases hV : L.Verify now leaf rootCertPool (addIntermediates rest) with _ | msg
  swap
  · simp [verifyAndDecodeJWS, hS, hH, hJ, hA, hX, hP, hV, fail, hncs] at hcall
  rcases hK : leaf.PublicKey with pubKey | key
  swap
  · simp [verifyAndDecodeJWS, hS, hH, hJ, hA, hX, hP, hV, hK, fail, hncs] at hcall
  rcases hG : RawURLEncoding.DecodeString c with _ | sg
  · simp [verifyAndDecodeJWS, hS, hH, hJ, hA, hX, hP, hV, hK, hG, fail, hncs] at hcall
  rcases hO : L.VerifyASN1 pubKey (L.Sum256 (a ++ (str "." ++ b))) sg
  · simp [verifyAndDecodeJWS, hS, hH, hJ, hA, hX, hP, hV, hK, hG, hO, fail, hncs] at hcall ⊢
    exact ⟨hcall.2.1, hcall.2.2.symm ▸ rfl⟩
  rcases hB : RawURLEncoding.DecodeString b with _ | pl
  · simp [verifyAndDecodeJWS, hS, hH, hJ, hA, hX, hP, hV, hK, hG, hO, hB, fail, hncs] at hcall ⊢
    exact ⟨hcall.2.1, hcall.2.2.symm ▸ rfl⟩
  · simp [verifyAndDecodeJWS, hS, hH, hJ, hA, hX, hP, hV, hK, hG, hO, hB, fail, hncs] at hcall ⊢
    exact ⟨hcall.2.1, hcall.2.2.symm ▸ rfl⟩


/-- C14. Signing input: for a token with the three segments `h.p.s` that
reaches signature verification (its header and chain are accepted, `pub` is
the key of its leaf and its signature segment decodes to `sig`), the token is
`h + "." + p + "." + s` and what it returns is decided by ECDSA verification of
`sig` under `pub` over the SHA-256 of `h + "." + p`, the two segments as they
stand in the token, not a re-encoding of decoded bytes: a failed verification
gives `SIGNATURE_INVALID`, a successful one the decoded payload (or
`DECODE_ERROR`); and every recorded call of `ecdsa.VerifyASN1` has that digest
and that signature. -/
theorem signing_input (L : Lib) (now : Nat) (token : GoString) (rootCertPool : CertPool)
    (h p s pub sig : GoString)
    (hc : ChainAccepted L now token rootCertPool h p s pub)
    (hsig : RawURLEncoding.DecodeString s = some sig) :
    token = h ++ str "." ++ p ++ str "." ++ s ∧
    (verifyAndDecodeJWS L now token rootCertPool).outcome =
      (if L.VerifyASN1 pub (L.Sum256 (h ++ str "." ++ p)) sig then
        match RawURLEncoding.DecodeString p with
        | none => rejected ASErrorDecodeError (str "invalid payload encoding")
        | some payloadBytes => (some payloadBytes, none)
      else rejected ASErrorSignatureInvalid (str "signature verification failed")) ∧
    (∀ pub' hash' sig',
      Call.VerifyASN1 pub' hash' sig' ∈ (verifyAndDecodeJWS L now token rootCertPool).calls →
      hash' = L.Sum256 (h ++ str "." ++ p) ∧ sig' = sig) := by
  have hsplit : Split token 46 = [h, p, s] := by
    obtain ⟨_, _, _, _, hS, _⟩ := hc
    exact hS
  refine ⟨Split_three_inv token h p s hsplit, ?_, ?_⟩
  · have ho := chain_outcome L now token rootCertPool h p s pub hc
    rw [hsig] at ho
    exact ho
  · intro pub' hash' sig' hcall
    obtain ⟨a, b, c, hS, _, hh, _, hd⟩ :=
      VerifyASN1_call_digest L now token rootCertPool pub' hash' sig' hcall
    rw [hsplit] at hS
    simp only [List.cons.injEq, and_true] at hS
    obtain ⟨rfl, rfl, rfl⟩ := hS
    rw [hsig] at hd
    exact ⟨hh, (Option.some.inj hd).symm⟩

/-- C14, at the demo token for `{"a":1}`, which is accepted, and at the token
whose payload segment `eyJhIjoxfR` decodes to the same bytes but is another
text: its digest is another one and the token is rejected. -/
theorem signing_input_witness :
    (verifyAndDecodeJWS demoLib 0 (demoHeaderB64 ++ str "." ++ str "eyJhIjoxfQ" ++ str "." ++
      str "MAlHqA") [demoRoot]).outcome = (some (str "\x7b\"a\":1\x7d"), none) ∧
    RawURLEncoding.DecodeString (str "eyJhIjoxfR") =
      RawURLEncoding.DecodeString (str "eyJhIjoxfQ") ∧
    (verifyAndDecodeJWS demoLib 0 (demoHeaderB64 ++ str "." ++ str "eyJhIjoxfR" ++ str "." ++
      str "MAlHqA") [demoRoot]).outcome =
      rejected ASErrorSignatureInvalid (str "signature verification failed") :=
  ⟨(signing_input demoLib 0
      (demoHeaderB64 ++ str "." ++ str "eyJhIjoxfQ" ++ str "." ++ str "MAlHqA") [demoRoot]
      demoHeaderB64 (str "eyJhIjoxfQ") (str "MAlHqA") [9] [48, 9, 71, 168]
      (demo_chain_accepted (str "eyJhIjoxfQ") (str "MAlHqA") (by decide) (by decide))
      (by decide)).2.1.trans (by decide),
    by decide,
    (signing_input demoLib 0
      (demoHeaderB64 ++ str "." ++ str "eyJhIjoxfR" ++ str "." ++ str "MAlHqA") [demoRoot]
      demoHeaderB64 (str "eyJhIjoxfR") (str "MAlHqA") [9] [48, 9, 71, 168]
      (demo_chain_accepted (str "eyJhIjoxfR") (str "MAlHqA") (by decide) (by decide))
      (by decide)).2.1.trans (by decide)⟩

/-! ### Header fields -/

/-- C15, counterexample.  The header `{"x5c":["MAEJCA==","MAEIBw=="]}` lacks
`alg` and the token is rejected with `UNSUPPORTED_ALGORITHM`; the header
`{"alg":"ES256"}` lacks `x5c` and the token is rejected with
`CERTIFICATE_INVALID`: the two categories the claim sets the rejection apart
from. -/
theorem missing_fields_other_categories :
    demoLib.Unmarshal (str "\x7b\"x5c\":[\"MAEJCA==\",\"MAEIBw==\"]\x7d") =
      some ⟨[], [str "MAEJCA==", str "MAEIBw=="]⟩ ∧
    (verifyAndDecodeJWS demoLib 0
      (str "eyJ4NWMiOlsiTUFFSkNBPT0iLCJNQUVJQnc9PSJdfQ.e30.ZmFrZXNpZw") [demoRoot]).err =
      some ⟨ASErrorUnsupportedAlgo, str "expected ES256, got "⟩ ∧
    demoLib.Unmarshal (str "\x7b\"alg\":\"ES256\"\x7d") = some ⟨str "ES256", []⟩ ∧
    (verifyAndDecodeJWS demoLib 0 (str "eyJhbGciOiJFUzI1NiJ9.e30.ZmFrZXNpZw") [demoRoot]).err =
      some ⟨ASErrorCertificateInvalid, str "empty x5c chain"⟩ := by
  refine ⟨?_, ?_, ?_, ?_⟩ <;> decide

/-- C15, amended.  For a three-segment token whose header segment decodes:
when `json.Unmarshal` rejects the decoded bytes, as it does for a JSON object
with a field of a type that does not fit, the token is rejected with
`INVALID_JWS` (reason "invalid header JSON"); when `json.Unmarshal` accepts
them and the object lacks `alg`, so that `Alg` keeps its zero value `""`, the
token is rejected with `UNSUPPORTED_ALGORITHM` (reason "expected ES256, got
"); when it has `alg` `"ES256"` and lacks `x5c`, so that `X5C` is nil, it is
rejected with `CERTIFICATE_INVALID` (reason "empty x5c chain"). There is no
separate category for a missing field. -/
theorem missing_header_fields (L : Lib) (now : Nat) (token : GoString)
    (rootCertPool : CertPool) (h p s headerBytes : GoString)
    (hsplit : Split token 46 = [h, p, s])
    (hhdr : RawURLEncoding.DecodeString h = some headerBytes) :
    (L.Unmarshal headerBytes = none →
      (verifyAndDecodeJWS L now token rootCertPool).payload = none ∧
      (verifyAndDecodeJWS L now token rootCertPool).err =
        some ⟨ASErrorInvalidJWS, str "invalid header JSON"⟩) ∧
    (∀ header, L.Unmarshal headerBytes = some header → header.Alg = [] →
      (verifyAndDecodeJWS L now token rootCertPool).payload = none ∧
      (verifyAndDecodeJWS L now token rootCertPool).err =
        some ⟨ASErrorUnsupportedAlgo, str "expected ES256, got "⟩) ∧
    (∀ header, L.Unmarshal headerBytes = some header → header.Alg = str "ES256" →
      header.X5C = [] →
      (verifyAndDecodeJWS L now token rootCertPool).payload = none ∧
      (verifyAndDecodeJWS L now token rootCertPool).err =
        some ⟨ASErrorCertificateInvalid, str "empty x5c chain"⟩) := by
  refine ⟨?_, ?_, ?_⟩
  · intro hjson
    simp only [verifyAndDecodeJWS, hsplit, hhdr, hjson, fail]
    exact ⟨trivial, trivial⟩
  · intro header hjson hA
    have hne : ¬ (([] : GoString) = str "ES256") := by decide
    have hgot : str "expected ES256, got " ++ ([] : GoString) = str "expected ES256, got " :=
      List.append_nil _
    simp only [verifyAndDecodeJWS, hsplit, hhdr, hjson, hA, hne, hgot, ne_eq, not_false_eq_true,
      if_true, fail]
    exact ⟨trivial, trivial⟩
  · intro header hjson hA hX
    simp only [verifyAndDecodeJWS, hsplit, hhdr, hjson, hA, hX, fail, ne_eq, not_true_eq_false,
      if_false, List.length_nil, if_true]
    exact ⟨trivial, trivial⟩


/-- C15 amended, at the tokens whose headers are `{"x5c":5}`, which
`json.Unmarshal` rejects, `{"x5c":["MAEJCA==","MAEIBw=="]}`, which lacks
`alg`, and `{"alg":"ES256"}`, which lacks `x5c`. -/
theorem missing_header_fields_witness :
    (verifyAndDecodeJWS demoLib 0 (str "eyJ4NWMiOjV9.e30.ZmFrZXNpZw") [demoRoot]).err =
      some ⟨ASErrorInvalidJWS, str "invalid header JSON"⟩ ∧
    (verifyAndDecodeJWS demoLib 0
      (str "eyJ4NWMiOlsiTUFFSkNBPT0iLCJNQUVJQnc9PSJdfQ.e30.ZmFrZXNpZw") [demoRoot]).err =
      some ⟨ASErrorUnsupportedAlgo, str "expected ES256, got "⟩ ∧
    (verifyAndDecodeJWS demoLib 0 (str "eyJhbGciOiJFUzI1NiJ9.e30.ZmFrZXNpZw") [demoRoot]).err =
      some ⟨ASErrorCertificateInvalid, str "empty x5c chain"⟩ :=
  ⟨((missing_header_fields demoLib 0 (str "eyJ4NWMiOjV9.e30.ZmFrZXNpZw") [demoRoot]
      (str "eyJ4NWMiOjV9") (str "e30") (str "ZmFrZXNpZw") (str "\x7b\"x5c\":5\x7d")
      (by decide) (by decide)).1 (by decide)).2,
    ((missing_header_fields demoLib 0
      (str "eyJ4NWMiOlsiTUFFSkNBPT0iLCJNQUVJQnc9PSJdfQ.e30.ZmFrZXNpZw") [demoRoot]
      (str "eyJ4NWMiOlsiTUFFSkNBPT0iLCJNQUVJQnc9PSJdfQ") (str "e30") (str "ZmFrZXNpZw")
      (str "\x7b\"x5c\":[\"MAEJCA==\",\"MAEIBw==\"]\x7d") (by decide) (by decide)).2.1
      ⟨[], [str "MAEJCA==", str "MAEIBw=="]⟩ (by decide) rfl).2,
    ((missing_header_fields demoLib 0 (str "eyJhbGciOiJFUzI1NiJ9.e30.ZmFrZXNpZw") [demoRoot]
      (str "eyJhbGciOiJFUzI1NiJ9") (str "e30") (str "ZmFrZXNpZw")
      (str "\x7b\"alg\":\"ES256\"\x7d") (by decide) (by decide)).2.2
      ⟨str "ES256", []⟩ (by decide) rfl rfl).2⟩

/-! ### Time of the call -/

/-- C17, counterexample.  The same token with the same root pool is accepted
at the instant 0 and rejected with `INVALID_CERT_CHAIN` at the instant 1001,
when the certificates of the demo chain are no longer valid. -/
theorem outcome_depends_on_time :
    (verifyAndDecodeJWS demoLib 0 (demoHeaderB64 ++ str ".eyJhIjoxfQ.MAlHqA")
      [demoRoot]).payload = some (str "\x7b\"a\":1\x7d") ∧
    (verifyAndDecodeJWS demoLib 0 (demoHeaderB64 ++ str ".eyJhIjoxfQ.MAlHqA")
      [demoRoot]).err = none ∧
    (verifyAndDecodeJWS demoLib 1001 (demoHeaderB64 ++ str ".eyJhIjoxfQ.MAlHqA")
      [demoRoot]).payload = none ∧
    (verifyAndDecodeJWS demoLib 1001 (demoHeaderB64 ++ str ".eyJhIjoxfQ.MAlHqA")
      [demoRoot]).err =
      some ⟨ASErrorInvalidCertChain, str "x509: certificate has expired or is not yet valid"⟩ := by
  refine ⟨?_, ?_, ?_, ?_⟩ <;> decide

/-- C17, amended.  Two invocations with the same token and the same root pool,
at two instants at which chain validation of the token's leaf (with the
token's intermediates) gives the same verdict, return the same payload, the
same error and make the same calls: the instant of the call enters the
function only through `leaf.Verify`. -/
theorem determinism (L : Lib) (nowA nowB : Nat) (token : GoString) (rootCertPool : CertPool)
    (hverdict : ∀ h p s headerBytes header leaf rest,
      Split token 46 = [h, p, s] → RawURLEncoding.DecodeString h = some headerBytes →
      L.Unmarshal headerBytes = some header → ParsedAs L header.X5C (leaf :: rest) →
      L.Verify nowA leaf rootCertPool (addIntermediates rest) =
        L.Verify nowB leaf rootCertPool (addIntermediates rest)) :
    verifyAndDecodeJWS L nowA token rootCertPool = verifyAndDecodeJWS L nowB token rootCertPool := by
  rcases hS : Split token 46 with _ | ⟨a, _ | ⟨b, _ | ⟨c, _ | ⟨d, t⟩⟩⟩⟩
  · simp only [verifyAndDecodeJWS, hS]
  · simp only [verifyAndDecodeJWS, hS]
  · simp only [verifyAndDecodeJWS, hS]
  swap
  · simp only [verifyAndDecodeJWS, hS]
  rcases hH : RawURLEncoding.DecodeString a with _ | hb
  · simp only [verifyAndDecodeJWS, hS, hH]
  rcases hJ : L.Unmarshal hb with _ | header
  · simp only [verifyAndDecodeJWS, hS, hH, hJ]
  rcases hP : parseX5C L header.X5C with ⟨cs, e | (_ | ⟨leaf, rest⟩)⟩
  · simp only [verifyAndDecodeJWS, hS, hH, hJ, hP]
  · simp only [verifyAndDecodeJWS, hS, hH, hJ, hP]
  · have hv := hverdict a b c hb header leaf rest hS hH hJ (parseX5C_ok L _ _ _ hP)
    simp only [verifyAndDecodeJWS, hS, hH, hJ, hP, hv]


/-- C17 amended, at the demo token and the instants 0 and 5. -/
theorem determinism_witness :
    verifyAndDecodeJWS demoLib 0 (demoHeaderB64 ++ str ".eyJhIjoxfQ.MAlHqA") [demoRoot] =
      verifyAndDecodeJWS demoLib 5 (demoHeaderB64 ++ str ".eyJhIjoxfQ.MAlHqA") [demoRoot] :=
  determinism demoLib 0 5 (demoHeaderB64 ++ str ".eyJhIjoxfQ.MAlHqA") [demoRoot]
    (fun _ _ _ _ _ leaf rest _ _ _ _ => by simp [demoLib, demoVerify])

/-! ### The two base64 alphabets -/

theorem RawURL_decode_invalid (s : GoString) (c : Nat) (hc : c ∈ s)
    (hn : c ≠ 10 ∧ c ≠ 13) (hm : decodeMap encodeURL c = none) :
    RawURLEncoding.DecodeString s = none := by
  have h1 : c ∈ stripNewlines s := by
    unfold stripNewlines
    rw [List.mem_filter]
    exact ⟨hc, by simp [hn.1, hn.2]⟩
  unfold RawURLEncoding.DecodeString
  rw [decodeChars_none_of_mem encodeURL _ c h1 hm]

theorem mem_dropPadding (s : GoString) (c : Nat) (hc : c ∈ s) (h61 : c ≠ 61) :
    c ∈ dropPadding s := by
  have hr : c ∈ s.reverse := List.mem_reverse.2 hc
  unfold dropPadding
  split
  · rename_i r heq
    rw [heq] at hr
    simp only [List.mem_cons] at hr
    rcases hr with h | h | h
    · exact absurd h h61
    · exact absurd h h61
    · exact List.mem_reverse.2 h
  · rename_i r _ heq
    rw [heq] at hr
    simp only [List.mem_cons] at hr
    rcases hr with h | h
    · exact absurd h h61
    · exact List.mem_reverse.2 h
  · exact hc

theorem Std_decode_invalid (s : GoString) (c : Nat) (hc : c ∈ s)
    (hn : c ≠ 10 ∧ c ≠ 13 ∧ c ≠ 61) (hm : decodeMap encodeStd c = none) :
    StdEncoding.DecodeString s = none := by
  have h1 : c ∈ stripNewlines s := by
    unfold stripNewlines
    rw [List.mem_filter]
    exact ⟨hc, by simp [hn.1, hn.2.1]⟩
  have h2 := mem_dropPadding _ c h1 hn.2.2
  unfold StdEncoding.DecodeString
  split
  · rfl
  · rw [decodeChars_none_of_mem encodeStd _ c h2 hm]

/-- A token whose `x5c` has an entry that does not decode or parse is rejected
with `CERTIFICATE_INVALID`. -/
theorem bad_entry_rejected (L : Lib) (now : Nat) (token : GoString) (rootCertPool : CertPool)
    (h p s headerBytes : GoString) (header : jwsHeader)
    (hsplit : Split token 46 = [h, p, s])
    (hhdr : RawURLEncoding.DecodeString h = some headerBytes)
    (hjson : L.Unmarshal headerBytes = some header)
    (halg : header.Alg = str "ES256")
    (hbad : ∃ x ∈ header.X5C, BadEntry L x) :
    (verifyAndDecodeJWS L now token rootCertPool).payload = none ∧
    ∃ reason, (verifyAndDecodeJWS L now token rootCertPool).err =
      some ⟨ASErrorCertificateInvalid, reason⟩ := by
  obtain ⟨x, hx, hbx⟩ := hbad
  have hne : ¬ header.X5C.length = 0 := by
    intro h0
    rw [List.length_eq_zero] at h0
    simp [h0] at hx
  rcases hr : parseX5C L header.X5C with ⟨cs, e | certs⟩
  · have hc := parseX5C_error L _ _ _ hr
    simp only [verifyAndDecodeJWS, hsplit, hhdr, hjson, hr]
    simp only [halg, hne, ne_eq, not_true_eq_false, if_false]
    refine ⟨trivial, ⟨e.Reason, ?_⟩⟩
    rw [← hc]
  · exact absurd hbx (ParsedAs_not_bad L _ _ (parseX5C_ok L _ _ _ hr) x hx)

/-- C19, counterexample.  The header
`{"alg":"RS256","x5c":["MAEJCA==","MAEI_w=="]}` has an `x5c` entry with the
base64url-only character `'_'`; the token is rejected at the algorithm check,
with `UNSUPPORTED_ALGORITHM`, before any entry is decoded. -/
theorem url_entry_other_category :
    demoLib.Unmarshal (str "\x7b\"alg\":\"RS256\",\"x5c\":[\"MAEJCA==\",\"MAEI_w==\"]\x7d") =
      some ⟨str "RS256", [str "MAEJCA==", str "MAEI_w=="]⟩ ∧
    95 ∈ str "MAEI_w==" ∧
    (verifyAndDecodeJWS demoLib 0
      (str "eyJhbGciOiJSUzI1NiIsIng1YyI6WyJNQUVKQ0E9PSIsIk1BRUlfdz09Il19.e30.ZmFrZXNpZw")
      [demoRoot]).err = some ⟨ASErrorUnsupportedAlgo, str "expected ES256, got RS256"⟩ ∧
    ASErrorUnsupportedAlgo ≠ ASErrorCertificateInvalid := by
  refine ⟨?_, ?_, ?_, ?_⟩ <;> decide

/-- C19, amended.  Encoding asymmetry: the header segment is decoded with
unpadded base64url, so a three-segment token whose header segment contains
`'+'`, `'/'` or `'='` is rejected with `INVALID_JWS`; each `x5c` entry is
decoded with standard padded base64, so a three-segment token whose header
decodes to JSON with `alg` `"ES256"` and one of whose `x5c` entries contains
`'-'` or `'_'` is rejected with `CERTIFICATE_INVALID`. -/
theorem encoding_asymmetry (L : Lib) (now : Nat) (token : GoString) (rootCertPool : CertPool)
    (h p s : GoString)
    (hsplit : Split token 46 = [h, p, s]) :
    ((43 ∈ h ∨ 47 ∈ h ∨ 61 ∈ h) →
      (verifyAndDecodeJWS L now token rootCertPool).payload = none ∧
      (verifyAndDecodeJWS L now token rootCertPool).err =
        some ⟨ASErrorInvalidJWS, str "invalid header encoding"⟩) ∧
    (∀ headerBytes header, RawURLEncoding.DecodeString h = some headerBytes →
      L.Unmarshal headerBytes = some header → header.Alg = str "ES256" →
      (∃ x ∈ header.X5C, 45 ∈ x ∨ 95 ∈ x) →
      (verifyAndDecodeJWS L now token rootCertPool).payload = none ∧
      ∃ reason, (verifyAndDecodeJWS L now token rootCertPool).err =
        some ⟨ASErrorCertificateInvalid, reason⟩) := by
  constructor
  · intro hc
    have hnone : RawURLEncoding.DecodeString h = none := by
      rcases hc with hc | hc | hc
      · exact RawURL_decode_invalid h 43 hc (by decide) (by decide)
      · exact RawURL_decode_invalid h 47 hc (by decide) (by decide)
      · exact RawURL_decode_invalid h 61 hc (by decide) (by decide)
    simp only [verifyAndDecodeJWS, hsplit, hnone, fail]
    exact ⟨trivial, trivial⟩
  · rintro hb header hH hJ hA ⟨x, hx, hc⟩
    refine bad_entry_rejected L now token rootCertPool h p s hb header hsplit hH hJ hA
      ⟨x, hx, Or.inl ?_⟩
    rcases hc with hc | hc
    · exact Std_decode_invalid x 45 hc (by decide) (by decide)
    · exact Std_decode_invalid x 95 hc (by decide) (by decide)


/-- C19 amended, at the token `e+0.e30.ZmFrZXNpZw` and at the demo token whose second
`x5c` entry is `MAEI_w==`. -/
theorem encoding_asymmetry_witness :
    ((verifyAndDecodeJWS demoLib 0 (str "e+0.e30.ZmFrZXNpZw") [demoRoot]).payload = none ∧
      (verifyAndDecodeJWS demoLib 0 (str "e+0.e30.ZmFrZXNpZw") [demoRoot]).err =
        some ⟨ASErrorInvalidJWS, str "invalid header encoding"⟩) ∧
    ((verifyAndDecodeJWS demoLib 0
        (str "eyJhbGciOiJFUzI1NiIsIng1YyI6WyJNQUVKQ0E9PSIsIk1BRUlfdz09Il19.e30.ZmFrZXNpZw")
        [demoRoot]).payload = none ∧
      ∃ reason, (verifyAndDecodeJWS demoLib 0
        (str "eyJhbGciOiJFUzI1NiIsIng1YyI6WyJNQUVKQ0E9PSIsIk1BRUlfdz09Il19.e30.ZmFrZXNpZw")
        [demoRoot]).err = some ⟨ASErrorCertificateInvalid, reason⟩) :=
  ⟨(encoding_asymmetry demoLib 0 (str "e+0.e30.ZmFrZXNpZw") [demoRoot] (str "e+0") (str "e30")
      (str "ZmFrZXNpZw") (by decide)).1 (Or.inl (by decide)),
    (encoding_asymmetry demoLib 0
      (str "eyJhbGciOiJFUzI1NiIsIng1YyI6WyJNQUVKQ0E9PSIsIk1BRUlfdz09Il19.e30.ZmFrZXNpZw")
      [demoRoot] (str "eyJhbGciOiJFUzI1NiIsIng1YyI6WyJNQUVKQ0E9PSIsIk1BRUlfdz09Il19")
      (str "e30") (str "ZmFrZXNpZw") (by decide)).2
      (str "\x7b\"alg\":\"ES256\",\"x5c\":[\"MAEJCA==\",\"MAEI_w==\"]\x7d")
      ⟨str "ES256", [str "MAEJCA==", str "MAEI_w=="]⟩ (by decide) (by decide) (by decide)
      ⟨str "MAEI_w==", by decide, Or.inr (by decide)⟩⟩

/-! ### The methods and the heap of pools -/

theorem addCert_fresh (H : Heap) (x : CertPool) (cert : Certificate) :
    Heap.addCert (H ++ [x]) H.length cert = H ++ [AddCert x cert] := by
  simp [Heap.addCert, Heap.pool, List.getD]

theorem addCert_fold_fresh (H : Heap) (certs : List Certificate) (x : CertPool) :
    certs.foldl (fun heap cert => Heap.addCert heap H.length cert) (H ++ [x]) =
      H ++ [certs.foldl AddCert x] := by
  induction certs generalizing x with
  | nil => rfl
  | cons c cs ih => simp only [List.foldl_cons, addCert_fresh, ih]

theorem intermediates_heap (H : Heap) (rest : List Certificate) :
    rest.foldl (fun heap cert => Heap.addCert heap H.newCertPool.1 cert) H.newCertPool.2 =
      H ++ [addIntermediates rest] := by
  simp only [Heap.newCertPool, addIntermediates]
  exact addCert_fold_fresh H rest NewCertPool

theorem pool_append_old (H : Heap) (x : CertPool) (p : Nat) (hp : p < H.length) :
    Heap.pool (H ++ [x]) p = Heap.pool H p := by
  simp [Heap.pool, List.getD, List.getElem?_append_left hp]

theorem pool_append_new (H : Heap) (x : CertPool) :
    Heap.pool (H ++ [x]) H.newCertPool.1 = x := by
  simp [Heap.pool, List.getD, Heap.newCertPool]

/-- The heap version returns what `verifyAndDecodeJWS` returns for the pool
that the pointer refers to. -/
theorem heap_refines (L : Lib) (now : Nat) (token : GoString) (rootCertPool : Nat) (H : Heap)
    (hroot : rootCertPool < H.length) :
    (verifyAndDecodeJWSHeap L now token rootCertPool H).1 =
      verifyAndDecodeJWS L now token (H.pool rootCertPool) := by
  rcases hS : Split token 46 with _ | ⟨a, _ | ⟨b, _ | ⟨c, _ | ⟨d, t⟩⟩⟩⟩
  · simp only [verifyAndDecodeJWSHeap, verifyAndDecodeJWS, hS]
  · simp only [verifyAndDecodeJWSHeap, verifyAndDecodeJWS, hS]
  · simp only [verifyAndDecodeJWSHeap, verifyAndDecodeJWS, hS]
  swap
  · simp only [verifyAndDecodeJWSHeap, verifyAndDecodeJWS, hS]
  rcases hH : RawURLEncoding.DecodeString a with _ | hb
  · simp only [verifyAndDecodeJWSHeap, verifyAndDecodeJWS, hS, hH]
  rcases hJ : L.Unmarshal hb with _ | header
  · simp only [verifyAndDecodeJWSHeap, verifyAndDecodeJWS, hS, hH, hJ]
  by_cases hA : header.Alg = str "ES256"
  swap
  · simp [verifyAndDecodeJWSHeap, verifyAndDecodeJWS, hS, hH, hJ, hA]
  by_cases hX : header.X5C.length = 0
  · simp [verifyAndDecodeJWSHeap, verifyAndDecodeJWS, hS, hH, hJ, hA, hX]
  rcases hP : parseX5C L header.X5C with ⟨cs, e | (_ | ⟨leaf, rest⟩)⟩
  · simp [verifyAndDecodeJWSHeap, verifyAndDecodeJWS, hS, hH, hJ, hA, hX, hP]
  · simp [verifyAndDecodeJWSHeap, verifyAndDecodeJWS, hS, hH, hJ, hA, hX, hP]
  have e1 := intermediates_heap H rest
  have e2 := pool_append_old H (addIntermediates rest) rootCertPool hroot
  have e3 := pool_append_new H (addIntermediates rest)
  rcases hV : L.Verify now leaf (H.pool rootCertPool) (addIntermediates rest) with _ | msg
  swap
  · simp [verifyAndDecodeJWSHeap, verifyAndDecodeJWS, hS, hH, hJ, hA, hX, hP, e1, e2, e3, hV]
  rcases hK : leaf.PublicKey with pubKey | key
  swap
  · simp [verifyAndDecodeJWSHeap, verifyAndDecodeJWS, hS, hH, hJ, hA, hX, hP, e1, e2, e3, hV, hK]
  rcases hG : RawURLEncoding.DecodeString c with _ | sg
  · simp [verifyAndDecodeJWSHeap, verifyAndDecodeJWS, hS, hH, hJ, hA, hX, hP, e1, e2, e3, hV, hK, hG]
  rcases hO : L.VerifyASN1 pubKey (L.Sum256 (a ++ (str "." ++ b))) sg
  · simp [verifyAndDecodeJWSHeap, verifyAndDecodeJWS, hS, hH, hJ, hA, hX, hP, e1, e2, e3, hV, hK, hG, hO]
  rcases hB : RawURLEncoding.DecodeString b with _ | pl
  · simp [verifyAndDecodeJWSHeap, verifyAndDecodeJWS, hS, hH, hJ, hA, hX, hP, e1, e2, e3, hV, hK, hG, hO, hB]
  · simp [verifyAndDecodeJWSHeap, verifyAndDecodeJWS, hS, hH, hJ, hA, hX, hP, e1, e2, e3, hV, hK, hG, hO, hB]

/-- The heap after a call is the heap before it, or the heap before it with
one new pool that holds the certificates parsed from `x5c[1:]`. -/
theorem heap_after (L : Lib) (now : Nat) (token : GoString) (rootCertPool : Nat) (H : Heap) :
    (verifyAndDecodeJWSHeap L now token rootCertPool H).2 = H ∨
    ∃ h p s headerBytes header leaf rest,
      Split token 46 = [h, p, s] ∧ RawURLEncoding.DecodeString h = some headerBytes ∧
      L.Unmarshal headerBytes = some header ∧ ParsedAs L header.X5C (leaf :: rest) ∧
      (verifyAndDecodeJWSHeap L now token rootCertPool H).2 = H ++ [addIntermediates rest] := by
  rcases hS : Split token 46 with _ | ⟨a, _ | ⟨b, _ | ⟨c, _ | ⟨d, t⟩⟩⟩⟩
  · exact Or.inl (by simp only [verifyAndDecodeJWSHeap, hS])
  · exact Or.inl (by simp only [verifyAndDecodeJWSHeap, hS])
  · exact Or.inl (by simp only [verifyAndDecodeJWSHeap, hS])
  swap
  · exact Or.inl (by simp only [verifyAndDecodeJWSHeap, hS])
  rcases hH : RawURLEncoding.DecodeString a with _ | hb
  · exact Or.inl (by simp only [verifyAndDecodeJWSHeap, hS, hH])
  rcases hJ : L.Unmarshal hb with _ | header
  · exact Or.inl (by simp only [verifyAndDecodeJWSHeap, hS, hH, hJ])
  by_cases hA : header.Alg = str "ES256"
  swap
  · exact Or.inl (by simp [verifyAndDecodeJWSHeap, hS, hH, hJ, hA])
  by_cases hX : header.X5C.length = 0
  · exact Or.inl (by simp [verifyAndDecodeJWSHeap, hS, hH, hJ, hA, hX])
  rcases hP : parseX5C L header.X5C with ⟨cs, e | (_ | ⟨leaf, rest⟩)⟩
  · exact Or.inl (by simp [verifyAndDecodeJWSHeap, hS, hH, hJ, hA, hX, hP])
  · exact Or.inl (by simp [verifyAndDecodeJWSHeap, hS, hH, hJ, hA, hX, hP])
  refine Or.inr ⟨a, b, c, hb, header, leaf, rest, rfl, hH, hJ, parseX5C_ok L _ _ _ hP, ?_⟩
  have e1 := intermediates_heap H rest
  simp only [verifyAndDecodeJWSHeap, hS, hH, hJ, hP, e1]
  simp only [hA, hX, ne_eq, not_true_eq_false, if_false]
  repeat' split
  all_goals rfl


theorem err_code_mem (L : Lib) (now : Nat) (token : GoString) (rootCertPool : CertPool)
    (e : ASError) (he : (verifyAndDecodeJWS L now token rootCertPool).err = some e) :
    e.Code ∈ ASErrorCodes := by
  have key : ∀ (Code : ASErrorCode) (Reason : GoString), Code ∈ ASErrorCodes →
      (verifyAndDecodeJWS L now token rootCertPool).outcome = rejected Code Reason →
      e.Code ∈ ASErrorCodes := by
    intro Code Reason hm ho
    rw [(outcome_rejected _ _ _ ho).2] at he
    cases he
    exact hm
  rcases run_cases L now token rootCertPool with
    ⟨-, ho⟩ | ⟨h, p, s, -, ⟨-, ho⟩ | ⟨hb, -, ⟨-, ho⟩ | ⟨header, -, ⟨-, ho⟩ | ⟨-,
      ⟨-, ho⟩ | ⟨cs, e2, hP, ho⟩ | ⟨leaf, rest, -, ⟨msg, -, ho⟩ | ⟨-,
        ⟨key2, -, ho⟩ | ⟨pub, -, ⟨-, ho⟩ | ⟨sig, -, ⟨-, ho⟩ | ⟨-,
          ⟨-, ho⟩ | ⟨pl, -, ho⟩⟩⟩⟩⟩⟩⟩⟩⟩⟩
  · exact key _ _ (by simp [ASErrorCodes]) ho
  · exact key _ _ (by simp [ASErrorCodes]) ho
  · exact key _ _ (by simp [ASErrorCodes]) ho
  · exact key _ _ (by simp [ASErrorCodes]) ho
  · exact key _ _ (by simp [ASErrorCodes]) ho
  · have hc := parseX5C_error L _ _ _ hP
    simp only [Result.outcome, Prod.mk.injEq] at ho
    rw [ho.2] at he
    cases he
    rw [hc]
    simp [ASErrorCodes]
  · exact key _ _ (by simp [ASErrorCodes]) ho
  · exact key _ _ (by simp [ASErrorCodes]) ho
  · exact key _ _ (by simp [ASErrorCodes]) ho
  · exact key _ _ (by simp [ASErrorCodes]) ho
  · exact key _ _ (by simp [ASErrorCodes]) ho
  · simp only [Result.outcome, Prod.mk.injEq] at ho
    rw [ho.2] at he
    cases he

/-- The errors of the heap version carry one of the seven codes, and it never
returns both a payload and an error, whatever the root pointer is. -/
theorem heap_result_ok (L : Lib) (now : Nat) (token : GoString) (rootCertPool : Nat) (H : Heap) :
    (∀ e, (verifyAndDecodeJWSHeap L now token rootCertPool H).1.err = some e →
      e.Code ∈ ASErrorCodes) ∧
    ((verifyAndDecodeJWSHeap L now token rootCertPool H).1.payload = none ∨
      (verifyAndDecodeJWSHeap L now token rootCertPool H).1.err = none) := by
  rcases hS : Split token 46 with _ | ⟨a, _ | ⟨b, _ | ⟨c, _ | ⟨d, t⟩⟩⟩⟩
  · simp [verifyAndDecodeJWSHeap, hS, fail, ASErrorCodes]
  · simp [verifyAndDecodeJWSHeap, hS, fail, ASErrorCodes]
  · simp [verifyAndDecodeJWSHeap, hS, fail, ASErrorCodes]
  swap
  · simp [verifyAndDecodeJWSHeap, hS, fail, ASErrorCodes]
  rcases hH : RawURLEncoding.DecodeString a with _ | hb
  · simp [verifyAndDecodeJWSHeap, hS, hH, fail, ASErrorCodes]
  rcases hJ : L.Unmarshal hb with _ | header
  · simp [verifyAndDecodeJWSHeap, hS, hH, hJ, fail, ASErrorCodes]
  by_cases hA : header.Alg = str "ES256"
  swap
  · simp [verifyAndDecodeJWSHeap, hS, hH, hJ, hA, fail, ASErrorCodes]
  by_cases hX : header.X5C.length = 0
  · simp [verifyAndDecodeJWSHeap, hS, hH, hJ, hA, hX, fail, ASErrorCodes]
  rcases hP : parseX5C L header.X5C with ⟨cs, e | (_ | ⟨leaf, rest⟩)⟩
  · have hc := parseX5C_error L _ _ _ hP
    simp [verifyAndDecodeJWSHeap, hS, hH, hJ, hA, hX, hP, hc, ASErrorCodes]
  · simp [verifyAndDecodeJWSHeap, hS, hH, hJ, hA, hX, hP, fail, ASErrorCodes]
  have e1 := intermediates_heap H rest
  rcases hV : L.Verify now leaf ((H ++ [addIntermediates rest]).pool rootCertPool)
    ((H ++ [addIntermediates rest]).pool H.newCertPool.1) with _ | msg
  swap
  · simp [verifyAndDecodeJWSHeap, hS, hH, hJ, hA, hX, hP, e1, hV, fail, ASErrorCodes]
  rcases hK : leaf.PublicKey with pubKey | key
  swap
  · simp [verifyAndDecodeJWSHeap, hS, hH, hJ, hA, hX, hP, e1, hV, hK, fail, ASErrorCodes]
  rcases hG : RawURLEncoding.DecodeString c with _ | sg
  · simp [verifyAndDecodeJWSHeap, hS, hH, hJ, hA, hX, hP, e1, hV, hK, hG, fail, ASErrorCodes]
  rcases hO : L.VerifyASN1 pubKey (L.Sum256 (a ++ (str "." ++ b))) sg
  · simp [verifyAndDecodeJWSHeap, hS, hH, hJ, hA, hX, hP, e1, hV, hK, hG, hO, fail,
      ASErrorCodes]
  rcases hB : RawURLEncoding.DecodeString b with _ | pl
  · simp [verifyAndDecodeJWSHeap, hS, hH, hJ, hA, hX, hP, e1, hV, hK, hG, hO, hB, fail,
      ASErrorCodes]
  · simp [verifyAndDecodeJWSHeap, hS, hH, hJ, hA, hX, hP, e1, hV, hK, hG, hO, hB, fail,
      ASErrorCodes]

/-- What the tail of the three methods returns, from the result of the heap version. -/
theorem method_tail {α : Type} (unmarshal : GoString → Except GoString α) (pre : List Step)
    (L : Lib) (now : Nat) (token : GoString) (rootCertPool : Nat) (H : Heap) :
    let out : Ret α × Heap :=
      match verifyAndDecodeJWSHeap L now token rootCertPool H with
      | (⟨_, some err, _⟩, H1) => (⟨none, some err, pre ++ [.verify token]⟩, H1)
      | (⟨decoded, none, _⟩, H1) =>
        match unmarshal (decoded.getD []) with
        | .error msg =>
          (⟨none, some ⟨ASErrorInvalidPayload, msg⟩,
            pre ++ [.verify token, .Unmarshal (decoded.getD [])]⟩, H1)
        | .ok v => (⟨some v, none, pre ++ [.verify token, .Unmarshal (decoded.getD [])]⟩, H1)
    (∀ e, out.1.err = some e → e.Code ∈ ASErrorCodes) ∧
    (out.1.value = none ∨ out.1.err = none) ∧
    out.2 = (verifyAndDecodeJWSHeap L now token rootCertPool H).2 ∧
    (∀ e, (verifyAndDecodeJWSHeap L now token rootCertPool H).1.err = some e →
      out.1.value = none ∧ out.1.err = some e ∧ out.1.steps = pre ++ [.verify token]) := by
  have hok := heap_result_ok L now token rootCertPool H
  rcases hr : verifyAndDecodeJWSHeap L now token rootCertPool H with ⟨⟨pl, _ | err, cs⟩, H1⟩
  · rcases hu : unmarshal (pl.getD []) with msg | v
    · simp [hu, ASErrorCodes]
    · simp [hu]
  · rw [hr] at hok
    have hm := hok.1 err rfl
    simp [hm]

/-- C18. Closed error taxonomy: every error that `verifyAndDecodeJWS`,
`ParseV2`, `DecodeTransactionInfo` and `DecodeRenewalInfo` return is an
`ASError` (the type of `err`) whose `Code` is one of the seven `ASErrorCode`
constants, and none of them returns both a result and an error. -/
theorem closed_error_taxonomy {N T R : Type} (J : JSON N T R) (L : Lib) (now : Nat)
    (a : appStoreNotifications) (H : Heap) (token payload : GoString)
    (rootCertPool : CertPool) :
    ((∀ e, (verifyAndDecodeJWS L now token rootCertPool).err = some e → e.Code ∈ ASErrorCodes) ∧
      ((verifyAndDecodeJWS L now token rootCertPool).payload = none ∨
        (verifyAndDecodeJWS L now token rootCertPool).err = none)) ∧
    ((∀ e, (ParseV2 J L now a payload H).1.err = some e → e.Code ∈ ASErrorCodes) ∧
      ((ParseV2 J L now a payload H).1.value = none ∨
        (ParseV2 J L now a payload H).1.err = none)) ∧
    ((∀ e, (DecodeTransactionInfo J L now a token H).1.err = some e → e.Code ∈ ASErrorCodes) ∧
      ((DecodeTransactionInfo J L now a token H).1.value = none ∨
        (DecodeTransactionInfo J L now a token H).1.err = none)) ∧
    ((∀ e, (DecodeRenewalInfo J L now a token H).1.err = some e → e.Code ∈ ASErrorCodes) ∧
      ((DecodeRenewalInfo J L now a token H).1.value = none ∨
        (DecodeRenewalInfo J L now a token H).1.err = none)) := by
  refine ⟨⟨err_code_mem L now token rootCertPool, ?_⟩, ?_, ?_, ?_⟩
  · rcases result_cases L now token rootCertPool with hr | hr
    · exact Or.inl hr.1
    · exact Or.inr hr.1
  · rcases hu : J.UnmarshalSignedPayload payload with msg | signed
    · simp [ParseV2, hu, ASErrorCodes]
    · by_cases hempty : signed.SignedPayload = []
      · simp [ParseV2, hu, hempty, ASErrorCodes]
      · have ht := method_tail J.UnmarshalNotificationV2 [.Unmarshal payload] L now
          signed.SignedPayload a.rootCertPool H
        simp only [ParseV2, hu, hempty, if_false]
        exact ⟨ht.1, ht.2.1⟩
  · have ht := method_tail J.UnmarshalTransactionInfo [] L now token a.rootCertPool H
    exact ⟨ht.1, ht.2.1⟩
  · have ht := method_tail J.UnmarshalRenewalInfo [] L now token a.rootCertPool H
    exact ⟨ht.1, ht.2.1⟩


/-- C18, at the envelope `{"signedPayload":"only.two"}`. -/
theorem closed_error_taxonomy_witness :
    (∀ e, (ParseV2 demoJSON demoLib 0 ⟨0⟩ (str "\x7b\"signedPayload\":\"only.two\"\x7d")
      [[demoRoot]]).1.err = some e → e.Code ∈ ASErrorCodes) ∧
    ((ParseV2 demoJSON demoLib 0 ⟨0⟩ (str "\x7b\"signedPayload\":\"only.two\"\x7d")
        [[demoRoot]]).1.value = none ∨
      (ParseV2 demoJSON demoLib 0 ⟨0⟩ (str "\x7b\"signedPayload\":\"only.two\"\x7d")
        [[demoRoot]]).1.err = none) :=
  (closed_error_taxonomy demoJSON demoLib 0 ⟨0⟩ [[demoRoot]] (str "only.two")
    (str "\x7b\"signedPayload\":\"only.two\"\x7d") [demoRoot]).2.1

/-- C20. The trust store is never mutated: after `verifyAndDecodeJWS` the pool
behind the root pointer is what it was, and the heap is the heap before the
call, or that heap with one new pool holding the certificates parsed from
`x5c[1:]` (first part); after `ParseV2`, `DecodeTransactionInfo` and
`DecodeRenewalInfo` every pool that existed before the call, the root pool of
the `appStoreNotifications` value among them, is what it was (second to last
part). -/
theorem trust_store_unchanged {N T R : Type} (J : JSON N T R) (L : Lib) (now : Nat)
    (a : appStoreNotifications) (H : Heap) (token payload : GoString)
    (hroot : a.rootCertPool < H.length) :
    ((verifyAndDecodeJWSHeap L now token a.rootCertPool H).2.pool a.rootCertPool =
        H.pool a.rootCertPool ∧
      ((verifyAndDecodeJWSHeap L now token a.rootCertPool H).2 = H ∨
        ∃ h p s headerBytes header leaf rest,
          Split token 46 = [h, p, s] ∧ RawURLEncoding.DecodeString h = some headerBytes ∧
          L.Unmarshal headerBytes = some header ∧ ParsedAs L header.X5C (leaf :: rest) ∧
          (verifyAndDecodeJWSHeap L now token a.rootCertPool H).2 =
            H ++ [addIntermediates rest])) ∧
    (∀ p, p < H.length →
      (ParseV2 J L now a payload H).2.pool p = H.pool p ∧
      (DecodeTransactionInfo J L now a token H).2.pool p = H.pool p ∧
      (DecodeRenewalInfo J L now a token H).2.pool p = H.pool p) ∧
    (ParseV2 J L now a payload H).2.pool a.rootCertPool = H.pool a.rootCertPool ∧
    (DecodeTransactionInfo J L now a token H).2.pool a.rootCertPool = H.pool a.rootCertPool ∧
    (DecodeRenewalInfo J L now a token H).2.pool a.rootCertPool = H.pool a.rootCertPool := by
  have frame : ∀ (tok : GoString) (p : Nat), p < H.length →
      (verifyAndDecodeJWSHeap L now tok a.rootCertPool H).2.pool p = H.pool p := by
    intro tok p hp
    rcases heap_after L now tok a.rootCertPool H with he | ⟨_, _, _, _, _, _, rest, _, _, _, _, he⟩
    · rw [he]
    · rw [he]
      exact pool_append_old H _ p hp
  have hparse : ∀ p, p < H.length → (ParseV2 J L now a payload H).2.pool p = H.pool p := by
    intro p hp
    rcases hu : J.UnmarshalSignedPayload payload with msg | signed
    · simp [ParseV2, hu]
    · by_cases hempty : signed.SignedPayload = []
      · simp [ParseV2, hu, hempty]
      · have ht := method_tail J.UnmarshalNotificationV2 [.Unmarshal payload] L now
          signed.SignedPayload a.rootCertPool H
        simp only [ParseV2, hu, hempty, if_false]
        exact ht.2.2.1 ▸ frame signed.SignedPayload p hp
  have htxn : ∀ p, p < H.length →
      (DecodeTransactionInfo J L now a token H).2.pool p = H.pool p := by
    intro p hp
    have ht := method_tail J.UnmarshalTransactionInfo [] L now token a.rootCertPool H
    exact ht.2.2.1 ▸ frame token p hp
  have hren : ∀ p, p < H.length →
      (DecodeRenewalInfo J L now a token H).2.pool p = H.pool p := by
    intro p hp
    have ht := method_tail J.UnmarshalRenewalInfo [] L now token a.rootCertPool H
    exact ht.2.2.1 ▸ frame token p hp
  exact ⟨⟨frame token _ hroot, heap_after L now token a.rootCertPool H⟩,
    fun p hp => ⟨hparse p hp, htxn p hp, hren p hp⟩, hparse _ hroot, htxn _ hroot, hren _ hroot⟩


/-- C20, at the demo token: the root pool is unchanged and the intermediates
went to a new pool. -/
theorem trust_store_unchanged_witness :
    (verifyAndDecodeJWSHeap demoLib 0 (demoHeaderB64 ++ str ".eyJhIjoxfQ.MAlHqA") 0
      [[demoRoot]]).2.pool 0 = Heap.pool [[demoRoot]] 0 ∧
    (verifyAndDecodeJWSHeap demoLib 0 (demoHeaderB64 ++ str ".eyJhIjoxfQ.MAlHqA") 0
      [[demoRoot]]).2 = [[demoRoot], [⟨[48, 1, 8, 7], .ecdsa [8]⟩]] :=
  ⟨(trust_store_unchanged demoJSON demoLib 0 ⟨0⟩ [[demoRoot]]
      (demoHeaderB64 ++ str ".eyJhIjoxfQ.MAlHqA") [] (by decide)).1.1, by decide⟩

/-! ### The methods of appStoreNotifications -/

/-- C21. ParseV2 envelope check: when `json.Unmarshal` of the input into the
envelope fails, or gives an envelope whose `signedPayload` is empty (the field
is absent or is the empty string), `ParseV2` returns a nil notification and an
error with code INVALID_PAYLOAD, whose reason is the text of the JSON error in
the first case and "missing signedPayload" in the second; its only step is the
`json.Unmarshal` of the input, so `verifyAndDecodeJWS` is not called, and no
pool is created. -/
theorem ParseV2_envelope_check {N T R : Type} (J : JSON N T R) (L : Lib) (now : Nat)
    (a : appStoreNotifications) (payload : GoString) (H : Heap)
    (hbad : (∃ msg, J.UnmarshalSignedPayload payload = .error msg) ∨
      ∃ signed, J.UnmarshalSignedPayload payload = .ok signed ∧ signed.SignedPayload = []) :
    (ParseV2 J L now a payload H).1.value = none ∧
    (∃ reason, (ParseV2 J L now a payload H).1.err = some ⟨ASErrorInvalidPayload, reason⟩) ∧
    (∀ msg, J.UnmarshalSignedPayload payload = .error msg →
      (ParseV2 J L now a payload H).1.err = some ⟨ASErrorInvalidPayload, msg⟩) ∧
    (∀ signed, J.UnmarshalSignedPayload payload = .ok signed →
      (ParseV2 J L now a payload H).1.err =
        some ⟨ASErrorInvalidPayload, str "missing signedPayload"⟩) ∧
    (ParseV2 J L now a payload H).1.steps = [Step.Unmarshal payload] ∧
    (∀ token, Step.verify token ∉ (ParseV2 J L now a payload H).1.steps) ∧
    (ParseV2 J L now a payload H).2 = H := by
  rcases hbad with ⟨msg, hu⟩ | ⟨signed, hu, hempty⟩
  · simp [ParseV2, hu]
  · simp [ParseV2, hu, hempty]

/-- C21, at the envelope `{"signedPayload":""}` of `TestParseV2_EmptySignedPayload`. -/
theorem ParseV2_envelope_check_witness :
    (ParseV2 demoJSON demoLib 0 ⟨0⟩ (str "\x7b\"signedPayload\":\"\"\x7d") [[demoRoot]]).1.err =
      some ⟨ASErrorInvalidPayload, str "missing signedPayload"⟩ ∧
    (ParseV2 demoJSON demoLib 0 ⟨0⟩ (str "\x7b\"signedPayload\":\"\"\x7d") [[demoRoot]]).1.steps =
      [Step.Unmarshal (str "\x7b\"signedPayload\":\"\"\x7d")] :=
  ⟨(ParseV2_envelope_check demoJSON demoLib 0 ⟨0⟩ (str "\x7b\"signedPayload\":\"\"\x7d")
      [[demoRoot]] (Or.inr ⟨⟨[]⟩, rfl, rfl⟩)).2.2.2.1 ⟨[]⟩ rfl,
    (ParseV2_envelope_check demoJSON demoLib 0 ⟨0⟩ (str "\x7b\"signedPayload\":\"\"\x7d")
      [[demoRoot]] (Or.inr ⟨⟨[]⟩, rfl, rfl⟩)).2.2.2.2.1⟩

/-- C22 as stated fails for the empty token: `verifyAndDecodeJWS` fails on it
with INVALID_JWS "expected 3 parts", while `ParseV2`, given the envelope
`{"signedPayload":""}` that carries it, returns INVALID_PAYLOAD
"missing signedPayload". -/
theorem empty_token_not_propagated :
    (verifyAndDecodeJWS demoLib 0 [] [demoRoot]).err =
      some ⟨ASErrorInvalidJWS, str "expected 3 parts"⟩ ∧
    (verifyAndDecodeJWSHeap demoLib 0 [] 0 [[demoRoot]]).1.err =
      some ⟨ASErrorInvalidJWS, str "expected 3 parts"⟩ ∧
    demoJSON.UnmarshalSignedPayload (str "\x7b\"signedPayload\":\"\"\x7d") = .ok ⟨[]⟩ ∧
    (ParseV2 demoJSON demoLib 0 ⟨0⟩ (str "\x7b\"signedPayload\":\"\"\x7d") [[demoRoot]]).1.err =
      some ⟨ASErrorInvalidPayload, str "missing signedPayload"⟩ :=
  ⟨by decide, by decide, rfl, by decide⟩

/-- C22, amended. Error propagation: when the call of `verifyAndDecodeJWS` on
`token` fails with the error `e`, `DecodeTransactionInfo` and
`DecodeRenewalInfo` return a nil result together with `e`, and so does
`ParseV2` on an envelope that carries `token`, provided `token` is not empty;
`e` is the error of `verifyAndDecodeJWS` on the pool that the root pointer
refers to (last part). -/
theorem error_propagation {N T R : Type} (J : JSON N T R) (L : Lib) (now : Nat)
    (a : appStoreNotifications) (H : Heap) (token payload : GoString) (e : ASError)
    (hfail : (verifyAndDecodeJWSHeap L now token a.rootCertPool H).1.err = some e) :
    ((DecodeTransactionInfo J L now a token H).1.value = none ∧
      (DecodeTransactionInfo J L now a token H).1.err = some e) ∧
    ((DecodeRenewalInfo J L now a token H).1.value = none ∧
      (DecodeRenewalInfo J L now a token H).1.err = some e) ∧
    (token ≠ [] → J.UnmarshalSignedPayload payload = .ok ⟨token⟩ →
      (ParseV2 J L now a payload H).1.value = none ∧
      (ParseV2 J L now a payload H).1.err = some e) ∧
    (a.rootCertPool < H.length →
      (verifyAndDecodeJWS L now token (H.pool a.rootCertPool)).err = some e) := by
  refine ⟨?_, ?_, ?_, ?_⟩
  · have ht := (method_tail J.UnmarshalTransactionInfo [] L now token a.rootCertPool H).2.2.2
      e hfail
    exact ⟨ht.1, ht.2.1⟩
  · have ht := (method_tail J.UnmarshalRenewalInfo [] L now token a.rootCertPool H).2.2.2
      e hfail
    exact ⟨ht.1, ht.2.1⟩
  · intro hne hu
    have ht := (method_tail J.UnmarshalNotificationV2 [.Unmarshal payload] L now token
      a.rootCertPool H).2.2.2 e hfail
    simp only [ParseV2, hu, hne, if_false]
    exact ⟨ht.1, ht.2.1⟩
  · intro hroot
    rw [← heap_refines L now token a.rootCertPool H hroot]
    exact hfail

/-- C22, at the token `only.two`, which has two segments. -/
theorem error_propagation_witness :
    (verifyAndDecodeJWSHeap demoLib 0 (str "only.two") 0 [[demoRoot]]).1.err =
      some ⟨ASErrorInvalidJWS, str "expected 3 parts"⟩ ∧
    (DecodeTransactionInfo demoJSON demoLib 0 ⟨0⟩ (str "only.two") [[demoRoot]]).1.err =
      some ⟨ASErrorInvalidJWS, str "expected 3 parts"⟩ ∧
    (ParseV2 demoJSON demoLib 0 ⟨0⟩ (str "\x7b\"signedPayload\":\"only.two\"\x7d")
      [[demoRoot]]).1.err = some ⟨ASErrorInvalidJWS, str "expected 3 parts"⟩ :=
  ⟨by decide,
    (error_propagation demoJSON demoLib 0 ⟨0⟩ [[demoRoot]] (str "only.two")
      (str "\x7b\"signedPayload\":\"only.two\"\x7d")
      ⟨ASErrorInvalidJWS, str "expected 3 parts"⟩ (by decide)).1.2,
    ((error_propagation demoJSON demoLib 0 ⟨0⟩ [[demoRoot]] (str "only.two")
      (str "\x7b\"signedPayload\":\"only.two\"\x7d")
      ⟨ASErrorInvalidJWS, str "expected 3 parts"⟩ (by decide)).2.2.1 (by decide) rfl).2⟩

/-! ### Non-ECDSA leaf -/

/-- The calls of the loop over `x5c` are decodings of entries and parses of
certificates. -/
theorem parseX5C_call_kinds (L : Lib) (xs : List GoString) :
    ∀ c ∈ (parseX5C L xs).1,
      (∃ x, c = Call.StdDecode x) ∨ ∃ der, c = Call.ParseCertificate der := by
  induction xs with
  | nil => simp [parseX5C]
  | cons x xs ih =>
    rcases hd : StdEncoding.DecodeString x with _ | der
    · simp [parseX5C, hd]
    · rcases hp : L.ParseCertificate der with _ | cert
      · simp [parseX5C, hd, hp]
      · rcases hr : parseX5C L xs with ⟨cs2, e | certs2⟩ <;>
        · rw [hr] at ih
          simpa [parseX5C, hd, hp, hr] using ih

/-- C29. Non-ECDSA leaf: for a token of three segments whose header decodes
and parses, names ES256, carries a chain that parses and that chain validation
accepts, and whose leaf certificate has a public key that is not an ECDSA key,
`verifyAndDecodeJWS` returns CERTIFICATE_INVALID with no payload; its calls end
with the chain validation, so after the decoding of the header segment there is
no further segment decoding, and there is no digest and no signature
verification. -/
theorem non_ecdsa_leaf (L : Lib) (now : Nat) (token : GoString) (rootCertPool : CertPool)
    (h p s headerBytes : GoString) (header : jwsHeader) (leaf : Certificate)
    (rest : List Certificate) (key : GoString)
    (hsplit : Split token 46 = [h, p, s])
    (hdec : RawURLEncoding.DecodeString h = some headerBytes)
    (hjson : L.Unmarshal headerBytes = some header)
    (halg : header.Alg = str "ES256")
    (hx5c : ParsedAs L header.X5C (leaf :: rest))
    (hchain : L.Verify now leaf rootCertPool (addIntermediates rest) = none)
    (hkey : leaf.PublicKey = PublicKey.other key) :
    (verifyAndDecodeJWS L now token rootCertPool).err =
      some ⟨ASErrorCertificateInvalid,
        str "leaf certificate does not contain an ECDSA public key"⟩ ∧
    (verifyAndDecodeJWS L now token rootCertPool).payload = none ∧
    (verifyAndDecodeJWS L now token rootCertPool).calls =
      [Call.RawURLDecode h, Call.Unmarshal headerBytes] ++ (parseX5C L header.X5C).1 ++
        rest.map Call.AddCert ++ [Call.Verify leaf rootCertPool (addIntermediates rest)] ∧
    (∀ x, Call.RawURLDecode x ∉ (verifyAndDecodeJWS L now token rootCertPool).calls.tail) ∧
    (∀ c ∈ (verifyAndDecodeJWS L now token rootCertPool).calls,
      ∀ data pub hash sig, c ≠ Call.Sum256 data ∧ c ≠ Call.VerifyASN1 pub hash sig) := by
  obtain ⟨cs, hcs⟩ := parseX5C_of_parsed L header.X5C (leaf :: rest) hx5c
  have hlen : header.X5C.length ≠ 0 := by
    have := hx5c.length_eq
    simp at this
    omega
  have hkind : ∀ c ∈ cs, (∃ x, c = Call.StdDecode x) ∨ ∃ der, c = Call.ParseCertificate der := by
    have h1 := parseX5C_call_kinds L header.X5C
    rw [hcs] at h1
    exact h1
  have hrun : verifyAndDecodeJWS L now token rootCertPool =
      fail ([Call.RawURLDecode h, Call.Unmarshal headerBytes] ++ cs ++
        rest.map Call.AddCert ++ [Call.Verify leaf rootCertPool (addIntermediates rest)])
        ASErrorCertificateInvalid
        (str "leaf certificate does not contain an ECDSA public key") := by
    simp [verifyAndDecodeJWS, hsplit, hdec, hjson, halg, hlen, hcs, hchain, hkey]
  rw [hrun, hcs]
  refine ⟨rfl, rfl, rfl, ?_, ?_⟩
  · intro x hx
    simp only [fail, List.tail, List.cons_append, List.nil_append, List.mem_cons,
      List.mem_append, List.mem_map, List.mem_singleton] at hx
    rcases hx with hx | (hx | ⟨a, _, ha⟩) | hx
    · exact absurd hx (by simp)
    · rcases hkind _ hx with ⟨y, hy⟩ | ⟨y, hy⟩ <;> exact absurd hy (by simp)
    · exact absurd ha (by simp)
    · exact absurd hx (by simp)
  · intro c hc data pub hash sig
    simp only [fail, List.cons_append, List.nil_append, List.mem_cons,
      List.mem_append, List.mem_map, List.mem_singleton] at hc
    rcases hc with rfl | rfl | (hc | ⟨a, _, rfl⟩) | (rfl | hc)
    · simp
    · simp
    · rcases hkind c hc with ⟨y, rfl⟩ | ⟨y, rfl⟩ <;> simp
    · simp
    · simp
    · simp at hc

/-- C29, at a demo token whose leaf `MAIJCA==` carries a key that is not an
ECDSA key and is issued by the demo intermediate. -/
theorem non_ecdsa_leaf_witness :
    (verifyAndDecodeJWS demoLib 0
      (str "eyJhbGciOiJFUzI1NiIsIng1YyI6WyJNQUlKQ0E9PSIsIk1BRUlCdz09Il19.eyJhIjoxfQ.MAlHqA")
      [demoRoot]).err =
      some ⟨ASErrorCertificateInvalid,
        str "leaf certificate does not contain an ECDSA public key"⟩ :=
  (non_ecdsa_leaf demoLib 0
    (str "eyJhbGciOiJFUzI1NiIsIng1YyI6WyJNQUlKQ0E9PSIsIk1BRUlCdz09Il19.eyJhIjoxfQ.MAlHqA")
    [demoRoot] (str "eyJhbGciOiJFUzI1NiIsIng1YyI6WyJNQUlKQ0E9PSIsIk1BRUlCdz09Il19")
    (str "eyJhIjoxfQ") (str "MAlHqA")
    (str "\x7b\"alg\":\"ES256\",\"x5c\":[\"MAIJCA==\",\"MAEIBw==\"]\x7d")
    ⟨str "ES256", [str "MAIJCA==", str "MAEIBw=="]⟩ ⟨[48, 2, 9, 8], .other [9]⟩
    [⟨[48, 1, 8, 7], .ecdsa [8]⟩] [9] (by decide) (by decide) (by decide) rfl
    (parseX5C_ok demoLib _ _ _ rfl) (by decide) rfl).1

/-! ### fmt.Sprintf and the messages of errors -/

theorem Sprintf_copy (c : Nat) (f : GoString) (args : List Arg) (h : c ≠ 37) :
    Sprintf (c :: f) args = c :: Sprintf f args := by
  cases f with
  | nil => cases args <;> simp [Sprintf]
  | cons v rest => simp [Sprintf, h]

theorem Sprintf_s (f x : GoString) (args : List Arg) :
    Sprintf (37 :: 115 :: f) (.s x :: args) = x ++ Sprintf f args := by
  simp [Sprintf]

theorem Sprintf_d (f : GoString) (x : Int) (args : List Arg) :
    Sprintf (37 :: 100 :: f) (.d x :: args) = FormatInt x ++ Sprintf f args := by
  simp [Sprintf]

theorem Sprintf_nil (args : List Arg) : Sprintf [] args = [] := by
  simp [Sprintf]

/-- C23. ASError message format: `e.Error()` is `"appstore: " + Code + ": " +
Reason` when `Reason` is not empty, and `"appstore: " + Code` when it is empty. -/
theorem ASError_message_format (e : ASError) :
    e.Error =
      if e.Reason ≠ [] then str "appstore: " ++ e.Code ++ str ": " ++ e.Reason
      else str "appstore: " ++ e.Code := by
  unfold ASError.Error
  split
  · show Sprintf [97, 112, 112, 115, 116, 111, 114, 101, 58, 32, 37, 115, 58, 32, 37, 115] _ = _
    simp [Sprintf_copy, Sprintf_s, Sprintf_nil, str]
  · show Sprintf [97, 112, 112, 115, 116, 111, 114, 101, 58, 32, 37, 115] _ = _
    simp [Sprintf_copy, Sprintf_s, Sprintf_nil, str]

/-- C23, at the two errors of `TestASError_Error`. -/
theorem ASError_message_format_witness :
    ASError.Error ⟨ASErrorInvalidPayload, str "bad json"⟩ =
      str "appstore: INVALID_PAYLOAD: bad json" ∧
    ASError.Error ⟨ASErrorInvalidJWS, []⟩ = str "appstore: INVALID_JWS" :=
  ⟨(ASError_message_format ⟨ASErrorInvalidPayload, str "bad json"⟩).trans rfl,
    (ASError_message_format ⟨ASErrorInvalidJWS, []⟩).trans rfl⟩

/-! ### CloudKit -/

/-- C26. CloudKit URL construction: `buildURL` returns `urlSubpath =
"/database/1/" + Container + "/" + Environment + "/" + db + "/" + subpath` and
`fullURL = "https://api.apple-cloudkit.com" + urlSubpath`, so the subpath is a
suffix of the full URL. -/
theorem buildURL_construction (c : cloudKit) (db subpath : GoString) :
    (buildURL c db subpath).2 =
      str "/database/1/" ++ c.Container ++ str "/" ++ c.Environment ++ str "/" ++ db ++
        str "/" ++ subpath ∧
    (buildURL c db subpath).1 =
      str "https://api.apple-cloudkit.com" ++ (buildURL c db subpath).2 ∧
    (buildURL c db subpath).2 <:+ (buildURL c db subpath).1 := by
  have h : (buildURL c db subpath).2 =
      str "/database/1/" ++ c.Container ++ str "/" ++ c.Environment ++ str "/" ++ db ++
        str "/" ++ subpath := by
    show Sprintf [47, 100, 97, 116, 97, 98, 97, 115, 101, 47, 37, 115, 47, 37, 115, 47, 37, 115,
      47, 37, 115, 47, 37, 115] _ = _
    simp [Sprintf_copy, Sprintf_s, Sprintf_nil, str, cloudKitVersion]
  exact ⟨h, rfl, ⟨str "https://api.apple-cloudkit.com", rfl⟩⟩

/-- C26, at the client and the arguments of `TestBuildURL`. -/
theorem buildURL_construction_witness :
    (buildURL ⟨str "test-key-id", str "iCloud.com.example.app", str "development", []⟩
      (str "public") (str "records/query")).2 =
      str "/database/1/iCloud.com.example.app/development/public/records/query" ∧
    (buildURL ⟨str "test-key-id", str "iCloud.com.example.app", str "development", []⟩
      (str "public") (str "records/query")).1 =
      str ("https://api.apple-cloudkit.com/database/1/iCloud.com.example.app/development" ++
        "/public/records/query") :=
  ⟨(buildURL_construction ⟨str "test-key-id", str "iCloud.com.example.app",
      str "development", []⟩ (str "public") (str "records/query")).1.trans rfl,
    (buildURL_construction ⟨str "test-key-id", str "iCloud.com.example.app",
      str "development", []⟩ (str "public") (str "records/query")).2.1.trans rfl⟩

/-- C27. ParseCKPushNotification rejection: when `json.Unmarshal` of the
payload fails, the function returns a nil notification and a `CKError` with
code BAD_REQUEST whose reason is the text of the JSON error; when it succeeds
with a nil `CK` (the `ck` field is absent or null), the function returns a nil
notification and BAD_REQUEST with reason "missing ck field"; and a notification
that the function returns has a non-nil `CK`, is what `json.Unmarshal` gave, and
comes with a nil error. -/
theorem ParseCKPushNotification_rejection {P : Type}
    (Unmarshal : GoString → Except GoString (CKPushNotification P)) (payload : GoString) :
    (∀ err, Unmarshal payload = .error err →
      ParseCKPushNotification Unmarshal payload =
        (none, some ⟨CKErrorBadRequest, err, [], 0, []⟩)) ∧
    (∀ n, Unmarshal payload = .ok n → n.CK = none →
      ParseCKPushNotification Unmarshal payload =
        (none, some ⟨CKErrorBadRequest, str "missing ck field", [], 0, []⟩)) ∧
    (∀ n, (ParseCKPushNotification Unmarshal payload).1 = some n →
      n.CK ≠ none ∧ Unmarshal payload = .ok n ∧
        (ParseCKPushNotification Unmarshal payload).2 = none) := by
  refine ⟨?_, ?_, ?_⟩
  · intro err h
    simp [ParseCKPushNotification, h]
  · intro n h hn
    simp [ParseCKPushNotification, h, hn]
  · intro n h
    rcases hu : Unmarshal payload with err | m
    · simp [ParseCKPushNotification, hu] at h
    · rcases hc : m.CK with _ | ck
      · simp [ParseCKPushNotification, hu, hc] at h
      · simp [ParseCKPushNotification, hu, hc] at h
        subst h
        simp [ParseCKPushNotification, hu, hc]

/-! ### url.Values -/

theorem lexLt_iff (a b : GoString) : lexLt a b = true ↔ a < b := by
  induction a generalizing b with
  | nil =>
    cases b with
    | nil => simp [lexLt]
    | cons b y => simp [lexLt, List.nil_lt_cons]
  | cons a x ih =>
    cases b with
    | nil =>
      simp only [lexLt, Bool.false_eq_true, false_iff]
      exact List.Lex.not_nil_right _ _
    | cons b y =>
      simp only [lexLt, Bool.or_eq_true, decide_eq_true_eq, Bool.and_eq_true, beq_iff_eq, ih]
      constructor
      · rintro (h | ⟨rfl, h⟩)
        · exact List.Lex.rel h
        · exact List.Lex.cons h
      · intro h
        cases h with
        | rel h => exact Or.inl h
        | cons h => exact Or.inr ⟨rfl, h⟩

theorem insertKey_eq (k : GoString) (l : List GoString) :
    insertKey k l = List.orderedInsert (· ≤ ·) k l := by
  induction l with
  | nil => rfl
  | cons x xs ih =>
    by_cases h : lexLt x k = true
    · have h2 : ¬ k ≤ x := not_le.2 ((lexLt_iff x k).1 h)
      simp [insertKey, h, h2, ih]
    · have h2 : k ≤ x := not_lt.1 (fun h3 => h ((lexLt_iff x k).2 h3))
      simp [insertKey, h, h2]

theorem sortKeys_eq (l : List GoString) : sortKeys l = List.insertionSort (· ≤ ·) l := by
  induction l with
  | nil => rfl
  | cons x xs ih => simp [sortKeys, ih, insertKey_eq]

/-- Sorting gives the one arrangement of the keys that is in increasing order. -/
theorem sortKeys_unique (l l' : List GoString) (hp : l.Perm l')
    (hs : l'.Pairwise (fun a b => lexLt a b = true)) : sortKeys l = l' := by
  rw [sortKeys_eq]
  refine List.eq_of_perm_of_sorted ((List.perm_insertionSort _ l).trans hp)
    (List.sorted_insertionSort _ l) ?_
  exact hs.imp (fun h => le_of_lt ((lexLt_iff _ _).1 h))
theorem fieldValues_keys (fs : List (GoString × Option GoString)) :
    (fieldValues fs).map Prod.fst = (fs.filter fun f => f.2.isSome).map Prod.fst := by
  induction fs with
  | nil => rfl
  | cons f rest ih =>
    rcases f with ⟨k, _ | v⟩
    · simpa [fieldValues] using ih
    · simpa [fieldValues] using ih

theorem fieldValues_index (fs : List (GoString × Option GoString)) (k v : GoString)
    (hnd : (fs.map Prod.fst).Nodup) (hmem : (k, some v) ∈ fs) :
    Values.index (fieldValues fs) k = [v] := by
  induction fs with
  | nil => simp at hmem
  | cons f rest ih =>
    rw [List.map_cons, List.nodup_cons] at hnd
    rcases List.mem_cons.1 hmem with h | h
    · subst h
      simp [fieldValues, Values.index, List.lookup]
    · have hne : f.1 ≠ k := by
        intro h1
        exact hnd.1 (h1 ▸ List.mem_map_of_mem Prod.fst h)
      have ih2 := ih hnd.2 h
      rcases f with ⟨a, _ | w⟩
      · simpa [fieldValues] using ih2
      · have hne2 : (k == a) = false := by
          simp only [beq_eq_false_iff_ne, ne_eq]
          exact fun h1 => hne h1.symm
        simpa [fieldValues, Values.index, List.lookup, hne2] using ih2

theorem fieldPairs_of_index (Q : Values) (gs : List (GoString × Option GoString))
    (h : ∀ g ∈ gs, ∀ v, g.2 = some v → Values.index Q g.1 = [v]) :
    (((fieldValues gs).map Prod.fst).map fun k =>
      (Values.index Q k).map fun x => QueryEscape k ++ str "=" ++ QueryEscape x).flatten =
      fieldPairs gs := by
  induction gs with
  | nil => rfl
  | cons g rest ih =>
    have ih2 := ih (fun g' hg' => h g' (List.mem_cons_of_mem _ hg'))
    rcases g with ⟨k, _ | v⟩
    · simpa [fieldValues, fieldPairs] using ih2
    · have hk : Values.index Q k = [v] := h (k, some v) (List.mem_cons_self _ _) v rfl
      show ((Values.index Q k).map fun x => QueryEscape k ++ str "=" ++ QueryEscape x) ++
        (((fieldValues rest).map Prod.fst).map fun k =>
          (Values.index Q k).map fun x => QueryEscape k ++ str "=" ++ QueryEscape x).flatten =
        queryPair k v :: fieldPairs rest
      rw [hk, ih2]
      rfl

/-- The encoding of a map with one value for each key: the pairs in the
increasing order of the keys. -/
theorem Encode_fieldValues (fs gs : List (GoString × Option GoString))
    (hmem : ∀ f, f ∈ fs ↔ f ∈ gs)
    (hnd : (fs.map Prod.fst).Nodup)
    (hs : (gs.map Prod.fst).Pairwise (fun a b => lexLt a b = true)) :
    Values.Encode (fieldValues fs) = Join (fieldPairs gs) (str "&") := by
  have hirr : ∀ a : GoString, lexLt a a = false := by
    intro a
    induction a with
    | nil => rfl
    | cons x xs ih => simp [lexLt, ih]
  have hnd2 : (gs.map Prod.fst).Nodup :=
    hs.imp (fun {a b} h1 h2 => by rw [h2, hirr] at h1; exact absurd h1 (by simp))
  have hperm : fs.Perm gs :=
    (List.perm_ext_iff_of_nodup (List.Nodup.of_map _ hnd) (List.Nodup.of_map _ hnd2)).2 hmem
  have hsort : sortKeys ((fieldValues fs).map Prod.fst) = (fieldValues gs).map Prod.fst := by
    apply sortKeys_unique
    · exact (hperm.filterMap _).map _
    · rw [fieldValues_keys]
      exact hs.sublist ((List.filter_sublist _).map _)
  unfold Values.Encode
  rw [hsort, fieldPairs_of_index]
  intro g hg v hv
  apply fieldValues_index fs g.1 v hnd
  rw [hmem]
  rcases g with ⟨k, o⟩
  simp only at hv
  rw [← hv]
  exact hg

theorem Set_fresh (q : Values) (k v : GoString) (h : k ∉ q.map Prod.fst) :
    q.Set k v = q ++ [(k, [v])] := by
  induction q with
  | nil => rfl
  | cons e rest ih =>
    rcases e with ⟨a, vs⟩
    have h1 : a ≠ k := fun h2 => h (by simp [h2])
    have h3 : k ∉ rest.map Prod.fst := fun h2 => h (by simp [h2])
    simp [Values.Set, h1, ih h3]

theorem Add_fresh (q : Values) (k v : GoString) (h : k ∉ q.map Prod.fst) :
    q.Add k v = q ++ [(k, [v])] := by
  induction q with
  | nil => rfl
  | cons e rest ih =>
    rcases e with ⟨a, vs⟩
    have h1 : a ≠ k := fun h2 => h (by simp [h2])
    have h3 : k ∉ rest.map Prod.fst := fun h2 => h (by simp [h2])
    simp [Values.Add, h1, ih h3]

theorem fieldValues_fresh (fs : List (GoString × Option GoString)) (ks : List GoString)
    (k : GoString) (hks : fs.map Prod.fst = ks) (h : k ∉ ks) :
    k ∉ (fieldValues fs).map Prod.fst := by
  rw [fieldValues_keys]
  intro hm
  apply h
  rw [← hks]
  exact ((List.filter_sublist _).map _).subset hm

theorem fieldValues_snoc (fs : List (GoString × Option GoString)) (k : GoString)
    (o : Option GoString) :
    fieldValues (fs ++ [(k, o)]) =
      fieldValues fs ++ (match o with | some v => [(k, [v])] | none => []) := by
  cases o <;> simp [fieldValues, List.filterMap_append]

theorem Set_step (fs : List (GoString × Option GoString)) (ks : List GoString)
    (k v : GoString) (c : Prop) [Decidable c] (hks : fs.map Prod.fst = ks) (h : k ∉ ks) :
    (if c then (fieldValues fs).Set k v else fieldValues fs) =
      fieldValues (fs ++ [(k, if c then some v else none)]) := by
  rw [fieldValues_snoc]
  by_cases hc : c
  · simp [hc, Set_fresh _ k v (fieldValues_fresh fs ks k hks h)]
  · simp [hc]

theorem Add_step (fs : List (GoString × Option GoString)) (ks : List GoString)
    (k v : GoString) (c : Prop) [Decidable c] (hks : fs.map Prod.fst = ks) (h : k ∉ ks) :
    (if c then (fieldValues fs).Add k v else fieldValues fs) =
      fieldValues (fs ++ [(k, if c then some v else none)]) := by
  rw [fieldValues_snoc]
  by_cases hc : c
  · simp [hc, Add_fresh _ k v (fieldValues_fresh fs ks k hks h)]
  · simp [hc]

theorem Add_one (fs : List (GoString × Option GoString)) (ks : List GoString)
    (k v : GoString) (hks : fs.map Prod.fst = ks) (h : k ∉ ks) :
    (fieldValues fs).Add k v = fieldValues (fs ++ [(k, some v)]) := by
  rw [fieldValues_snoc, Add_fresh _ k v (fieldValues_fresh fs ks k hks h)]

theorem Set_one (fs : List (GoString × Option GoString)) (ks : List GoString)
    (k v : GoString) (hks : fs.map Prod.fst = ks) (h : k ∉ ks) :
    (fieldValues fs).Set k v = fieldValues (fs ++ [(k, some v)]) := by
  rw [fieldValues_snoc, Set_fresh _ k v (fieldValues_fresh fs ks k hks h)]

/-- The fields of `params` in the order in which `GetTransactionHistory` sets them. -/
theorem historyQuery_eq (params : ASTransactionHistoryParams) :
    historyQuery (some params) = some (fieldValues
      [(str "revision", if params.Revision ≠ [] then some params.Revision else none),
        (str "startDate",
          if params.StartDate ≠ 0 then some (FormatInt params.StartDate) else none),
        (str "endDate", if params.EndDate ≠ 0 then some (FormatInt params.EndDate) else none),
        (str "productId", if params.ProductID ≠ [] then some params.ProductID else none),
        (str "productType", if params.ProductType ≠ [] then some params.ProductType else none),
        (str "sort", if params.SortOrder ≠ [] then some params.SortOrder else none),
        (str "inAppOwnershipType",
          if params.InAppOwnershipType ≠ [] then some params.InAppOwnershipType else none),
        (str "revoked", params.Revoked.map FormatBool)]) := by
  have e0 : ([] : Values) = fieldValues [] := rfl
  simp only [historyQuery]
  rw [e0]
  rw [Set_step _ []]
  case hks => rfl
  case h => decide
  rw [Set_step _ [str "revision"]]
  case hks => rfl
  case h => decide
  rw [Set_step _ [str "revision", str "startDate"]]
  case hks => rfl
  case h => decide
  rw [Set_step _ [str "revision", str "startDate", str "endDate"]]
  case hks => rfl
  case h => decide
  rw [Set_step _ [str "revision", str "startDate", str "endDate", str "productId"]]
  case hks => rfl
  case h => decide
  rw [Set_step _ [str "revision", str "startDate",
    str "endDate", str "productId", str "productType"]]
  case hks => rfl
  case h => decide
  rw [Set_step _ [str "revision", str "startDate", str "endDate",
    str "productId", str "productType", str "sort"]]
  case hks => rfl
  case h => decide
  rcases params.Revoked with _ | revoked
  · rfl
  · simp only []
    rw [Set_one _ [str "revision", str "startDate", str "endDate", str "productId",
      str "productType", str "sort", str "inAppOwnershipType"]]
    case hks => rfl
    case h => decide
    rfl

/-! ### AuthorizeURL -/

/-- The query of `AuthorizeURL`, encoded. -/
theorem AuthorizeURL_query (cfg : AuthorizeURLConfig) :
    AuthorizeURL cfg = URL.String ⟨str "https", str "appleid.apple.com", str "/auth/authorize",
      Join (fieldPairs
        [(str "client_id", some cfg.ClientID),
          (str "nonce", if cfg.Nonce ≠ [] then some cfg.Nonce else none),
          (str "redirect_uri", some cfg.RedirectURI),
          (str "response_mode",
            some (if cfg.ResponseMode ≠ [] then cfg.ResponseMode else ResponseModeFormPost)),
          (str "response_type",
            some (if cfg.ResponseType ≠ [] then cfg.ResponseType else ResponseTypeCodeID)),
          (str "scope",
            if cfg.Scope.length > 0 then some (Join cfg.Scope (str " ")) else none),
          (str "state", if cfg.State ≠ [] then some cfg.State else none)]) (str "&")⟩ := by
  have e0 : ([] : Values) = fieldValues [] := rfl
  simp only [AuthorizeURL, authorizeEndpoint]
  rw [e0, Add_one _ []]
  case hks => rfl
  case h => decide
  rw [Add_one _ [str "response_type"]]
  case hks => rfl
  case h => decide
  rw [Add_one _ [str "response_type", str "response_mode"]]
  case hks => rfl
  case h => decide
  rw [Add_one _ [str "response_type", str "response_mode", str "client_id"]]
  case hks => rfl
  case h => decide
  rw [Add_step _ [str "response_type", str "response_mode", str "client_id",
    str "redirect_uri"]]
  case hks => rfl
  case h => decide
  rw [Add_step _ [str "response_type", str "response_mode", str "client_id",
    str "redirect_uri", str "state"]]
  case hks => rfl
  case h => decide
  rw [Add_step _ [str "response_type", str "response_mode", str "client_id",
    str "redirect_uri", str "state", str "nonce"]]
  case hks => rfl
  case h => decide
  congr 2
  apply Encode_fieldValues
  · intro f
    simp only [List.nil_append, List.cons_append, List.mem_cons, List.mem_singleton,
      List.not_mem_nil, or_false]
    tauto
  · show ([str "response_type", str "response_mode", str "client_id", str "redirect_uri",
      str "state", str "nonce", str "scope"] : List GoString).Nodup
    decide
  · show List.Pairwise (fun a b => lexLt a b = true)
      [str "client_id", str "nonce", str "redirect_uri", str "response_mode",
        str "response_type", str "scope", str "state"]
    decide

/-- C24. AuthorizeURL defaults: the result of `AuthorizeURL` is the endpoint
followed by the query, whose parameters are in the order of their keys, each
value escaped; its `response_mode` parameter is `cfg.ResponseMode` when that is
not empty and "form_post" otherwise, its `response_type` parameter is
`cfg.ResponseType` when that is not empty and "code id_token" otherwise, and
neither parameter depends on the field of the other. -/
theorem AuthorizeURL_defaults (cfg : AuthorizeURLConfig) :
    AuthorizeURL cfg =
      str "https://appleid.apple.com/auth/authorize?client_id=" ++ QueryEscape cfg.ClientID ++
        (if cfg.Nonce ≠ [] then str "&nonce=" ++ QueryEscape cfg.Nonce else []) ++
        str "&redirect_uri=" ++ QueryEscape cfg.RedirectURI ++
        str "&response_mode=" ++
          QueryEscape (if cfg.ResponseMode ≠ [] then cfg.ResponseMode else str "form_post") ++
        str "&response_type=" ++
          QueryEscape (if cfg.ResponseType ≠ [] then cfg.ResponseType else str "code id_token") ++
        (if cfg.Scope ≠ [] then str "&scope=" ++ QueryEscape (Join cfg.Scope (str " ")) else []) ++
        (if cfg.State ≠ [] then str "&state=" ++ QueryEscape cfg.State else []) := by
  rw [AuthorizeURL_query]
  have k1 : QueryEscape [99, 108, 105, 101, 110, 116, 95, 105, 100] =
      [99, 108, 105, 101, 110, 116, 95, 105, 100] := by decide
  have k2 : QueryEscape [110, 111, 110, 99, 101] = [110, 111, 110, 99, 101] := by decide
  have k3 : QueryEscape [114, 101, 100, 105, 114, 101, 99, 116, 95, 117, 114, 105] =
      [114, 101, 100, 105, 114, 101, 99, 116, 95, 117, 114, 105] := by decide
  have k4 : QueryEscape [114, 101, 115, 112, 111, 110, 115, 101, 95, 109, 111, 100, 101] =
      [114, 101, 115, 112, 111, 110, 115, 101, 95, 109, 111, 100, 101] := by decide
  have k5 : QueryEscape [114, 101, 115, 112, 111, 110, 115, 101, 95, 116, 121, 112, 101] =
      [114, 101, 115, 112, 111, 110, 115, 101, 95, 116, 121, 112, 101] := by decide
  have k6 : QueryEscape [115, 99, 111, 112, 101] = [115, 99, 111, 112, 101] := by decide
  have k7 : QueryEscape [115, 116, 97, 116, 101] = [115, 116, 97, 116, 101] := by decide
  rcases cfg with ⟨cid, ruri, state, scope, nonce, mode, type⟩
  rcases state with _ | ⟨s0, s1⟩ <;> rcases nonce with _ | ⟨n0, n1⟩ <;>
    rcases scope with _ | ⟨p0, p1⟩ <;>
    simp [fieldPairs, queryPair, URL.String, k1, k2, k3, k4, k5, k6, k7, Join, str,
      ResponseModeFormPost, ResponseTypeCodeID]

/-- C24, at the configuration of `TestAuthorizeURLWithScopeAndState`, which
leaves both fields empty. -/
theorem AuthorizeURL_defaults_witness :
    AuthorizeURL ⟨str "com.example.app", str "https://example.com/callback", str "csrf-token",
      [str "email", str "name"], str "nonce-abc", [], []⟩ =
      str ("https://appleid.apple.com/auth/authorize?client_id=com.example.app" ++
        "&nonce=nonce-abc&redirect_uri=https%3A%2F%2Fexample.com%2Fcallback" ++
        "&response_mode=form_post&response_type=code+id_token&scope=email+name" ++
        "&state=csrf-token") :=
  (AuthorizeURL_defaults ⟨str "com.example.app", str "https://example.com/callback",
    str "csrf-token", [str "email", str "name"], str "nonce-abc", [], []⟩).trans rfl

/-! ### doRequest -/

theorem status_message (status : Int) :
    Sprintf (str "appstore api: unexpected status code: %d") [.d status] =
      str "appstore api: unexpected status code: " ++ FormatInt status := by
  show Sprintf [97, 112, 112, 115, 116, 111, 114, 101, 32, 97, 112, 105, 58, 32, 117, 110, 101,
    120, 112, 101, 99, 116, 101, 100, 32, 115, 116, 97, 116, 117, 115, 32, 99, 111, 100, 101, 58,
    32, 37, 100] _ = _
  simp [Sprintf_copy, Sprintf_d, Sprintf_nil, str]

/-- What `doRequest` sends: nothing, or one request with the method, the URL,
the bearer token and the content type. -/
theorem doRequest_sent {β ρ : Type} (E : ServerLib β ρ) (s : appStoreServer)
    (method path : GoString) (queryParams : Option Values) (body : Option β) (result : Bool) :
    (doRequest E s method path queryParams body result).sent = [] ∨
    ∃ token reader, E.generateToken = .ok token ∧ bodyReader E body = .ok reader ∧
      E.NewRequest method (fullURL s path queryParams) = none ∧
      (doRequest E s method path queryParams body result).sent =
        [⟨method, fullURL s path queryParams, str "Bearer " ++ token, str "application/json",
          reader⟩] := by
  rcases hT : E.generateToken with err | token
  · simp [doRequest, hT]
  rcases hB : bodyReader E body with err | reader
  · simp [doRequest, hT, hB]
  rcases hN : E.NewRequest method (fullURL s path queryParams) with _ | err
  swap
  · simp [doRequest, hT, hB, hN]
  refine Or.inr ⟨token, reader, rfl, rfl, rfl, ?_⟩
  rcases hD : s.httpClient ⟨method, fullURL s path queryParams, str "Bearer " ++ token,
    str "application/json", reader⟩ with err | resp
  · simp [doRequest, hT, hB, hN, hD]
  rcases hR : resp.Body with err | respBody
  · simp [doRequest, hT, hB, hN, hD, hR]
  · simp [doRequest, hT, hB, hN, hD, hR]

/-- What `doRequest` returns once the client has answered the request and the
body of the response has been read. -/
theorem doRequest_response {β ρ : Type} (E : ServerLib β ρ) (s : appStoreServer)
    (method path : GoString) (queryParams : Option Values) (body : Option β) (result : Bool)
    (req : Request) (resp : Response) (respBody : GoString)
    (hsent : (doRequest E s method path queryParams body result).sent = [req])
    (hdo : s.httpClient req = .ok resp) (hread : resp.Body = .ok respBody) :
    (doRequest E s method path queryParams body result).err =
      (handleResponse E resp respBody result).1 ∧
    (doRequest E s method path queryParams body result).result =
      (handleResponse E resp respBody result).2 := by
  rcases doRequest_sent E s method path queryParams body result with h0 | ⟨token, reader, hT, hB,
    hN, h1⟩
  · rw [h0] at hsent
    exact absurd hsent (by simp)
  · rw [h1] at hsent
    have hreq := (List.cons.inj hsent).1
    rw [← hreq] at hdo
    simp [doRequest, hT, hB, hN, hdo, hread]

theorem doRequest_sent_ok {β ρ : Type} (E : ServerLib β ρ) (s : appStoreServer)
    (method path : GoString) (queryParams : Option Values) (body : Option β) (result : Bool)
    (token : GoString) (reader : Option GoString)
    (hT : E.generateToken = .ok token) (hB : bodyReader E body = .ok reader)
    (hN : E.NewRequest method (fullURL s path queryParams) = none) :
    (doRequest E s method path queryParams body result).sent =
      [⟨method, fullURL s path queryParams, str "Bearer " ++ token, str "application/json",
        reader⟩] := by
  rcases hD : s.httpClient ⟨method, fullURL s path queryParams, str "Bearer " ++ token,
    str "application/json", reader⟩ with err | resp
  · simp [doRequest, hT, hB, hN, hD]
  rcases hR : resp.Body with err | respBody
  · simp [doRequest, hT, hB, hN, hD, hR]
  · simp [doRequest, hT, hB, hN, hD, hR]

/-- C25. App Store API error mapping: when `doRequest` has sent its request,
the client has answered with a response whose status is outside 200..299, and
the body of the response has been read, `doRequest` returns an error and stores
no result. If the body unmarshals into an `ASAPIError` with an error code that
is not zero, the error is an `*ASAPIError` with that code and message, the
status of the response as `HTTPStatus`, and as `RetryAfter` the integer that
`strconv.Atoi` reads from the `Retry-After` header, or 0 when the header is
absent or `strconv.Atoi` rejects it. In every other case the error has the
message "appstore api: unexpected status code: " followed by the status. -/
theorem doRequest_error_mapping {β ρ : Type} (E : ServerLib β ρ) (s : appStoreServer)
    (method path : GoString) (queryParams : Option Values) (body : Option β) (result : Bool)
    (req : Request) (resp : Response) (respBody : GoString)
    (hsent : (doRequest E s method path queryParams body result).sent = [req])
    (hdo : s.httpClient req = .ok resp)
    (hread : resp.Body = .ok respBody)
    (hstatus : resp.StatusCode < 200 ∨ resp.StatusCode ≥ 300) :
    (∃ e, (doRequest E s method path queryParams body result).err = some e) ∧
    (doRequest E s method path queryParams body result).result = none ∧
    (∀ code message, E.UnmarshalAPIError respBody = some (code, message) → code ≠ 0 →
      (doRequest E s method path queryParams body result).err =
        some (.api ⟨code, message, resp.StatusCode,
          (Atoi (resp.Header.Get (str "Retry-After"))).getD 0⟩)) ∧
    ((E.UnmarshalAPIError respBody = none ∨
        ∃ message, E.UnmarshalAPIError respBody = some (0, message)) →
      (doRequest E s method path queryParams body result).err =
        some (.text (str "appstore api: unexpected status code: " ++
          FormatInt resp.StatusCode))) := by
  obtain ⟨he, hres⟩ := doRequest_response E s method path queryParams body result req resp
    respBody hsent hdo hread
  rw [he, hres]
  rcases hU : E.UnmarshalAPIError respBody with _ | ⟨code, message⟩
  · simp [handleResponse, hstatus, hU, status_message]
  · by_cases hc : code = 0
    · subst hc
      simp [handleResponse, hstatus, hU, status_message]
    · simp [handleResponse, hstatus, hU, hc]
      by_cases h : resp.Header.Get (str "Retry-After") = []
      · simp [h, Atoi]
      · rcases h2 : Atoi (resp.Header.Get (str "Retry-After")) with _ | v <;> simp [h]

/-- C25, at the response of `TestASDoRequestRateLimitError`: status 429, the
header `Retry-After: 30`, and the body of a rate limit error. -/
theorem doRequest_error_mapping_witness :
    (doRequest demoServerLib
      (demoServer ⟨429, [(str "Retry-After", [str "30"])],
        .ok (str "\x7b\"errorCode\":4290000,\"errorMessage\":\"Rate limit exceeded\"\x7d")⟩)
      (str "GET") (str "/inApps/v1/transactions/12345") none none true).err =
      some (.api ⟨4290000, str "Rate limit exceeded", 429, 30⟩) :=
  ((doRequest_error_mapping demoServerLib
      (demoServer ⟨429, [(str "Retry-After", [str "30"])],
        .ok (str "\x7b\"errorCode\":4290000,\"errorMessage\":\"Rate limit exceeded\"\x7d")⟩)
      (str "GET") (str "/inApps/v1/transactions/12345") none none true
      ⟨str "GET", str "https://api.storekit-sandbox.itunes.apple.com/inApps/v1/transactions/12345",
        str "Bearer token", str "application/json", none⟩
      ⟨429, [(str "Retry-After", [str "30"])],
        .ok (str "\x7b\"errorCode\":4290000,\"errorMessage\":\"Rate limit exceeded\"\x7d")⟩
      (str "\x7b\"errorCode\":4290000,\"errorMessage\":\"Rate limit exceeded\"\x7d")
      rfl rfl rfl (by decide)).2.2.1 4290000 (str "Rate limit exceeded") rfl
      (by decide)).trans rfl

/-! ### GetTransactionHistory -/

theorem history_path (id : GoString) :
    Sprintf (str "/inApps/v2/history/%s") [.s id] = str "/inApps/v2/history/" ++ id := by
  show Sprintf [47, 105, 110, 65, 112, 112, 115, 47, 118, 50, 47, 104, 105, 115, 116, 111, 114,
    121, 47, 37, 115] _ = _
  simp [Sprintf_copy, Sprintf_s, Sprintf_nil, str]

theorem queryPair_ne_nil (k v : GoString) : queryPair k v ≠ [] := by
  simp [queryPair, str]

theorem Join_eq_nil (l : List GoString) (sep : GoString) (h : ∀ x ∈ l, x ≠ []) :
    Join l sep = [] ↔ l = [] := by
  rcases l with _ | ⟨a, _ | ⟨b, rest⟩⟩
  · simp [Join]
  · simpa [Join] using h a (by simp)
  · simpa [Join] using fun h1 : a = [] => absurd h1 (h a (by simp))

theorem fieldPairs_ne_nil (fs : List (GoString × Option GoString)) :
    ∀ x ∈ fieldPairs fs, x ≠ [] := by
  intro x hx
  simp only [fieldPairs, List.mem_filterMap, Option.map_eq_some'] at hx
  obtain ⟨f, _, v, _, rfl⟩ := hx
  exact queryPair_ne_nil _ _

/-- The encoded query of a transaction history request. -/
theorem historyQuery_Encode (params : ASTransactionHistoryParams) :
    ∃ q, historyQuery (some params) = some q ∧
      q.Encode = Join (fieldPairs (historyFields (some params))) (str "&") := by
  refine ⟨_, historyQuery_eq params, ?_⟩
  apply Encode_fieldValues
  · intro f
    simp only [historyFields, List.mem_cons, List.mem_singleton, List.not_mem_nil, or_false]
    tauto
  · show ([str "revision", str "startDate", str "endDate", str "productId", str "productType",
      str "sort", str "inAppOwnershipType", str "revoked"] : List GoString).Nodup
    decide
  · show List.Pairwise (fun a b => lexLt a b = true)
      [str "endDate", str "inAppOwnershipType", str "productId", str "productType",
        str "revision", str "revoked", str "sort", str "startDate"]
    decide

theorem history_fullURL (s : appStoreServer) (id : GoString)
    (params : Option ASTransactionHistoryParams) :
    fullURL s (Sprintf (str "/inApps/v2/history/%s") [.s id]) (historyQuery params) =
      historyURL s id params := by
  rw [history_path]
  rcases params with _ | params
  · simp [fullURL, historyURL, historyQuery, historyFields, fieldPairs]
  · obtain ⟨q, hq, he⟩ := historyQuery_Encode params
    have hj := Join_eq_nil (fieldPairs (historyFields (some params))) (str "&")
      (fieldPairs_ne_nil _)
    rw [hq]
    by_cases h : fieldPairs (historyFields (some params)) = []
    · have h2 : q.Encode = [] := by rw [he]; exact hj.2 h
      simp [fullURL, historyURL, h, h2]
    · have h2 : Join (fieldPairs (historyFields (some params))) (str "&") ≠ [] :=
        fun h3 => h (hj.1 h3)
      simp only [fullURL, historyURL, he, if_pos h2, if_neg h, List.append_assoc]

theorem GetTransactionHistory_sent {ρ : Type} (E : ServerLib Unit ρ) (s : appStoreServer)
    (id : GoString) (params : Option ASTransactionHistoryParams) :
    (GetTransactionHistory E s id params).sent =
      (doRequest E s (str "GET") (Sprintf (str "/inApps/v2/history/%s") [.s id])
        (historyQuery params) none true : Outcome ρ).sent := by
  unfold GetTransactionHistory
  simp only []
  split <;> rfl

theorem fieldPairs_eq_nil (fs : List (GoString × Option GoString)) :
    fieldPairs fs = [] ↔ ∀ f ∈ fs, f.2 = none := by
  induction fs with
  | nil => simp [fieldPairs]
  | cons f rest ih =>
    rcases f with ⟨k, _ | v⟩
    · simp [fieldPairs]
    · simp [fieldPairs]

theorem Cut_of_not_mem (a : GoString) (sep : Nat) (h : sep ∉ a) : Cut a sep = (a, []) := by
  induction a with
  | nil => rfl
  | cons c rest ih =>
    have h1 : c ≠ sep := fun h2 => h (by simp [h2])
    have h3 : sep ∉ rest := fun h2 => h (by simp [h2])
    simp [Cut, h1, ih h3]

theorem Cut_append (a b : GoString) (sep : Nat) (h : sep ∉ a) :
    Cut (a ++ sep :: b) sep = (a, b) := by
  induction a with
  | nil => simp [Cut]
  | cons c rest ih =>
    have h1 : c ≠ sep := fun h2 => h (by simp [h2])
    have h3 : sep ∉ rest := fun h2 => h (by simp [h2])
    simp [Cut, h1, ih h3]

/-- An escaped text has no `#` and no `?`. -/
theorem QueryEscape_mem (s : GoString) (c : Nat) (hc : c = 35 ∨ c = 63) :
    c ∉ QueryEscape s := by
  induction s with
  | nil => simp [QueryEscape]
  | cons x rest ih =>
    unfold QueryEscape
    have hu : unreserved c = false := by rcases hc with rfl | rfl <;> decide
    have hh : ∀ n, upperhex n ≠ c := by
      intro n
      unfold upperhex
      rcases hc with rfl | rfl <;> split <;> omega
    split
    · rename_i hx
      intro hm
      rcases List.mem_cons.1 hm with h1 | h1
      · rw [h1] at hu
        rw [hx] at hu
        exact absurd hu (by simp)
      · exact ih h1
    · split
      · intro hm
        rcases List.mem_cons.1 hm with h1 | h1
        · rcases hc with rfl | rfl <;> exact absurd h1 (by decide)
        · exact ih h1
      · intro hm
        simp only [List.mem_cons] at hm
        rcases hm with h1 | h1 | h1 | h1
        · rcases hc with rfl | rfl <;> exact absurd h1 (by decide)
        · exact hh _ h1.symm
        · exact hh _ h1.symm
        · exact ih h1

theorem Join_mem (l : List GoString) (sep : GoString) (c : Nat) (h : c ∈ Join l sep) :
    c ∈ sep ∨ ∃ x ∈ l, c ∈ x := by
  induction l with
  | nil => simp [Join] at h
  | cons a rest ih =>
    cases rest with
    | nil => exact Or.inr ⟨a, by simp, by simpa [Join] using h⟩
    | cons b rest2 =>
      simp only [Join, List.mem_append] at h
      rcases h with (h | h) | h
      · exact Or.inr ⟨a, by simp, h⟩
      · exact Or.inl h
      · rcases ih h with h1 | ⟨x, hx, hcx⟩
        · exact Or.inl h1
        · exact Or.inr ⟨x, List.mem_cons_of_mem _ hx, hcx⟩

/-- An encoded query has no `#` and no `?`. -/
theorem fieldPairs_mem (fs : List (GoString × Option GoString)) (c : Nat)
    (hc : c = 35 ∨ c = 63) : c ∉ Join (fieldPairs fs) (str "&") := by
  intro hm
  rcases Join_mem _ _ _ hm with h | ⟨x, hx, hcx⟩
  · rcases hc with rfl | rfl <;> exact absurd h (by decide)
  · simp only [fieldPairs, List.mem_filterMap, Option.map_eq_some'] at hx
    obtain ⟨f, _, v, _, rfl⟩ := hx
    simp only [queryPair, List.mem_append] at hcx
    rcases hcx with (h | h) | h
    · exact QueryEscape_mem _ c hc h
    · rcases hc with rfl | rfl <;> exact absurd h (by decide)
    · exact QueryEscape_mem _ c hc h

/-- What `url.Parse` separates in the URL of a transaction history request when
neither the base URL nor the identifier has a `#` or a `?`. -/
theorem history_split (s : appStoreServer) (id : GoString)
    (params : Option ASTransactionHistoryParams)
    (hb1 : 35 ∉ s.baseURL) (hb2 : 63 ∉ s.baseURL) (hi1 : 35 ∉ id) (hi2 : 63 ∉ id) :
    splitURL (historyURL s id params) =
      ⟨s.baseURL ++ str "/inApps/v2/history/" ++ id,
        Join (fieldPairs (historyFields params)) (str "&"), []⟩ := by
  have hp1 : 35 ∉ s.baseURL ++ str "/inApps/v2/history/" ++ id := by
    simp only [List.mem_append, not_or]
    exact ⟨⟨hb1, by decide⟩, hi1⟩
  have hp2 : 63 ∉ s.baseURL ++ str "/inApps/v2/history/" ++ id := by
    simp only [List.mem_append, not_or]
    exact ⟨⟨hb2, by decide⟩, hi2⟩
  have hq1 := fieldPairs_mem (historyFields params) 35 (Or.inl rfl)
  by_cases h : fieldPairs (historyFields params) = []
  · have hu : historyURL s id params = s.baseURL ++ str "/inApps/v2/history/" ++ id := by
      simp [historyURL, h]
    simp only [splitURL, hu, Cut_of_not_mem _ _ hp1, Cut_of_not_mem _ _ hp2, h, Join]
  · have hu : historyURL s id params = (s.baseURL ++ str "/inApps/v2/history/" ++ id) ++
        63 :: Join (fieldPairs (historyFields params)) (str "&") := by
      simp [historyURL, h, str]
    have hall : 35 ∉ (s.baseURL ++ str "/inApps/v2/history/" ++ id) ++
        63 :: Join (fieldPairs (historyFields params)) (str "&") := by
      intro hm
      rcases List.mem_append.1 hm with h1 | h1
      · exact hp1 h1
      · rcases List.mem_cons.1 h1 with h2 | h2
        · exact absurd h2 (by decide)
        · exact hq1 h2
    simp only [splitURL, hu, Cut_of_not_mem _ _ hall, Cut_append _ _ _ hp2]

/-- C28 as stated fails for an identifier that contains `?` or `#`. With nil
`params` and the identifier `1?x=y`, the URL string given to `http.NewRequest`
has a `?`, and `url.Parse` makes `x=y` the query of the request, which no field
of `params` gave. With the identifier `1#f` and a product identifier in
`params`, the parameter is in the fragment and the query of the request is
empty. -/
theorem history_id_with_query :
    (GetTransactionHistory demoServerLib (demoServer ⟨200, [], .ok []⟩) (str "1?x=y") none).sent =
      [⟨str "GET", str "https://api.storekit-sandbox.itunes.apple.com/inApps/v2/history/1?x=y",
        str "Bearer token", str "application/json", none⟩] ∧
    63 ∈ str "https://api.storekit-sandbox.itunes.apple.com/inApps/v2/history/1?x=y" ∧
    splitURL (str "https://api.storekit-sandbox.itunes.apple.com/inApps/v2/history/1?x=y") =
      ⟨str "https://api.storekit-sandbox.itunes.apple.com/inApps/v2/history/1", str "x=y", []⟩ ∧
    (GetTransactionHistory demoServerLib (demoServer ⟨200, [], .ok []⟩) (str "1#f")
      (some ⟨[], 0, 0, str "com.example.sub", [], [], [], none⟩)).sent =
      [⟨str "GET",
        str ("https://api.storekit-sandbox.itunes.apple.com/inApps/v2/history/1#f" ++
          "?productId=com.example.sub"),
        str "Bearer token", str "application/json", none⟩] ∧
    splitURL (str ("https://api.storekit-sandbox.itunes.apple.com/inApps/v2/history/1#f" ++
        "?productId=com.example.sub")) =
      ⟨str "https://api.storekit-sandbox.itunes.apple.com/inApps/v2/history/1", [],
        str "f?productId=com.example.sub"⟩ :=
  ⟨by decide, by decide, by decide, by decide, by decide⟩

/-- C28, amended. Transaction history query: every request that
`GetTransactionHistory` sends is a GET whose URL string, as given to
`http.NewRequest`, is `historyURL`: the base URL followed by
"/inApps/v2/history/", the identifier as it is and, when some field of `params`
is not zero, `?` and one `key=value` parameter for each such field (revision,
startDate, endDate, productId, productType, sort, inAppOwnershipType, and
revoked for a non-nil pointer) and nothing else, in the order of the keys; the
request is sent when the token is generated and the URL is accepted (second
part). There is no parameter exactly when `params` is nil or all its fields
are zero (third part), and then nothing follows the identifier, so the string
has no `?` when the base URL and the identifier have none (fourth part). When
neither the base URL nor the identifier has a `#` or a `?`, `url.Parse`
separates that string into the text before the identifier's end, a raw query
that is exactly the parameters, empty for nil or all-zero `params`, and no
fragment (last part). -/
theorem transaction_history_query {ρ : Type} (E : ServerLib Unit ρ) (s : appStoreServer)
    (originalTransactionID : GoString) (params : Option ASTransactionHistoryParams) :
    (∀ req ∈ (GetTransactionHistory E s originalTransactionID params).sent,
      req.Method = str "GET" ∧ req.url = historyURL s originalTransactionID params) ∧
    (∀ token, E.generateToken = .ok token →
      E.NewRequest (str "GET") (historyURL s originalTransactionID params) = none →
      (GetTransactionHistory E s originalTransactionID params).sent =
        [⟨str "GET", historyURL s originalTransactionID params, str "Bearer " ++ token,
          str "application/json", none⟩]) ∧
    (fieldPairs (historyFields params) = [] ↔
      params = none ∨ ∃ p, params = some p ∧ p.Revision = [] ∧ p.StartDate = 0 ∧
        p.EndDate = 0 ∧ p.ProductID = [] ∧ p.ProductType = [] ∧ p.SortOrder = [] ∧
        p.InAppOwnershipType = [] ∧ p.Revoked = none) ∧
    (fieldPairs (historyFields params) = [] →
      historyURL s originalTransactionID params =
        s.baseURL ++ str "/inApps/v2/history/" ++ originalTransactionID ∧
      (63 ∉ s.baseURL → 63 ∉ originalTransactionID →
        63 ∉ historyURL s originalTransactionID params)) ∧
    (35 ∉ s.baseURL → 63 ∉ s.baseURL → 35 ∉ originalTransactionID →
      63 ∉ originalTransactionID →
      splitURL (historyURL s originalTransactionID params) =
        ⟨s.baseURL ++ str "/inApps/v2/history/" ++ originalTransactionID,
          Join (fieldPairs (historyFields params)) (str "&"), []⟩) := by
  have hsent := GetTransactionHistory_sent E s originalTransactionID params
  have hurl := history_fullURL s originalTransactionID params
  refine ⟨?_, ?_, ?_, ?_, history_split s originalTransactionID params⟩
  · intro req hreq
    rw [hsent] at hreq
    rcases doRequest_sent E s (str "GET")
      (Sprintf (str "/inApps/v2/history/%s") [.s originalTransactionID]) (historyQuery params)
      none true with h0 | ⟨token, reader, _, _, _, h1⟩
    · rw [h0] at hreq
      simp at hreq
    · rw [h1, List.mem_singleton] at hreq
      rw [hreq, hurl]
      exact ⟨rfl, rfl⟩
  · intro token hT hN
    rw [hsent]
    rw [← hurl] at hN
    rw [doRequest_sent_ok E s _ _ _ none true token none hT rfl hN, hurl]
  · rcases params with _ | p
    · simp [historyFields, fieldPairs]
    · rw [fieldPairs_eq_nil]
      simp [historyFields]
      tauto
  · intro h
    have h2 : historyURL s originalTransactionID params =
        s.baseURL ++ str "/inApps/v2/history/" ++ originalTransactionID := by
      simp [historyURL, h]
    refine ⟨h2, ?_⟩
    intro hb hid
    rw [h2]
    simp only [List.mem_append, not_or]
    exact ⟨⟨hb, by decide⟩, hid⟩

/-- C28, at the request of `TestGetTransactionHistory`, whose only parameter is
the product identifier. -/
theorem transaction_history_query_witness :
    (GetTransactionHistory demoServerLib (demoServer ⟨200, [], .ok []⟩) (str "orig123")
      (some ⟨[], 0, 0, str "com.example.sub", [], [], [], none⟩)).sent =
      [⟨str "GET",
        str ("https://api.storekit-sandbox.itunes.apple.com/inApps/v2/history/orig123" ++
          "?productId=com.example.sub"),
        str "Bearer token", str "application/json", none⟩] ∧
    splitURL (historyURL (demoServer ⟨200, [], .ok []⟩) (str "orig123")
      (some ⟨[], 0, 0, str "com.example.sub", [], [], [], none⟩)) =
      ⟨str "https://api.storekit-sandbox.itunes.apple.com/inApps/v2/history/orig123",
        str "productId=com.example.sub", []⟩ :=
  ⟨((transaction_history_query demoServerLib (demoServer ⟨200, [], .ok []⟩) (str "orig123")
      (some ⟨[], 0, 0, str "com.example.sub", [], [], [], none⟩)).2.1 (str "token") rfl
      rfl).trans rfl,
    ((transaction_history_query demoServerLib (demoServer ⟨200, [], .ok []⟩) (str "orig123")
      (some ⟨[], 0, 0, str "com.example.sub", [], [], [], none⟩)).2.2.2.2 (by decide)
      (by decide) (by decide) (by decide)).trans (by decide)⟩

/-! ### ParseCKPushNotification and parseBool -/

/-- C27, at the payload of `TestParseCKPushNotification_MissingCKField`, which
has no `ck` field. -/
theorem ParseCKPushNotification_rejection_witness :
    ParseCKPushNotification demoUnmarshalCK
      (str "\x7b\"aps\":\x7b\"content-available\":1\x7d\x7d") =
      (none, some ⟨CKErrorBadRequest, str "missing ck field", [], 0, []⟩) :=
  (ParseCKPushNotification_rejection demoUnmarshalCK
    (str "\x7b\"aps\":\x7b\"content-available\":1\x7d\x7d")).2.1 ⟨none⟩ rfl rfl

/-- C30. The mapping of parseBool: when `claims[key]` is a bool, `parseBool`
returns it; when it is a string, `parseBool` returns true exactly when the
string is "true", byte for byte; when it is a float64, `parseBool` returns true
exactly when the number is not zero, that is, some bit below the sign bit is
set; for a missing key, and for a value that is nil or of any other type,
`parseBool` returns false. -/
theorem parseBool_mapping (claims : List (GoString × Any)) (key : GoString) :
    (∀ v, mapIndex claims key = .bool v → parseBool claims key = v) ∧
    (∀ v, mapIndex claims key = .string v → (parseBool claims key = true ↔ v = str "true")) ∧
    (∀ bits, mapIndex claims key = .float64 bits →
      (parseBool claims key = true ↔ bits % 2 ^ 63 ≠ 0)) ∧
    (claims.lookup key = none → parseBool claims key = false) ∧
    ((∀ v, mapIndex claims key ≠ .bool v) → (∀ v, mapIndex claims key ≠ .string v) →
      (∀ bits, mapIndex claims key ≠ .float64 bits) → parseBool claims key = false) := by
  refine ⟨?_, ?_, ?_, ?_, ?_⟩
  · intro v h
    simp [parseBool, h]
  · intro v h
    simp [parseBool, h]
  · intro v h
    simp [parseBool, h, float64NonZero]
  · intro h
    simp [parseBool, mapIndex, h]
  · intro h1 h2 h3
    rcases h : mapIndex claims key with _ | v | v | v | v | v
    · simp [parseBool, h]
    · exact absurd h (h1 v)
    · exact absurd h (h2 v)
    · exact absurd h (h3 v)
    · simp [parseBool, h]
    · simp [parseBool, h]

/-- C30, at a claims map that gives `email_verified` as the string "true" and
has no key `is_admin`. -/
theorem parseBool_mapping_witness :
    (parseBool demoClaims (str "email_verified") = true ↔ str "true" = str "true") ∧
    parseBool demoClaims (str "is_admin") = false :=
  ⟨(parseBool_mapping demoClaims (str "email_verified")).2.1 (str "true") rfl,
    (parseBool_mapping demoClaims (str "is_admin")).2.2.2.1 rfl⟩

end Apple
